import Mathlib

/-!
# Projects and their provider links: a shallow embedding

The project service (`projects/projectsrv/service.go`) and the project
repository (`projects/repository/postgres.go`) are embedded as functions that
pass an explicit `World` along.  The relational store, the `storex` library,
`uuid.New()` and `time.Now()` are collaborators outside the repository; they
are modelled in the first part of the file, the functions of the repository
are translated from their Go text in the second part.  The listing paths of
projects and providers (`providers/repository/postgres.go`, the two
`parseListRequest` handlers), the activation, duplication and search of
projects, and the invitation and membership entities of
`organization/organization.go` follow.
-/

namespace Backend

/-! ## Values -/

/-- The type `uuid.UUID`: sixteen bytes, read as one big-endian number. -/
abbrev UUID := Nat

/-- The value `uuid.Nil`, the all-zero UUID. -/
def uuid.Nil : UUID := 0

/-- The function `uuid.New()` applied to sixteen random bytes `r` (a version 4
UUID): the high nibble of byte 6 is overwritten with 4 and the two top bits of
byte 8 with binary 10. -/
def uuid.New (r : Nat) : UUID :=
  let b := r % 2 ^ 128
  b - (b / 2 ^ 76 % 16) * 2 ^ 76 - (b / 2 ^ 62 % 4) * 2 ^ 62 + 4 * 2 ^ 76 + 2 * 2 ^ 62

/-- A `time.Time`, as a number of nanoseconds. -/
abbrev Time := Int

/-- Go `len(s)` of a string: its number of bytes. -/
def len (s : String) : Nat := s.utf8ByteSize

/-- Go `strings.Contains(s, substr)`. -/
def strings.Contains (s substr : String) : Bool :=
  decide (substr.data <:+: s.data)

/-- The type `models.Metadata`, a `map[string]any`; `none` is the nil map. -/
abbrev Metadata := Option (List (String × String))

/-- The struct `models.Project`. -/
structure Project where
  ID : UUID
  OrganizationID : UUID
  Name : String
  Description : Option String
  IsActive : Bool
  Metadata : Metadata
  CreatedAt : Time
  UpdatedAt : Time
deriving DecidableEq, Repr

/-- The struct `models.ProjectProvider`, one row of `project_providers`. -/
structure ProjectProvider where
  ID : UUID
  ProjectID : UUID
  ProviderID : UUID
  OrganizationID : UUID
  Role : Option String
  IsActive : Bool
  CreatedAt : Time
  UpdatedAt : Time
deriving DecidableEq, Repr

/-- The struct `dto.CreateProjectRequest`. -/
structure CreateProjectRequest where
  OrganizationID : UUID
  Name : String
  Description : Option String
  Metadata : Metadata
  ProviderIDs : List UUID
deriving DecidableEq, Repr

/-- The struct `dto.UpdateProjectRequest`; a nil pointer is `none`. -/
structure UpdateProjectRequest where
  Name : Option String
  Description : Option String
  IsActive : Option Bool
  Metadata : Metadata
deriving DecidableEq, Repr

/-- The struct `dto.AddProviderRequest`. -/
structure AddProviderRequest where
  ProviderID : UUID
  Role : Option String
deriving DecidableEq, Repr

/-- The struct `dto.BulkProviderRequest`. -/
structure BulkProviderRequest where
  ProviderIDs : List UUID
deriving DecidableEq, Repr

/-- The struct `models.Provider`, one row of `providers`. -/
structure Provider where
  ID : UUID
  UserID : Option UUID
  OrganizationID : UUID
  Name : String
  ProviderCode : Option String
  IsActive : Bool
  Metadata : Metadata
  CreatedAt : Time
  UpdatedAt : Time
deriving DecidableEq, Repr

/-- Go arithmetic on `int` and `int64`: the exact result wrapped to 64 bits,
two's complement. -/
def wrapInt (x : Int) : Int := (x + 2 ^ 63) % 2 ^ 64 - 2 ^ 63

/-- The struct `dto.ProjectListRequest`. -/
structure ProjectListRequest where
  OrganizationID : Option UUID
  IsActive : Option Bool
  Search : Option String
  Page : Int
  PageSize : Int
  SortBy : String
  SortOrder : String
deriving DecidableEq, Repr

/-- The struct `dto.ProjectListResponse`. -/
structure ProjectListResponse where
  Projects : List Project
  Total : Int
  Page : Int
  PageSize : Int
  TotalPages : Int
  HasNext : Bool
  HasPrevious : Bool
deriving DecidableEq, Repr

/-- The struct `projectsrv.ProjectStats`. -/
structure ProjectStats where
  TotalProjects : Int
  ActiveProjects : Int
  InactiveProjects : Int
deriving DecidableEq, Repr

/-- The struct `dto.ProviderListRequest` of the providers domain. -/
structure ProviderListRequest where
  OrganizationID : Option UUID
  IsActive : Option Bool
  Search : Option String
  Page : Int
  PageSize : Int
  OrderBy : Option String
  Desc : Bool
deriving DecidableEq, Repr

/-- The struct `dto.ProviderResponse`. -/
structure ProviderResponse where
  ID : UUID
  UserID : Option UUID
  OrganizationID : UUID
  Name : String
  ProviderCode : Option String
  IsActive : Bool
  Metadata : Metadata
  CreatedAt : Time
  UpdatedAt : Time
deriving DecidableEq, Repr

/-- The struct `dto.ProviderListResponse`. -/
structure ProviderListResponse where
  Data : List ProviderResponse
  Page : Int
  PageSize : Int
  Total : Int
  TotalPages : Int
  HasNext : Bool
  HasPrev : Bool
deriving DecidableEq, Repr

/-- One entry of a `"$or"` filter: `column ILIKE pattern`. -/
structure IlikeCond where
  column : String
  pattern : String
deriving DecidableEq, Repr

/-- The `Filters` map of `storex.PaginationOptions`, with the three keys the
repositories ever set: `"organization_id"`, `"is_active"` and `"$or"`; an
absent key is `none`. -/
structure Filters where
  organization_id : Option UUID
  is_active : Option Bool
  orIlike : Option (List IlikeCond)
deriving DecidableEq, Repr

/-- The struct `storex.PaginationOptions`, with the fields the two
repositories fill in: the projects repository writes `SortBy` and `SortDesc`,
the providers repository `OrderBy` and `Desc`; a field a composite literal
leaves out has its zero value. -/
structure PaginationOptions where
  Page : Int
  PageSize : Int
  SortBy : String
  SortDesc : Bool
  OrderBy : String
  Desc : Bool
  Filters : Filters
deriving DecidableEq, Repr

/-- The struct `storex.Paginated[T]`, with the fields the repositories read. -/
structure Paginated (α : Type) where
  Data : List α
  Total : Int
  Page : Int
  PageSize : Int
  TotalPages : Int
  HasNext : Bool
  HasPrevious : Bool
deriving DecidableEq, Repr

/-! ## Errors -/

/-- An error returned by the store or by `storex`: its `Error()` text and
whether `storex.IsRecordNotFound` (or `== sql.ErrNoRows`) holds of it. -/
structure DbErr where
  msg : String
  notFound : Bool
deriving DecidableEq, Repr

/-- The predicate `storex.IsRecordNotFound`. -/
def storex.IsRecordNotFound (err : DbErr) : Bool := err.notFound

/-- The error types of `errx` used by the registry in `projects/errors.go`. -/
inductive ErrType
  | TypeNotFound
  | TypeConflict
  | TypeInternal
  | TypeValidation
  | TypeBusiness
deriving DecidableEq, Repr

/-- The error codes registered in `projects/errors.go`, under the names of the
Go variables that hold them. -/
inductive ErrCode
  | ErrProjectNotFound
  | ErrProjectNameExists
  | ErrProjectCreateFailed
  | ErrProjectUpdateFailed
  | ErrProjectDeleteFailed
  | ErrProjectListFailed
  | ErrProjectSearchFailed
  | ErrProjectValidationFailed
  | ErrProjectCannotDelete
  | ErrProjectInactive
  | ErrProjectProviderNotFound
  | ErrProjectProviderExists
  | ErrProjectProviderManagementFailed
  | ErrProjectBulkCreateFailed
  | ErrProjectBulkUpdateFailed
  | ErrProjectBulkDeleteFailed
deriving DecidableEq, Repr

/-- The code string each error is registered under. -/
def ErrCode.code : ErrCode → String
  | .ErrProjectNotFound => "NOT_FOUND"
  | .ErrProjectNameExists => "NAME_EXISTS"
  | .ErrProjectCreateFailed => "CREATE_FAILED"
  | .ErrProjectUpdateFailed => "UPDATE_FAILED"
  | .ErrProjectDeleteFailed => "DELETE_FAILED"
  | .ErrProjectListFailed => "LIST_FAILED"
  | .ErrProjectSearchFailed => "SEARCH_FAILED"
  | .ErrProjectValidationFailed => "VALIDATION_FAILED"
  | .ErrProjectCannotDelete => "CANNOT_DELETE"
  | .ErrProjectInactive => "INACTIVE"
  | .ErrProjectProviderNotFound => "PROVIDER_NOT_FOUND"
  | .ErrProjectProviderExists => "PROVIDER_EXISTS"
  | .ErrProjectProviderManagementFailed => "PROVIDER_MANAGEMENT_FAILED"
  | .ErrProjectBulkCreateFailed => "BULK_CREATE_FAILED"
  | .ErrProjectBulkUpdateFailed => "BULK_UPDATE_FAILED"
  | .ErrProjectBulkDeleteFailed => "BULK_DELETE_FAILED"

/-- The error type each code is registered with. -/
def ErrCode.errType : ErrCode → ErrType
  | .ErrProjectNotFound => .TypeNotFound
  | .ErrProjectNameExists => .TypeConflict
  | .ErrProjectCreateFailed => .TypeInternal
  | .ErrProjectUpdateFailed => .TypeInternal
  | .ErrProjectDeleteFailed => .TypeInternal
  | .ErrProjectListFailed => .TypeInternal
  | .ErrProjectSearchFailed => .TypeInternal
  | .ErrProjectValidationFailed => .TypeValidation
  | .ErrProjectCannotDelete => .TypeBusiness
  | .ErrProjectInactive => .TypeBusiness
  | .ErrProjectProviderNotFound => .TypeNotFound
  | .ErrProjectProviderExists => .TypeConflict
  | .ErrProjectProviderManagementFailed => .TypeInternal
  | .ErrProjectBulkCreateFailed => .TypeInternal
  | .ErrProjectBulkUpdateFailed => .TypeInternal
  | .ErrProjectBulkDeleteFailed => .TypeInternal

/-- The HTTP status each code is registered with. -/
def ErrCode.httpStatus : ErrCode → Nat
  | .ErrProjectNotFound => 404
  | .ErrProjectNameExists => 409
  | .ErrProjectValidationFailed => 400
  | .ErrProjectCannotDelete => 409
  | .ErrProjectInactive => 409
  | .ErrProjectProviderNotFound => 404
  | .ErrProjectProviderExists => 409
  | _ => 500

/-- A value given to `WithDetail`: a string, or the `String()` of a UUID. -/
inductive Detail
  | str (s : String)
  | uuid (u : UUID)
deriving DecidableEq, Repr

/-- An `errx.Error` of the projects registry. -/
structure Error where
  Code : ErrCode
  Details : List (String × Detail)
  Cause : Option DbErr
deriving DecidableEq, Repr

/-- The call `ProjectsErrors.New(code)`. -/
def ProjectsErrors.New (code : ErrCode) : Error :=
  { Code := code, Details := [], Cause := none }

/-- The method `WithDetail(key, value)`. -/
def Error.WithDetail (e : Error) (key : String) (value : Detail) : Error :=
  { e with Details := e.Details ++ [(key, value)] }

/-- The method `WithCause(err)`. -/
def Error.WithCause (e : Error) (err : DbErr) : Error :=
  { e with Cause := some err }

/-! ## The store

The relational store is outside the repository.  Its tables are lists of rows
in insertion order.  The table definitions are not part of the sources: the
names of the two unique indexes and the column defaults of `project_providers`
are parameters (`Schema`); primary-key constraints carry the default
PostgreSQL name `<table>_pkey`.  Any other failure of the store (lost
connection, foreign key, cancelled context) is scheduled from outside through
`World.fault`. -/

/-- The rows of the tables. -/
structure DB where
  projects : List Project
  project_providers : List ProjectProvider
  providers : List Provider
deriving DecidableEq, Repr

/-- The columns of `project_providers` that a statement may leave to their
column defaults. -/
structure LinkDefaults where
  Role : Option String
  IsActive : Bool
  CreatedAt : Time
  UpdatedAt : Time
deriving DecidableEq, Repr

/-- What the sources do not say about the tables: the name of the unique index
on `projects (name, organization_id)`, the name of the unique index on
`project_providers (project_id, provider_id)` (the arbiter of the
`ON CONFLICT` clause), the column defaults of `project_providers` at a
given time of the store, and the order in which `ORDER BY column` (descending
if the flag is set; no `ORDER BY` for the empty column) returns a set of rows
under the collation of the store, of which only this is known: it returns
the same rows; and the position of the column `metadata` among the columns of
`providers`, counted from 0. -/
structure Schema where
  projectsNameOrgUnique : String
  projectProvidersUnique : String
  linkDefaults : Time → LinkDefaults
  providersMetadataIndex : Nat
  orderProjects : String → Bool → List Project → List Project
  orderProviders : String → Bool → List Provider → List Provider
  orderProjects_perm : ∀ column desc rows, (orderProjects column desc rows).Perm rows
  orderProviders_perm : ∀ column desc rows, (orderProviders column desc rows).Perm rows

/-- The values bound to one `($1, $2, $3, $4)` group of the bulk insert. -/
structure LinkArgs where
  id : UUID
  project_id : UUID
  provider_id : UUID
  organization_id : UUID
deriving DecidableEq, Repr

/-- One round trip to the store, as the repository issues it. -/
inductive StoreCall
  | projectsCreate (p : Project)
  | projectsFindByID (id : UUID)
  | projectsUpdate (id : UUID) (p : Project)
  | projectProvidersCreate (pp : ProjectProvider)
  | deleteProjectProvider (projectID providerID : UUID)
  | insertProjectProviders (rows : List LinkArgs)
  | deleteProjectProvidersIn (projectID : UUID) (providerIDs : List UUID)
  | countProjectsByName (name : String) (orgID : UUID) (excludeID : Option UUID)
  | projectsPaginate (opts : PaginationOptions)
  | countProjectsByOrganization (orgID : UUID)
  | providersPaginate (opts : PaginationOptions)
  | selectProvidersSearch (pattern : String) (orgID : Option UUID) (isActive : Option Bool)
      (orderBy direction : String) (limit offset : Int)
  | countProvidersSearch (pattern : String) (orgID : Option UUID) (isActive : Option Bool)
  | selectProjectProviders (projectID : UUID)
  | selectProjectsSearch (orgID : UUID) (pattern : String)
deriving DecidableEq, Repr

/-- Everything an operation can read or change: the tables, the table
definitions, the log of round trips made so far, the failure scheduled for
each round trip (`fault n` for the round trip number `n`, counted from 0), the
random bytes behind `uuid.New()` with the number already drawn, and the
readings of `time.Now()` with the number already taken. -/
structure World where
  db : DB
  schema : Schema
  log : List StoreCall
  fault : Nat → Option DbErr
  rand : Nat → Nat
  drawn : Nat
  clock : Nat → Time
  ticks : Nat

/-- The call `uuid.New()`. -/
def World.uuidNew (w : World) : UUID × World :=
  (uuid.New (w.rand w.drawn), { w with drawn := w.drawn + 1 })

/-- The call `time.Now()`. -/
def World.timeNow (w : World) : Time × World :=
  (w.clock w.ticks, { w with ticks := w.ticks + 1 })

/-- The error of PostgreSQL for a violated unique index, as the driver words
it. -/
def uniqueViolation (name : String) : DbErr :=
  { msg := "pq: duplicate key value violates unique constraint \"" ++ name ++ "\"",
    notFound := false }

/-- The error of `storex` for a row that is not there. -/
def recordNotFound : DbErr :=
  { msg := "record not found", notFound := true }

/-- One round trip: the call is logged; if a failure is scheduled for it the
tables stay as they are, otherwise the statement `run` is applied to them. -/
def World.call {α : Type} (w : World) (c : StoreCall)
    (run : DB → Except DbErr (α × DB)) : Except DbErr α × World :=
  let w1 := { w with log := w.log ++ [c] }
  match w.fault w.log.length with
  | some e => (.error e, w1)
  | none =>
    match run w.db with
    | .error e => (.error e, w1)
    | .ok (a, db) => (.ok a, { w1 with db := db })

/-- Is there a link row for this (project, provider) pair? -/
def hasPair (t : List ProjectProvider) (projectID providerID : UUID) : Bool :=
  t.any (fun l => l.ProjectID == projectID && l.ProviderID == providerID)

/-- Is there a link row with this primary key? -/
def hasLinkID (t : List ProjectProvider) (id : UUID) : Bool :=
  t.any (fun l => l.ID == id)

/-- `SELECT * FROM projects WHERE id = $1`. -/
def DB.findProject (db : DB) (id : UUID) : Option Project :=
  db.projects.find? (fun p => p.ID == id)

/-- `INSERT INTO projects` of a full row: primary key, then the unique index
on (name, organization_id). -/
def DB.insertProject (sch : Schema) (db : DB) (p : Project) : Except DbErr (Project × DB) :=
  if db.projects.any (fun q => q.ID == p.ID) then
    .error (uniqueViolation "projects_pkey")
  else if db.projects.any (fun q => q.Name == p.Name && q.OrganizationID == p.OrganizationID) then
    .error (uniqueViolation sch.projectsNameOrgUnique)
  else
    .ok (p, { db with projects := db.projects ++ [p] })

/-- `UPDATE projects SET ... WHERE id = $1` with a full row: no such row is
the record-not-found error; the unique index on (name, organization_id) is
checked against the other rows. -/
def DB.updateProject (sch : Schema) (db : DB) (id : UUID) (p : Project) :
    Except DbErr (Project × DB) :=
  if db.projects.any (fun q => q.ID == id) then
    if db.projects.any
        (fun q => q.ID != id && q.Name == p.Name && q.OrganizationID == p.OrganizationID) then
      .error (uniqueViolation sch.projectsNameOrgUnique)
    else
      .ok (p, { db with projects := db.projects.map (fun q => if q.ID == id then p else q) })
  else
    .error recordNotFound

/-- `INSERT INTO project_providers` of a full row: primary key, then the
unique index on (project_id, provider_id). -/
def DB.insertLink (sch : Schema) (db : DB) (pp : ProjectProvider) :
    Except DbErr (ProjectProvider × DB) :=
  if hasLinkID db.project_providers pp.ID then
    .error (uniqueViolation "project_providers_pkey")
  else if hasPair db.project_providers pp.ProjectID pp.ProviderID then
    .error (uniqueViolation sch.projectProvidersUnique)
  else
    .ok (pp, { db with project_providers := db.project_providers ++ [pp] })

/-- `DELETE FROM project_providers WHERE project_id = $1 AND provider_id = $2`;
the number returned is the number of rows deleted. -/
def DB.deleteLink (db : DB) (projectID providerID : UUID) : Nat × DB :=
  let hit := fun (l : ProjectProvider) => l.ProjectID == projectID && l.ProviderID == providerID
  ((db.project_providers.filter hit).length,
   { db with project_providers := db.project_providers.filter (fun l => !hit l) })

/-- The row a bulk insert writes for one group of arguments: the four listed
columns, the others from the column defaults. -/
def LinkArgs.row (d : LinkDefaults) (a : LinkArgs) : ProjectProvider :=
  { ID := a.id, ProjectID := a.project_id, ProviderID := a.provider_id,
    OrganizationID := a.organization_id, Role := d.Role, IsActive := d.IsActive,
    CreatedAt := d.CreatedAt, UpdatedAt := d.UpdatedAt }

/-- `INSERT INTO project_providers (id, project_id, provider_id,
organization_id) VALUES ... ON CONFLICT (project_id, provider_id) DO NOTHING`,
row by row: a row whose pair is already there (from before or from an earlier
row of the same statement) is skipped; a row that collides on the primary key
only makes the statement fail. -/
def insertOnConflictDoNothing (d : LinkDefaults) :
    List ProjectProvider → List LinkArgs → Except DbErr (List ProjectProvider)
  | t, [] => .ok t
  | t, a :: rest =>
    if hasPair t a.project_id a.provider_id then
      insertOnConflictDoNothing d t rest
    else if hasLinkID t a.id then
      .error (uniqueViolation "project_providers_pkey")
    else
      insertOnConflictDoNothing d (t ++ [a.row d]) rest

/-- The bulk insert as one statement: all rows or, on an error, none. -/
def DB.insertLinksIgnore (d : LinkDefaults) (db : DB) (rows : List LinkArgs) :
    Except DbErr (Unit × DB) :=
  match insertOnConflictDoNothing d db.project_providers rows with
  | .error e => .error e
  | .ok t => .ok ((), { db with project_providers := t })

/-- `DELETE FROM project_providers WHERE project_id = $1 AND provider_id IN
(...)`. -/
def DB.deleteLinksIn (db : DB) (projectID : UUID) (providerIDs : List UUID) : DB :=
  let hit := fun (l : ProjectProvider) =>
    l.ProjectID == projectID && providerIDs.contains l.ProviderID
  { db with project_providers := db.project_providers.filter (fun l => !hit l) }

/-- `SELECT COUNT(*) FROM projects WHERE name = $1 AND organization_id = $2`,
with `AND id != $3` when an identity to exclude is given. -/
def DB.countByName (db : DB) (name : String) (orgID : UUID) (excludeID : Option UUID) : Nat :=
  match excludeID with
  | none =>
    (db.projects.filter (fun q => q.Name == name && q.OrganizationID == orgID)).length
  | some x =>
    (db.projects.filter
      (fun q => q.Name == name && q.OrganizationID == orgID && q.ID != x)).length

/-! ### The calls of `storex` and `sqlx` the repository makes -/

/-- The call `r.repo.FindByID(ctx, id.String())`. -/
def PgRepository.FindByID (w : World) (id : UUID) : Except DbErr Project × World :=
  w.call (.projectsFindByID id) (fun db =>
    match db.findProject id with
    | some p => .ok (p, db)
    | none => .error recordNotFound)

/-- The call `r.repo.Create(ctx, *project)`. -/
def PgRepository.Create (w : World) (p : Project) : Except DbErr Project × World :=
  w.call (.projectsCreate p) (fun db => db.insertProject w.schema p)

/-- The call `r.repo.Update(ctx, id.String(), *project)`. -/
def PgRepository.Update (w : World) (id : UUID) (p : Project) : Except DbErr Project × World :=
  w.call (.projectsUpdate id p) (fun db => db.updateProject w.schema id p)

/-- The call `r.providerRepo.Create(ctx, *projectProvider)`. -/
def PgRepository.CreateLink (w : World) (pp : ProjectProvider) :
    Except DbErr ProjectProvider × World :=
  w.call (.projectProvidersCreate pp) (fun db => db.insertLink w.schema pp)

/-- The call `r.db.ExecContext` of `RemoveProvider` followed by
`result.RowsAffected()`, which the PostgreSQL driver answers without error. -/
def sqlx.ExecDeleteLink (w : World) (projectID providerID : UUID) : Except DbErr Nat × World :=
  w.call (.deleteProjectProvider projectID providerID) (fun db =>
    .ok (db.deleteLink projectID providerID))

/-- The call `r.db.ExecContext` of `AddProvidersBulk`; the columns not listed
take their defaults at the present time of the store. -/
def sqlx.ExecInsertLinks (w : World) (rows : List LinkArgs) : Except DbErr Unit × World :=
  w.call (.insertProjectProviders rows) (fun db =>
    db.insertLinksIgnore (w.schema.linkDefaults (w.clock w.ticks)) rows)

/-- The call `r.db.ExecContext` of `RemoveProvidersBulk`. -/
def sqlx.ExecDeleteLinksIn (w : World) (projectID : UUID) (providerIDs : List UUID) :
    Except DbErr Unit × World :=
  w.call (.deleteProjectProvidersIn projectID providerIDs) (fun db =>
    .ok ((), db.deleteLinksIn projectID providerIDs))

/-- The call `r.db.GetContext(ctx, &count, query, args...)` of
`ExistsByNameAndOrganization`. -/
def sqlx.GetCountByName (w : World) (name : String) (orgID : UUID) (excludeID : Option UUID) :
    Except DbErr Nat × World :=
  w.call (.countProjectsByName name orgID excludeID) (fun db =>
    .ok (db.countByName name orgID excludeID, db))

/-! ## The repository (`projects/repository/postgres.go`) -/

/-- The method `projectRepository.Create`. -/
def projectRepository.Create (w : World) (project : Project) : Except Error Project × World :=
  let (project, w0) :=
    if project.ID == uuid.Nil then
      let (id, w0) := w.uuidNew
      ({ project with ID := id }, w0)
    else (project, w)
  match PgRepository.Create w0 project with
  | (.error err, w1) =>
    if strings.Contains err.msg "projects_name_org_unique" then
      (.error ((((ProjectsErrors.New .ErrProjectNameExists).WithDetail
        "name" (.str project.Name)).WithDetail
        "organization_id" (.uuid project.OrganizationID)).WithCause err), w1)
    else
      (.error (((ProjectsErrors.New .ErrProjectCreateFailed).WithDetail
        "project_name" (.str project.Name)).WithCause err), w1)
  | (.ok result, w1) => (.ok result, w1)

/-- The method `projectRepository.GetByID`. -/
def projectRepository.GetByID (w : World) (id : UUID) : Except Error Project × World :=
  match PgRepository.FindByID w id with
  | (.error err, w1) =>
    if storex.IsRecordNotFound err then
      (.error ((ProjectsErrors.New .ErrProjectNotFound).WithDetail "project_id" (.uuid id)), w1)
    else
      (.error (((ProjectsErrors.New .ErrProjectNotFound).WithDetail
        "project_id" (.uuid id)).WithCause err), w1)
  | (.ok result, w1) => (.ok result, w1)

/-- The method `projectRepository.Update`. -/
def projectRepository.Update (w : World) (id : UUID) (project : Project) :
    Except Error Project × World :=
  let project := { project with ID := id }
  match PgRepository.Update w id project with
  | (.error err, w1) =>
    if strings.Contains err.msg "projects_name_org_unique" then
      (.error ((((ProjectsErrors.New .ErrProjectNameExists).WithDetail
        "name" (.str project.Name)).WithDetail
        "organization_id" (.uuid project.OrganizationID)).WithCause err), w1)
    else if storex.IsRecordNotFound err then
      (.error ((ProjectsErrors.New .ErrProjectNotFound).WithDetail "project_id" (.uuid id)), w1)
    else
      (.error (((ProjectsErrors.New .ErrProjectUpdateFailed).WithDetail
        "project_id" (.uuid id)).WithCause err), w1)
  | (.ok result, w1) => (.ok result, w1)

/-- The method `projectRepository.AddProvider`. -/
def projectRepository.AddProvider (w : World) (projectProvider : ProjectProvider) :
    Except Error ProjectProvider × World :=
  let (projectProvider, w0) :=
    if projectProvider.ID == uuid.Nil then
      let (id, w0) := w.uuidNew
      ({ projectProvider with ID := id }, w0)
    else (projectProvider, w)
  match PgRepository.CreateLink w0 projectProvider with
  | (.error err, w1) =>
    if strings.Contains err.msg "project_providers_unique" then
      (.error ((((ProjectsErrors.New .ErrProjectProviderExists).WithDetail
        "project_id" (.uuid projectProvider.ProjectID)).WithDetail
        "provider_id" (.uuid projectProvider.ProviderID)).WithCause err), w1)
    else
      (.error ((((ProjectsErrors.New .ErrProjectProviderManagementFailed).WithDetail
        "project_id" (.uuid projectProvider.ProjectID)).WithDetail
        "provider_id" (.uuid projectProvider.ProviderID)).WithCause err), w1)
  | (.ok result, w1) => (.ok result, w1)

/-- The method `projectRepository.RemoveProvider`. -/
def projectRepository.RemoveProvider (w : World) (projectID providerID : UUID) :
    Except Error Unit × World :=
  match sqlx.ExecDeleteLink w projectID providerID with
  | (.error err, w1) =>
    (.error ((((ProjectsErrors.New .ErrProjectProviderManagementFailed).WithDetail
      "project_id" (.uuid projectID)).WithDetail
      "provider_id" (.uuid providerID)).WithCause err), w1)
  | (.ok rowsAffected, w1) =>
    if rowsAffected == 0 then
      (.error (((ProjectsErrors.New .ErrProjectProviderNotFound).WithDetail
        "project_id" (.uuid projectID)).WithDetail
        "provider_id" (.uuid providerID)), w1)
    else
      (.ok (), w1)

/-- The loop of `AddProvidersBulk` that fills `args`: one `uuid.New()` per
provider ID, in the order of the list. -/
def projectRepository.bulkArgs (projectID organizationID : UUID) :
    World → List UUID → List LinkArgs × World
  | w, [] => ([], w)
  | w, providerID :: rest =>
    let (id, w1) := w.uuidNew
    let (args, w2) := projectRepository.bulkArgs projectID organizationID w1 rest
    ({ id := id, project_id := projectID, provider_id := providerID,
       organization_id := organizationID } :: args, w2)

/-- The method `projectRepository.AddProvidersBulk`. -/
def projectRepository.AddProvidersBulk (w : World) (projectID : UUID) (providerIDs : List UUID) :
    Except Error Unit × World :=
  if providerIDs.length == 0 then
    (.ok (), w)
  else
    match projectRepository.GetByID w projectID with
    | (.error err, w1) => (.error err, w1)
    | (.ok project, w1) =>
      let (args, w2) := projectRepository.bulkArgs projectID project.OrganizationID w1 providerIDs
      match sqlx.ExecInsertLinks w2 args with
      | (.error err, w3) =>
        (.error (((ProjectsErrors.New .ErrProjectProviderManagementFailed).WithDetail
          "project_id" (.uuid projectID)).WithCause err), w3)
      | (.ok _, w3) => (.ok (), w3)

/-- The method `projectRepository.RemoveProvidersBulk`. -/
def projectRepository.RemoveProvidersBulk (w : World) (projectID : UUID)
    (providerIDs : List UUID) : Except Error Unit × World :=
  if providerIDs.length == 0 then
    (.ok (), w)
  else
    match sqlx.ExecDeleteLinksIn w projectID providerIDs with
    | (.error err, w1) =>
      (.error (((ProjectsErrors.New .ErrProjectProviderManagementFailed).WithDetail
        "project_id" (.uuid projectID)).WithCause err), w1)
    | (.ok _, w1) => (.ok (), w1)

/-- The method `projectRepository.ExistsByNameAndOrganization`. -/
def projectRepository.ExistsByNameAndOrganization (w : World) (name : String) (orgID : UUID)
    (excludeID : Option UUID) : Except Error Bool × World :=
  match sqlx.GetCountByName w name orgID excludeID with
  | (.error err, w1) =>
    (.error ((((ProjectsErrors.New .ErrProjectValidationFailed).WithDetail
      "name" (.str name)).WithDetail
      "organization_id" (.uuid orgID)).WithCause err), w1)
  | (.ok count, w1) => (.ok (decide (count > 0)), w1)

/-! ## The service (`projects/projectsrv/service.go`)

A `*dto.ProjectResponse` wraps the project it is built from and a
`*dto.ProjectProviderResponse` the link; the functions below return the
wrapped value. -/

/-- The method `projectService.validateCreateRequest`; `none` is the nil
error. -/
def projectService.validateCreateRequest (req : CreateProjectRequest) : Option Error :=
  if req.OrganizationID == uuid.Nil then
    some (((ProjectsErrors.New .ErrProjectValidationFailed).WithDetail
      "field" (.str "organization_id")).WithDetail "reason" (.str "required"))
  else if req.Name == "" then
    some (((ProjectsErrors.New .ErrProjectValidationFailed).WithDetail
      "field" (.str "name")).WithDetail "reason" (.str "required"))
  else if len req.Name > 255 then
    some ((((ProjectsErrors.New .ErrProjectValidationFailed).WithDetail
      "field" (.str "name")).WithDetail "reason" (.str "too_long")).WithDetail
      "max_length" (.str "255"))
  else if req.Description.any (fun d => len d > 1000) then
    some ((((ProjectsErrors.New .ErrProjectValidationFailed).WithDetail
      "field" (.str "description")).WithDetail "reason" (.str "too_long")).WithDetail
      "max_length" (.str "1000"))
  else
    none

/-- The method `projectService.CreateProject`. -/
def projectService.CreateProject (w : World) (req : CreateProjectRequest) :
    Except Error Project × World :=
  match projectService.validateCreateRequest req with
  | some err => (.error err, w)
  | none =>
    match projectRepository.ExistsByNameAndOrganization w req.Name req.OrganizationID none with
    | (.error err, w1) => (.error err, w1)
    | (.ok found, w1) =>
      if found then
        (.error (((ProjectsErrors.New .ErrProjectNameExists).WithDetail
          "name" (.str req.Name)).WithDetail
          "organization_id" (.uuid req.OrganizationID)), w1)
      else
        let (createdAt, w2) := w1.timeNow
        let (updatedAt, w3) := w2.timeNow
        let project : Project :=
          { ID := uuid.Nil, OrganizationID := req.OrganizationID, Name := req.Name,
            Description := req.Description, IsActive := true, Metadata := req.Metadata,
            CreatedAt := createdAt, UpdatedAt := updatedAt }
        let project :=
          if project.Metadata == none then { project with Metadata := some [] } else project
        match projectRepository.Create w3 project with
        | (.error err, w4) => (.error err, w4)
        | (.ok createdProject, w4) =>
          if req.ProviderIDs.length > 0 then
            match projectRepository.AddProvidersBulk w4 createdProject.ID req.ProviderIDs with
            | (_, w5) => (.ok createdProject, w5)
          else
            (.ok createdProject, w4)

/-- The "apply updates" block of `projectService.UpdateProject`: the copy of
the stored project with the fields present in the request written over it and
`UpdatedAt` set to the reading `now` of `time.Now()`. -/
def projectService.UpdateProject.updatedProject (existingProject : Project)
    (req : UpdateProjectRequest) (now : Time) : Project :=
  let updatedProject := existingProject
  let updatedProject :=
    match req.Name with
    | some name => { updatedProject with Name := name }
    | none => updatedProject
  let updatedProject :=
    match req.Description with
    | some d => { updatedProject with Description := some d }
    | none => updatedProject
  let updatedProject :=
    match req.IsActive with
    | some b => { updatedProject with IsActive := b }
    | none => updatedProject
  let updatedProject :=
    match req.Metadata with
    | some m => { updatedProject with Metadata := some m }
    | none => updatedProject
  { updatedProject with UpdatedAt := now }

/-- The part of `projectService.UpdateProject` after the name check: the
updates are applied and the copy is handed to the repository. -/
def projectService.UpdateProject.apply (w : World) (id : UUID) (existingProject : Project)
    (req : UpdateProjectRequest) : Except Error Project × World :=
  let (now, w1) := w.timeNow
  let updatedProject := projectService.UpdateProject.updatedProject existingProject req now
  match projectRepository.Update w1 id updatedProject with
  | (.error err, w2) => (.error err, w2)
  | (.ok result, w2) => (.ok result, w2)

/-- The method `projectService.UpdateProject`. -/
def projectService.UpdateProject (w : World) (id : UUID) (req : UpdateProjectRequest) :
    Except Error Project × World :=
  match projectRepository.GetByID w id with
  | (.error err, w1) => (.error err, w1)
  | (.ok existingProject, w1) =>
    match req.Name with
    | some name =>
      if name != existingProject.Name then
        match projectRepository.ExistsByNameAndOrganization w1 name
            existingProject.OrganizationID (some id) with
        | (.error err, w2) => (.error err, w2)
        | (.ok found, w2) =>
          if found then
            (.error (((ProjectsErrors.New .ErrProjectNameExists).WithDetail
              "name" (.str name)).WithDetail
              "organization_id" (.uuid existingProject.OrganizationID)), w2)
          else
            projectService.UpdateProject.apply w2 id existingProject req
      else
        projectService.UpdateProject.apply w1 id existingProject req
    | none => projectService.UpdateProject.apply w1 id existingProject req

/-- The method `projectService.AddProvider`. -/
def projectService.AddProvider (w : World) (projectID : UUID) (req : AddProviderRequest) :
    Except Error ProjectProvider × World :=
  match projectRepository.GetByID w projectID with
  | (.error err, w1) => (.error err, w1)
  | (.ok project, w1) =>
    let (createdAt, w2) := w1.timeNow
    let (updatedAt, w3) := w2.timeNow
    let projectProvider : ProjectProvider :=
      { ID := uuid.Nil, ProjectID := projectID, ProviderID := req.ProviderID,
        OrganizationID := project.OrganizationID, Role := req.Role, IsActive := true,
        CreatedAt := createdAt, UpdatedAt := updatedAt }
    match projectRepository.AddProvider w3 projectProvider with
    | (.error err, w4) => (.error err, w4)
    | (.ok result, w4) => (.ok result, w4)

/-- The method `projectService.RemoveProvider`. -/
def projectService.RemoveProvider (w : World) (projectID providerID : UUID) :
    Except Error Unit × World :=
  projectRepository.RemoveProvider w projectID providerID

/-- The method `projectService.AddProvidersBulk`. -/
def projectService.AddProvidersBulk (w : World) (projectID : UUID) (req : BulkProviderRequest) :
    Except Error Unit × World :=
  match projectRepository.GetByID w projectID with
  | (.error err, w1) => (.error err, w1)
  | (.ok _, w1) => projectRepository.AddProvidersBulk w1 projectID req.ProviderIDs

/-- The method `projectService.RemoveProvidersBulk`. -/
def projectService.RemoveProvidersBulk (w : World) (projectID : UUID)
    (req : BulkProviderRequest) : Except Error Unit × World :=
  projectRepository.RemoveProvidersBulk w projectID req.ProviderIDs

/-! ## Listing: the store side

`storex.Paginate` and the statements of `searchProviders` are outside the
repository. Their model follows the listing contract of the specification:
the rows that satisfy the filters, in the order asked for, cut to the page
asked for, with the number of all matching rows as the total. -/

/-- Does `f` hold of some suffix of the text? (What a `%` of a `LIKE` pattern
may skip.) -/
def anySuffix (f : List Char → Bool) : List Char → Bool
  | [] => f []
  | c :: t => f (c :: t) || anySuffix f t

/-- The `LIKE` operator on characters: `%` stands for any run of characters,
`_` for any one character, a backslash takes the next pattern character
literally; `escaped` says that the previous pattern character was such a
backslash. A pattern that ends in a lone backslash matches nothing. -/
def sqlLike : Bool → List Char → List Char → Bool
  | escaped, [], t => !escaped && t.isEmpty
  | true, p :: ps, t =>
    match t with
    | [] => false
    | c :: t1 => p == c && sqlLike false ps t1
  | false, p :: ps, t =>
    if p == '%' then anySuffix (sqlLike false ps) t
    else if p == '_' then
      match t with
      | [] => false
      | _ :: t1 => sqlLike false ps t1
    else if p == Char.ofNat 92 then sqlLike true ps t
    else
      match t with
      | [] => false
      | c :: t1 => p == c && sqlLike false ps t1

/-- The operator `text ILIKE pattern`: `LIKE` without regard to the case of
letters (the letters `A` to `Z`, as `Char.toLower` folds them). -/
def ILIKE (text pattern : String) : Bool :=
  sqlLike false (pattern.data.map Char.toLower) (text.data.map Char.toLower)

/-- `column ILIKE pattern` on a row of `projects`; a NULL description matches
nothing, and so does a column the table does not have. -/
def IlikeCond.holdsProject (c : IlikeCond) (p : Project) : Bool :=
  if c.column == "name" then ILIKE p.Name c.pattern
  else if c.column == "description" then
    match p.Description with
    | some d => ILIKE d c.pattern
    | none => false
  else false

/-- Does a row of `projects` satisfy the filters? -/
def Filters.matchesProject (f : Filters) (p : Project) : Bool :=
  (match f.organization_id with
    | some orgID => p.OrganizationID == orgID
    | none => true) &&
  (match f.is_active with
    | some b => p.IsActive == b
    | none => true) &&
  (match f.orIlike with
    | some conds => conds.any (fun c => c.holdsProject p)
    | none => true)

/-- `column ILIKE pattern` on a row of `providers`. -/
def IlikeCond.holdsProvider (c : IlikeCond) (p : Provider) : Bool :=
  if c.column == "name" then ILIKE p.Name c.pattern
  else if c.column == "provider_code" then
    match p.ProviderCode with
    | some code => ILIKE code c.pattern
    | none => false
  else false

/-- Does a row of `providers` satisfy the filters? -/
def Filters.matchesProvider (f : Filters) (p : Provider) : Bool :=
  (match f.organization_id with
    | some orgID => p.OrganizationID == orgID
    | none => true) &&
  (match f.is_active with
    | some b => p.IsActive == b
    | none => true) &&
  (match f.orIlike with
    | some conds => conds.any (fun c => c.holdsProvider p)
    | none => true)

/-- The error of the store for a page, page size, `LIMIT` or `OFFSET` it
does not accept. -/
def invalidPagination : DbErr :=
  { msg := "invalid pagination", notFound := false }

/-- The page of `storex.Paginate` cut out of the matching rows, already in
order: page numbers and page sizes below 1 are refused; `Total` is the number
of all matching rows, `TotalPages` the total divided by the page size, rounded
up, `HasNext` and `HasPrevious` say whether a page follows and precedes. -/
def storex.page {α : Type} (rows : List α) (page pageSize : Int) : Except DbErr (Paginated α) :=
  if page < 1 || pageSize < 1 then
    .error invalidPagination
  else
    let total : Int := rows.length
    let totalPages := (total + pageSize - 1) / pageSize
    .ok { Data := (rows.drop ((page - 1) * pageSize).toNat).take pageSize.toNat,
          Total := total, Page := page, PageSize := pageSize, TotalPages := totalPages,
          HasNext := decide (page < totalPages), HasPrevious := decide (page > 1) }

/-- The call `r.repo.Paginate(ctx, opts)` of the projects repository. -/
def PgRepository.Paginate (w : World) (opts : PaginationOptions) :
    Except DbErr (Paginated Project) × World :=
  w.call (.projectsPaginate opts) (fun db =>
    match storex.page
        (w.schema.orderProjects opts.SortBy opts.SortDesc
          (db.projects.filter opts.Filters.matchesProject))
        opts.Page opts.PageSize with
    | .error e => .error e
    | .ok r => .ok (r, db))

/-- The call `r.db.GetContext(ctx, &count, query, orgID)` of
`CountByOrganization`: `SELECT COUNT(*) FROM projects WHERE organization_id = $1`. -/
def sqlx.GetCountByOrganization (w : World) (orgID : UUID) : Except DbErr Int × World :=
  w.call (.countProjectsByOrganization orgID) (fun db =>
    .ok (((db.projects.filter (fun p => p.OrganizationID == orgID)).length : Int), db))

/-- The call `r.repo.Paginate(ctx, opts)` of the providers repository. -/
def PgRepository.PaginateProviders (w : World) (opts : PaginationOptions) :
    Except DbErr (Paginated Provider) × World :=
  w.call (.providersPaginate opts) (fun db =>
    match storex.page
        (w.schema.orderProviders opts.OrderBy opts.Desc
          (db.providers.filter opts.Filters.matchesProvider))
        opts.Page opts.PageSize with
    | .error e => .error e
    | .ok r => .ok (r, db))

/-- The rows `searchProviders` looks among: name or provider code `ILIKE` the
pattern, and the organization and activity filters that are present. -/
def DB.searchProviders (db : DB) (pattern : String) (orgID : Option UUID)
    (isActive : Option Bool) : List Provider :=
  db.providers.filter (fun p =>
    (ILIKE p.Name pattern ||
      (match p.ProviderCode with
        | some code => ILIKE code pattern
        | none => false)) &&
    (match orgID with
      | some o => p.OrganizationID == o
      | none => true) &&
    (match isActive with
      | some b => p.IsActive == b
      | none => true))

/-- The error of `database/sql` for a column that `Scan` cannot store in its
destination: the column at position `index` with the name `column`, the
driver value of type `src`, the destination of type `dest`. -/
def sql.unsupportedScan (index : Nat) (column src dest : String) : DbErr :=
  { msg := "sql: Scan error on column index " ++ toString index ++ ", name \"" ++ column ++
      "\": unsupported Scan, storing driver.Value type " ++ src ++ " into type " ++ dest,
    notFound := false }

/-- The call `r.db.SelectContext(ctx, &providersData, ...)` of
`searchProviders`. The store selects the matching rows, `ORDER BY p.<orderBy>
<direction> LIMIT <limit> OFFSET <offset>` (a negative `LIMIT` or `OFFSET` is
refused). `sqlx` then scans the rows into `[]models.Provider`, whose field
`Metadata` is a plain `map[string]interface{}`: no `Scan` method, and not a type
`database/sql` converts a `jsonb` value (or NULL) to. So the first row fails
the scan; only a page without rows is returned. -/
def sqlx.SelectProvidersSearch (w : World) (pattern : String) (orgID : Option UUID)
    (isActive : Option Bool) (orderBy direction : String) (limit offset : Int) :
    Except DbErr (List Provider) × World :=
  w.call (.selectProvidersSearch pattern orgID isActive orderBy direction limit offset) (fun db =>
    if limit < 0 || offset < 0 then
      .error invalidPagination
    else
      match ((w.schema.orderProviders orderBy (direction == "DESC")
              (db.searchProviders pattern orgID isActive)).drop offset.toNat).take limit.toNat with
      | [] => .ok ([], db)
      | p :: _ =>
        .error (sql.unsupportedScan w.schema.providersMetadataIndex "metadata"
          (if p.Metadata == none then "<nil>" else "[]uint8")
          "*map[string]interface \x7b\x7d"))

/-- The call `r.db.GetContext` of `searchProviders`: `SELECT COUNT(*)` of the
matching rows. -/
def sqlx.GetCountProvidersSearch (w : World) (pattern : String) (orgID : Option UUID)
    (isActive : Option Bool) : Except DbErr Int × World :=
  w.call (.countProvidersSearch pattern orgID isActive) (fun db =>
    .ok (((db.searchProviders pattern orgID isActive).length : Int), db))

/-! ## The providers of a project and the search (`projects/models/project.go`,
`projects/repository/postgres.go`) -/

/-- The struct `models.ProjectProviderDetails`. -/
structure ProjectProviderDetails where
  ProviderID : UUID
  ProviderName : String
  Role : Option String
  IsActive : Bool
  JoinedAt : Time
deriving DecidableEq, Repr

/-- The rows of `project_providers pp JOIN providers p ON pp.provider_id = p.id
WHERE pp.project_id = $1`: each link row of the project beside each provider
row it refers to. -/
def DB.joinProviders (db : DB) (projectID : UUID) : List (ProjectProvider × Provider) :=
  (db.project_providers.filter (fun pp => pp.ProjectID == projectID)).flatMap (fun pp =>
    (db.providers.filter (fun p => p.ID == pp.ProviderID)).map (fun p => (pp, p)))

/-- The rows the query of `GetProviders` selects in the store: the five
selected columns of the joined rows, `ORDER BY pp.created_at` (rows of equal
`created_at` in table order). -/
def DB.getProviders (db : DB) (projectID : UUID) : List ProjectProviderDetails :=
  ((db.joinProviders projectID).insertionSort (fun a b => a.1.CreatedAt ≤ b.1.CreatedAt)).map
    (fun r => { ProviderID := r.1.ProviderID, ProviderName := r.2.Name, Role := r.1.Role,
                IsActive := r.1.IsActive, JoinedAt := r.1.CreatedAt })

/-- The columns of the result of the query of `GetProviders`, as its `SELECT`
list names them. -/
def getProvidersColumns : List String :=
  ["provider_id", "provider_name", "role", "is_active", "joined_at"]

/-- The names under which `sqlx` finds the fields of
`models.ProjectProviderDetails`. The struct carries `json` tags only; a field
without a `db` tag goes under its Go name in lower case (`sqlx.NameMapper` is
`strings.ToLower`). -/
def ProjectProviderDetails.dbNames : List String :=
  ["ProviderID", "ProviderName", "Role", "IsActive", "JoinedAt"].map
    (fun field => String.mk (field.data.map Char.toLower))

/-- The check `sqlx` makes before it reads a row (`missingFields`): the first
column of the result that no field of the destination is found under. -/
def sqlx.missingFields (columns names : List String) : Option String :=
  columns.find? (fun column => !names.contains column)

/-- The error of `sqlx` for such a column; `dest` is the `%T` of the
destination. -/
def sqlx.missingDestination (column dest : String) : DbErr :=
  { msg := "missing destination name " ++ column ++ " in " ++ dest, notFound := false }

/-- The call `r.db.SelectContext(ctx, &providers, query, projectID)` of
`GetProviders`: the store runs the query, then `sqlx` matches the columns of
the result against the fields of `models.ProjectProviderDetails` and fails on
a column without a field, before any row is read. -/
def sqlx.SelectProjectProviders (w : World) (projectID : UUID) :
    Except DbErr (List ProjectProviderDetails) × World :=
  w.call (.selectProjectProviders projectID) (fun db =>
    match sqlx.missingFields getProvidersColumns ProjectProviderDetails.dbNames with
    | some column =>
      .error (sqlx.missingDestination column "*[]*models.ProjectProviderDetails")
    | none => .ok (db.getProviders projectID, db))

/-- The method `projectRepository.GetProviders`. -/
def projectRepository.GetProviders (w : World) (projectID : UUID) :
    Except Error (List ProjectProviderDetails) × World :=
  match sqlx.SelectProjectProviders w projectID with
  | (.error err, w1) =>
    (.error (((ProjectsErrors.New .ErrProjectProviderManagementFailed).WithDetail
      "project_id" (.uuid projectID)).WithCause err), w1)
  | (.ok providers, w1) => (.ok providers, w1)

/-- The rows the query of `Search` selects: `organization_id = $1 AND (name
ILIKE $2 OR description ILIKE $2) AND is_active = true`; a NULL description
matches nothing. -/
def DB.searchProjects (db : DB) (orgID : UUID) (pattern : String) : List Project :=
  db.projects.filter (fun p =>
    p.OrganizationID == orgID &&
    (ILIKE p.Name pattern ||
      (match p.Description with
        | some d => ILIKE d pattern
        | none => false)) &&
    p.IsActive == true)

/-- The call `r.db.SelectContext` of `Search`: the selected rows, `ORDER BY
name`. -/
def sqlx.SelectProjectsSearch (w : World) (orgID : UUID) (searchQuery : String) :
    Except DbErr (List Project) × World :=
  w.call (.selectProjectsSearch orgID searchQuery) (fun db =>
    .ok (w.schema.orderProjects "name" false (db.searchProjects orgID searchQuery), db))

/-- The method `projectRepository.Search`. -/
def projectRepository.Search (w : World) (query : String) (orgID : UUID) :
    Except Error (List Project) × World :=
  let searchQuery := "%" ++ query ++ "%"
  match sqlx.SelectProjectsSearch w orgID searchQuery with
  | (.error err, w1) =>
    (.error ((((ProjectsErrors.New .ErrProjectSearchFailed).WithDetail
      "query" (.str query)).WithDetail
      "organization_id" (.uuid orgID)).WithCause err), w1)
  | (.ok projects, w1) => (.ok projects, w1)

/-! ## Listing projects (`projects/repository/postgres.go`, `projects/projectsrv/service.go`,
`projects/projectsapi/api.go`) -/

/-- The options and filters `projectRepository.List` builds from a request. -/
def projectRepository.List.options (req : ProjectListRequest) : PaginationOptions :=
  let filters : Filters := { organization_id := none, is_active := none, orIlike := none }
  let filters :=
    match req.OrganizationID with
    | some orgID => { filters with organization_id := some orgID }
    | none => filters
  let filters :=
    match req.IsActive with
    | some b => { filters with is_active := some b }
    | none => filters
  let filters :=
    match req.Search with
    | some search =>
      if search != "" then
        let query := "%" ++ search ++ "%"
        { filters with orIlike := some [{ column := "name", pattern := query },
                                        { column := "description", pattern := query }] }
      else filters
    | none => filters
  { Page := req.Page, PageSize := req.PageSize, SortBy := req.SortBy,
    SortDesc := req.SortOrder == "desc", OrderBy := "", Desc := false, Filters := filters }

/-- The method `projectRepository.List`. -/
def projectRepository.List (w : World) (req : ProjectListRequest) :
    Except Error ProjectListResponse × World :=
  match PgRepository.Paginate w (projectRepository.List.options req) with
  | (.error err, w1) =>
    (.error ((ProjectsErrors.New .ErrProjectListFailed).WithCause err), w1)
  | (.ok result, w1) =>
    (.ok { Projects := result.Data, Total := result.Total, Page := result.Page,
           PageSize := result.PageSize, TotalPages := result.TotalPages,
           HasNext := result.HasNext, HasPrevious := result.HasPrevious }, w1)

/-- The method `projectRepository.CountByOrganization`. -/
def projectRepository.CountByOrganization (w : World) (orgID : UUID) :
    Except Error Int × World :=
  match sqlx.GetCountByOrganization w orgID with
  | (.error err, w1) =>
    (.error (((ProjectsErrors.New .ErrProjectListFailed).WithDetail
      "organization_id" (.uuid orgID)).WithCause err), w1)
  | (.ok count, w1) => (.ok count, w1)

/-- The "set defaults" block of `projectService.ListProjects`. -/
def projectService.ListProjects.defaults (req : ProjectListRequest) : ProjectListRequest :=
  let req := if req.Page == 0 then { req with Page := 1 } else req
  let req := if req.PageSize == 0 then { req with PageSize := 20 } else req
  let req := if req.SortBy == "" then { req with SortBy := "created_at" } else req
  let req := if req.SortOrder == "" then { req with SortOrder := "desc" } else req
  req

/-- The method `projectService.ListProjects`. -/
def projectService.ListProjects (w : World) (req : ProjectListRequest) :
    Except Error ProjectListResponse × World :=
  projectRepository.List w (projectService.ListProjects.defaults req)

/-- The method `projectService.GetProjectStats`. -/
def projectService.GetProjectStats (w : World) (orgID : UUID) :
    Except Error ProjectStats × World :=
  match projectRepository.CountByOrganization w orgID with
  | (.error err, w1) => (.error err, w1)
  | (.ok total, w1) =>
    let req : ProjectListRequest :=
      { OrganizationID := some orgID, IsActive := some true, Search := none, Page := 1,
        PageSize := 1, SortBy := "", SortOrder := "" }
    match projectRepository.List w1 req with
    | (.error err, w2) => (.error err, w2)
    | (.ok activeResult, w2) =>
      let active := activeResult.Total
      let inactive := wrapInt (total - active)
      (.ok { TotalProjects := total, ActiveProjects := active, InactiveProjects := inactive }, w2)

/-- The query string of a request, as `c.Query(key)` reads it: the value of
the key, the empty string when the key is absent. -/
structure fiber.Ctx where
  Query : String → String

/-- The call `c.Query(key, defaultValue)`: the default stands in for an
empty value. -/
def fiber.Ctx.QueryOr (c : fiber.Ctx) (key defaultValue : String) : String :=
  if c.Query key == "" then defaultValue else c.Query key

/-- The function `strconv.Atoi`: an optional sign and decimal digits, within
the range of `int`; `none` is an error. -/
def strconv.Atoi (s : String) : Option Int :=
  let cs := s.data
  let signed := cs.head? == some '-' || cs.head? == some '+'
  let digits := if signed then cs.tail else cs
  if digits.isEmpty || !digits.all Char.isDigit then
    none
  else
    let n : Int := (digits.foldl (fun acc c => acc * 10 + (c.toNat - 48)) 0 : Nat)
    let v := if cs.head? == some '-' then -n else n
    if v < -(2 ^ 63) || v > 2 ^ 63 - 1 then none else some v

/-- The function `strconv.ParseBool`. -/
def strconv.ParseBool (s : String) : Except DbErr Bool :=
  if ["1", "t", "T", "TRUE", "true", "True"].contains s then .ok true
  else if ["0", "f", "F", "FALSE", "false", "False"].contains s then .ok false
  else .error { msg := "strconv.ParseBool: parsing \"" ++ s ++ "\": invalid syntax",
                notFound := false }

/-- The method `ProjectsAPI.parseListRequest`; `uuid.Parse` is the argument
`Parse`. -/
def ProjectsAPI.parseListRequest (Parse : String → Except DbErr UUID) (c : fiber.Ctx) :
    Except Error ProjectListRequest :=
  let orgIDStr := c.Query "organization_id"
  let parsed : Except Error (Option UUID) :=
    if orgIDStr != "" then
      match Parse orgIDStr with
      | .error err =>
        .error (((ProjectsErrors.New .ErrProjectValidationFailed).WithDetail
          "error" (.str "Invalid organization_id format")).WithCause err)
      | .ok orgID => .ok (some orgID)
    else .ok none
  match parsed with
  | .error e => .error e
  | .ok organizationID =>
    let isActiveStr := c.Query "is_active"
    let isActive := if isActiveStr != "" then some (isActiveStr == "true") else none
    let search := if c.Query "search" != "" then some (c.Query "search") else none
    let pageStr := c.Query "page"
    let page : Int :=
      if pageStr != "" then
        match strconv.Atoi pageStr with
        | some p => if p > 0 then p else 1
        | none => 1
      else 1
    let pageSizeStr := c.Query "page_size"
    let pageSize : Int :=
      if pageSizeStr != "" then
        match strconv.Atoi pageSizeStr with
        | some ps => if ps > 0 && ps <= 100 then ps else 20
        | none => 20
      else 20
    .ok { OrganizationID := organizationID, IsActive := isActive, Search := search,
          Page := page, PageSize := pageSize,
          SortBy := c.QueryOr "sort_by" "created_at",
          SortOrder := c.QueryOr "sort_order" "desc" }

/-- The handler `ProjectsAPI.listProjects`, up to the JSON encoding of the
result. -/
def ProjectsAPI.listProjects (Parse : String → Except DbErr UUID) (w : World) (c : fiber.Ctx) :
    Except Error ProjectListResponse × World :=
  match ProjectsAPI.parseListRequest Parse c with
  | .error err => (.error err, w)
  | .ok req =>
    match projectService.ListProjects w req with
    | (.error err, w1) => (.error err, w1)
    | (.ok result, w1) => (.ok result, w1)

/-! ## Listing providers (`providers/errors.go`, `providers/repository/postgres.go`,
`providers/providersapi/api.go`) -/

/-- The error codes registered in `providers/errors.go`, under the names of
the Go variables that hold them. -/
inductive ProviderErrCode
  | ErrProviderNotFound
  | ErrProviderNameExists
  | ErrProviderCreateFailed
  | ErrProviderUpdateFailed
  | ErrProviderDeleteFailed
  | ErrProviderListFailed
  | ErrProviderSearchFailed
  | ErrProviderValidationFailed
  | ErrProviderCannotDelete
  | ErrProviderInactive
  | ErrProviderBulkCreateFailed
  | ErrProviderBulkUpdateFailed
  | ErrProviderBulkDeleteFailed
deriving DecidableEq, Repr

/-- The code string each provider error is registered under. -/
def ProviderErrCode.code : ProviderErrCode → String
  | .ErrProviderNotFound => "NOT_FOUND"
  | .ErrProviderNameExists => "NAME_EXISTS"
  | .ErrProviderCreateFailed => "CREATE_FAILED"
  | .ErrProviderUpdateFailed => "UPDATE_FAILED"
  | .ErrProviderDeleteFailed => "DELETE_FAILED"
  | .ErrProviderListFailed => "LIST_FAILED"
  | .ErrProviderSearchFailed => "SEARCH_FAILED"
  | .ErrProviderValidationFailed => "VALIDATION_FAILED"
  | .ErrProviderCannotDelete => "CANNOT_DELETE"
  | .ErrProviderInactive => "INACTIVE"
  | .ErrProviderBulkCreateFailed => "BULK_CREATE_FAILED"
  | .ErrProviderBulkUpdateFailed => "BULK_UPDATE_FAILED"
  | .ErrProviderBulkDeleteFailed => "BULK_DELETE_FAILED"

/-- The error type each provider code is registered with. -/
def ProviderErrCode.errType : ProviderErrCode → ErrType
  | .ErrProviderNotFound => .TypeNotFound
  | .ErrProviderNameExists => .TypeConflict
  | .ErrProviderValidationFailed => .TypeValidation
  | .ErrProviderCannotDelete => .TypeBusiness
  | .ErrProviderInactive => .TypeBusiness
  | _ => .TypeInternal

/-- An `errx.Error` of the providers registry. -/
structure ProviderError where
  Code : ProviderErrCode
  Details : List (String × Detail)
  Cause : Option DbErr
deriving DecidableEq, Repr

/-- The call `ProvidersErrors.New(code)`. -/
def ProvidersErrors.New (code : ProviderErrCode) : ProviderError :=
  { Code := code, Details := [], Cause := none }

/-- The method `WithDetail(key, value)` on a provider error. -/
def ProviderError.WithDetail (e : ProviderError) (key : String) (value : Detail) :
    ProviderError :=
  { e with Details := e.Details ++ [(key, value)] }

/-- The method `WithCause(err)` on a provider error. -/
def ProviderError.WithCause (e : ProviderError) (err : DbErr) : ProviderError :=
  { e with Cause := some err }

/-- The loop of the two response builders that copies a row into a
`dto.ProviderResponse`. -/
def providerRepository.toResponse (p : Provider) : ProviderResponse :=
  { ID := p.ID, UserID := p.UserID, OrganizationID := p.OrganizationID, Name := p.Name,
    ProviderCode := p.ProviderCode, IsActive := p.IsActive, Metadata := p.Metadata,
    CreatedAt := p.CreatedAt, UpdatedAt := p.UpdatedAt }

/-- The method `providerRepository.buildListResponse`. -/
def providerRepository.buildListResponse (result : Paginated Provider) : ProviderListResponse :=
  let data := result.Data.map providerRepository.toResponse
  let totalPages : Int := 1
  let hasNext := false
  let hasPrev := false
  let page : Int := 1
  let pageSize : Int := result.Data.length
  let total : Int := result.Data.length
  { Data := data, Page := page, PageSize := pageSize, Total := total,
    TotalPages := totalPages, HasNext := hasNext, HasPrev := hasPrev }

/-- The method `providerRepository.buildListResponseWithPagination`; `none` is
the run-time panic of the integer division by a zero `pageSize`. -/
def providerRepository.buildListResponseWithPagination (result : Paginated Provider)
    (page pageSize total : Int) : Option ProviderListResponse :=
  let data := result.Data.map providerRepository.toResponse
  if pageSize == 0 then
    none
  else
    let totalPages := wrapInt (Int.tdiv (wrapInt (wrapInt (total + pageSize) - 1)) pageSize)
    some { Data := data, Page := page, PageSize := pageSize, Total := total,
           TotalPages := totalPages, HasNext := decide (page < totalPages),
           HasPrev := decide (page > 1) }

/-- The method `providerRepository.searchProviders`; in the result `none` is
the panic of `buildListResponseWithPagination`. -/
def providerRepository.searchProviders (w : World) (query : String) (opts : PaginationOptions) :
    Except ProviderError (Option ProviderListResponse) × World :=
  let pattern := "%" ++ query ++ "%"
  let direction := if opts.Desc then "DESC" else "ASC"
  let offset := wrapInt (wrapInt (opts.Page - 1) * opts.PageSize)
  match sqlx.SelectProvidersSearch w pattern opts.Filters.organization_id opts.Filters.is_active
      opts.OrderBy direction opts.PageSize offset with
  | (.error err, w1) =>
    (.error (((ProvidersErrors.New .ErrProviderSearchFailed).WithDetail
      "query" (.str query)).WithCause err), w1)
  | (.ok providersData, w1) =>
    match sqlx.GetCountProvidersSearch w1 pattern opts.Filters.organization_id
        opts.Filters.is_active with
    | (.error err, w2) =>
      (.error (((ProvidersErrors.New .ErrProviderSearchFailed).WithDetail
        "query" (.str query)).WithCause err), w2)
    | (.ok total, w2) =>
      let result : Paginated Provider :=
        { Data := providersData, Total := 0, Page := 0, PageSize := 0, TotalPages := 0,
          HasNext := false, HasPrevious := false }
      (.ok (providerRepository.buildListResponseWithPagination result opts.Page opts.PageSize
        total), w2)

/-- The "set defaults" block of `providerRepository.List`. -/
def providerRepository.List.defaults (req : ProviderListRequest) : ProviderListRequest :=
  let req := if req.Page == 0 then { req with Page := 1 } else req
  let req := if req.PageSize == 0 then { req with PageSize := 20 } else req
  let req :=
    match req.OrderBy with
    | none => { req with OrderBy := some "created_at" }
    | some _ => req
  req

/-- The filters and pagination options `providerRepository.List` builds from
the request with its defaults set (`*req.OrderBy` is read when the defaults
have made the pointer non-nil). -/
def providerRepository.List.options (req : ProviderListRequest) : PaginationOptions :=
  let filters : Filters := { organization_id := none, is_active := none, orIlike := none }
  let filters :=
    match req.OrganizationID with
    | some orgID => { filters with organization_id := some orgID }
    | none => filters
  let filters :=
    match req.IsActive with
    | some b => { filters with is_active := some b }
    | none => filters
  { Page := req.Page, PageSize := req.PageSize, Filters := filters,
    OrderBy := req.OrderBy.getD "", Desc := req.Desc, SortBy := "", SortDesc := false }

/-- The method `providerRepository.List`; in the result `none` is the panic of
`buildListResponseWithPagination`. -/
def providerRepository.List (w : World) (req : ProviderListRequest) :
    Except ProviderError (Option ProviderListResponse) × World :=
  let req := providerRepository.List.defaults req
  let opts := providerRepository.List.options req
  let plain : Except ProviderError (Option ProviderListResponse) × World :=
    match PgRepository.PaginateProviders w opts with
    | (.error err, w1) =>
      (.error ((ProvidersErrors.New .ErrProviderListFailed).WithCause err), w1)
    | (.ok result, w1) => (.ok (some (providerRepository.buildListResponse result)), w1)
  match req.Search with
  | some search =>
    if search != "" then providerRepository.searchProviders w search opts else plain
  | none => plain

/-- The method `ProvidersAPI.parseListRequest`; `uuid.Parse` is the argument
`Parse`. -/
def ProvidersAPI.parseListRequest (Parse : String → Except DbErr UUID) (c : fiber.Ctx) :
    Except ProviderError ProviderListRequest :=
  let req : ProviderListRequest :=
    { OrganizationID := none, IsActive := none, Search := none, Page := 0, PageSize := 0,
      OrderBy := none, Desc := false }
  let orgIDStr := c.Query "organization_id"
  let step1 : Except ProviderError ProviderListRequest :=
    if orgIDStr != "" then
      match Parse orgIDStr with
      | .error err =>
        .error (((ProvidersErrors.New .ErrProviderValidationFailed).WithDetail
          "error" (.str "Invalid organization_id format")).WithCause err)
      | .ok orgID => .ok { req with OrganizationID := some orgID }
    else .ok req
  match step1 with
  | .error e => .error e
  | .ok req =>
    let isActiveStr := c.Query "is_active"
    let step2 : Except ProviderError ProviderListRequest :=
      if isActiveStr != "" then
        match strconv.ParseBool isActiveStr with
        | .error err =>
          .error (((ProvidersErrors.New .ErrProviderValidationFailed).WithDetail
            "error" (.str "Invalid is_active format")).WithCause err)
        | .ok isActive => .ok { req with IsActive := some isActive }
      else .ok req
    match step2 with
    | .error e => .error e
    | .ok req =>
      let req := if c.Query "search" != "" then { req with Search := some (c.Query "search") }
        else req
      let pageStr := c.Query "page"
      let step3 : Except ProviderError ProviderListRequest :=
        if pageStr != "" then
          match strconv.Atoi pageStr with
          | some page =>
            if page < 1 then
              .error ((ProvidersErrors.New .ErrProviderValidationFailed).WithDetail
                "error" (.str "Invalid page number"))
            else .ok { req with Page := page }
          | none =>
            .error ((ProvidersErrors.New .ErrProviderValidationFailed).WithDetail
              "error" (.str "Invalid page number"))
        else .ok req
      match step3 with
      | .error e => .error e
      | .ok req =>
        let pageSizeStr := c.Query "page_size"
        let step4 : Except ProviderError ProviderListRequest :=
          if pageSizeStr != "" then
            match strconv.Atoi pageSizeStr with
            | some pageSize =>
              if pageSize < 1 || pageSize > 100 then
                .error ((ProvidersErrors.New .ErrProviderValidationFailed).WithDetail
                  "error" (.str "Invalid page size (must be 1-100)"))
              else .ok { req with PageSize := pageSize }
            | none =>
              .error ((ProvidersErrors.New .ErrProviderValidationFailed).WithDetail
                "error" (.str "Invalid page size (must be 1-100)"))
          else .ok req
        match step4 with
        | .error e => .error e
        | .ok req =>
          let req := if c.Query "order_by" != "" then
            { req with OrderBy := some (c.Query "order_by") } else req
          let descStr := c.Query "desc"
          if descStr != "" then
            match strconv.ParseBool descStr with
            | .error err =>
              .error (((ProvidersErrors.New .ErrProviderValidationFailed).WithDetail
                "error" (.str "Invalid desc format")).WithCause err)
            | .ok desc => .ok { req with Desc := desc }
          else .ok req

/-! ## Activation, duplication and search of projects (`projects/projectsrv/service.go`) -/

/-- The method `projectService.SearchProjects`. -/
def projectService.SearchProjects (w : World) (query : String) (orgID : UUID) :
    Except Error (List Project) × World :=
  match projectRepository.Search w query orgID with
  | (.error err, w1) => (.error err, w1)
  | (.ok projects, w1) => (.ok projects, w1)

/-- The method `projectService.ActivateProject`. -/
def projectService.ActivateProject (w : World) (id : UUID) : Except Error Project × World :=
  let req : UpdateProjectRequest :=
    { Name := none, Description := none, IsActive := some true, Metadata := none }
  projectService.UpdateProject w id req

/-- The method `projectService.DeactivateProject`. -/
def projectService.DeactivateProject (w : World) (id : UUID) : Except Error Project × World :=
  let req : UpdateProjectRequest :=
    { Name := none, Description := none, IsActive := some false, Metadata := none }
  projectService.UpdateProject w id req

/-- The method `projectService.DuplicateProject`. -/
def projectService.DuplicateProject (w : World) (id : UUID) (newName : String) :
    Except Error Project × World :=
  match projectRepository.GetByID w id with
  | (.error err, w1) => (.error err, w1)
  | (.ok original, w1) =>
    let req : CreateProjectRequest :=
      { OrganizationID := original.OrganizationID, Name := newName,
        Description := original.Description, Metadata := original.Metadata, ProviderIDs := [] }
    match projectRepository.GetProviders w1 id with
    | (.ok providers, w2) =>
      let req :=
        if providers.length > 0 then
          { req with ProviderIDs := providers.map (fun provider => provider.ProviderID) }
        else req
      projectService.CreateProject w2 req
    | (.error _, w2) => projectService.CreateProject w2 req

/-- The free-text search as the specification words it, "case-insensitive
substring match": the term occurs in the text when the case of the letters
`A` to `Z` is disregarded. It is what the `ILIKE` filters are compared with. -/
def containsIgnoreCase (s text : String) : Bool :=
  decide (s.data.map Char.toLower <:+: text.data.map Char.toLower)

/-- The search of the specification on a project: the term occurs in the name
or in the description. -/
def Project.mentions (p : Project) (s : String) : Bool :=
  containsIgnoreCase s p.Name ||
    (match p.Description with
      | some d => containsIgnoreCase s d
      | none => false)

/-! ## Predicates used in the statements -/

/-- No store failure is scheduled. -/
def World.NoFault (w : World) : Prop := ∀ n, w.fault n = none

/-- The identities the next `k` calls of `uuid.New()` return. -/
def World.nextIDs (w : World) (k : Nat) : List UUID :=
  (List.range k).map (fun i => uuid.New (w.rand (w.drawn + i)))

/-- The (project, provider) pairs of a list of link rows. -/
def pairsOf (t : List ProjectProvider) : List (UUID × UUID) :=
  t.map (fun l => (l.ProjectID, l.ProviderID))

/-- The number of link rows of a (project, provider) pair. -/
def linkCount (db : DB) (projectID providerID : UUID) : Nat :=
  (db.project_providers.filter
    (fun l => l.ProjectID == projectID && l.ProviderID == providerID)).length

/-- A world for trying the operations: projects 1 ("alpha") and 4 ("gamma") of
organization 7, project 2 ("beta") of organization 8, provider 20 linked to
projects 1 and 2, three providers of organization 7 (the last one inactive),
rows returned in table order (reversed for a descending order), no scheduled
failure, the random bytes `0, 1, 2, ...`. -/
def demoWorld : World :=
  { db :=
      { projects :=
          [ { ID := 1, OrganizationID := 7, Name := "alpha", Description := none,
              IsActive := true, Metadata := some [], CreatedAt := 0, UpdatedAt := 0 },
            { ID := 2, OrganizationID := 8, Name := "beta", Description := some "second",
              IsActive := false, Metadata := some [], CreatedAt := 0, UpdatedAt := 0 },
            { ID := 4, OrganizationID := 7, Name := "gamma", Description := none,
              IsActive := true, Metadata := none, CreatedAt := 1, UpdatedAt := 1 } ],
        project_providers :=
          [ { ID := 100, ProjectID := 1, ProviderID := 20, OrganizationID := 7,
              Role := some "lead", IsActive := true, CreatedAt := 5, UpdatedAt := 5 },
            { ID := 101, ProjectID := 2, ProviderID := 20, OrganizationID := 8,
              Role := none, IsActive := true, CreatedAt := 6, UpdatedAt := 6 } ],
        providers :=
          [ { ID := 20, UserID := none, OrganizationID := 7, Name := "Acme",
              ProviderCode := some "AC", IsActive := true, Metadata := none,
              CreatedAt := 2, UpdatedAt := 2 },
            { ID := 21, UserID := none, OrganizationID := 7, Name := "Bolt",
              ProviderCode := none, IsActive := true, Metadata := none,
              CreatedAt := 3, UpdatedAt := 3 },
            { ID := 22, UserID := some 90, OrganizationID := 7, Name := "Core",
              ProviderCode := some "CO", IsActive := false, Metadata := none,
              CreatedAt := 4, UpdatedAt := 4 } ] },
    schema :=
      { projectsNameOrgUnique := "projects_name_org_unique",
        projectProvidersUnique := "project_providers_unique",
        linkDefaults := fun now =>
          { Role := none, IsActive := true, CreatedAt := now, UpdatedAt := now },
        providersMetadataIndex := 6,
        orderProjects := fun _ desc rows => if desc then rows.reverse else rows,
        orderProviders := fun _ desc rows => if desc then rows.reverse else rows,
        orderProjects_perm := fun _ desc rows => by
          cases desc
          · exact List.Perm.refl rows
          · exact List.reverse_perm rows,
        orderProviders_perm := fun _ desc rows => by
          cases desc
          · exact List.Perm.refl rows
          · exact List.reverse_perm rows },
    log := [],
    fault := fun _ => none,
    rand := fun n => n,
    drawn := 0,
    clock := fun n => 1000 + n,
    ticks := 0 }

/-- The demo world with the store out of reach: every round trip fails with
an error that is neither record-not-found nor a unique-index violation. -/
def demoOutage : World :=
  { demoWorld with fault := fun _ => some { msg := "dial tcp: connection refused", notFound := false } }

/-- The limits on the texts of a project: a non-empty name of at most 255
bytes and, when there is a description, one of at most 1000 bytes. -/
def Project.withinLimits (p : Project) : Bool :=
  p.Name != "" && decide (len p.Name ≤ 255) &&
    (match p.Description with
      | some d => decide (len d ≤ 1000)
      | none => true)

/-- The project a store call hands over for persistence, if it is one that
persists a project. -/
def StoreCall.persisted : StoreCall → Option Project
  | .projectsCreate p => some p
  | .projectsUpdate _ p => some p
  | _ => none

/-! ## Organization (`organization/organization.go`)

The methods that read `time.Now()` take the reading as the argument `now`. A
`*Role` is an `Option Role`, `none` being the nil pointer. -/

/-- The type `Permission`, a string. -/
abbrev Permission := String

/-- The constant `PermissionViewOrg`. -/
def PermissionViewOrg : Permission := "org.view"

/-- The constant `PermissionManageOrg`. -/
def PermissionManageOrg : Permission := "org.manage"

/-- The constant `PermissionInviteMembers`. -/
def PermissionInviteMembers : Permission := "org.invite_members"

/-- The constant `PermissionRemoveMembers`. -/
def PermissionRemoveMembers : Permission := "org.remove_members"

/-- The constant `PermissionViewProducts`. -/
def PermissionViewProducts : Permission := "products.view"

/-- The constant `PermissionCreateProducts`. -/
def PermissionCreateProducts : Permission := "products.create"

/-- The constant `PermissionManageProducts`. -/
def PermissionManageProducts : Permission := "products.manage"

/-- The constant `PermissionDeleteProducts`. -/
def PermissionDeleteProducts : Permission := "products.delete"

/-- The constant `PermissionViewMembers`. -/
def PermissionViewMembers : Permission := "members.view"

/-- The constant `PermissionManageMembers`. -/
def PermissionManageMembers : Permission := "members.manage"

/-- The struct `Role`. -/
structure Role where
  name : String
  permissions : List Permission
deriving DecidableEq, Repr

/-- The function `NewRole`. -/
def NewRole (name : String) (permissions : List Permission) : Role :=
  { name := name, permissions := permissions }

/-- The method `Role.HasPermission`: `slices.Contains(r.permissions, permission)`. -/
def Role.HasPermission (r : Role) (permission : Permission) : Bool :=
  r.permissions.contains permission

/-- The predefined role `RoleOrgAdmin`. -/
def RoleOrgAdmin : Role :=
  NewRole "org_admin"
    [PermissionViewOrg, PermissionManageOrg, PermissionInviteMembers, PermissionRemoveMembers,
     PermissionViewProducts, PermissionViewMembers, PermissionManageMembers]

/-- The predefined role `RoleOrgMember`. -/
def RoleOrgMember : Role :=
  NewRole "org_member" [PermissionViewOrg, PermissionViewProducts, PermissionViewMembers]

/-- The predefined role `RoleProductProvider`. -/
def RoleProductProvider : Role :=
  NewRole "product_provider"
    [PermissionViewOrg, PermissionViewProducts, PermissionCreateProducts,
     PermissionManageProducts, PermissionDeleteProducts]

/-- The struct `Membership`. -/
structure Membership where
  id : String
  userID : String
  organizationID : String
  role : Option Role
  isActive : Bool
  joinedAt : Time
  updatedAt : Time
deriving DecidableEq, Repr

/-- The function `NewMembership`. -/
def NewMembership (id userID organizationID : String) (role : Option Role) (now : Time) :
    Membership :=
  { id := id, userID := userID, organizationID := organizationID, role := role,
    isActive := true, joinedAt := now, updatedAt := now }

/-- The method `Membership.UpdateRole`. -/
def Membership.UpdateRole (m : Membership) (role : Option Role) (now : Time) : Membership :=
  { m with role := role, updatedAt := now }

/-- The method `Membership.Deactivate`. -/
def Membership.Deactivate (m : Membership) (now : Time) : Membership :=
  { m with isActive := false, updatedAt := now }

/-- The method `Membership.HasPermission`: `m.isActive && m.role.HasPermission(permission)`.
The right operand is evaluated only for an active membership; on a nil role it
dereferences the nil pointer and the call panics, which is `none`. -/
def Membership.HasPermission (m : Membership) (permission : Permission) : Option Bool :=
  if m.isActive then
    match m.role with
    | some r => some (r.HasPermission permission)
    | none => none
  else
    some false

/-- A call of one of the methods of `Membership`, with its arguments and the
reading of `time.Now()` it makes, if any. -/
inductive MembershipCall
  | ID
  | UserID
  | OrganizationID
  | Role
  | IsActive
  | JoinedAt
  | UpdatedAt
  | UpdateRole (role : Option Role) (now : Time)
  | Deactivate (now : Time)
  | HasPermission (permission : Permission)
deriving DecidableEq, Repr

/-- The membership after one call: only `UpdateRole` and `Deactivate` assign
to a field. -/
def Membership.afterCall (m : Membership) : MembershipCall → Membership
  | .UpdateRole role now => m.UpdateRole role now
  | .Deactivate now => m.Deactivate now
  | _ => m

/-- The membership after a sequence of calls. -/
def Membership.afterCalls (m : Membership) (calls : List MembershipCall) : Membership :=
  calls.foldl Membership.afterCall m

/-- The struct `Invitation`. -/
structure Invitation where
  id : String
  organizationID : String
  inviterUserID : String
  email : String
  role : Option Role
  token : String
  isUsed : Bool
  expiresAt : Time
  createdAt : Time
deriving DecidableEq, Repr

/-- The function `NewInvitation`. -/
def NewInvitation (id organizationID inviterUserID email : String) (role : Option Role)
    (token : String) (expiresAt : Time) (now : Time) : Invitation :=
  { id := id, organizationID := organizationID, inviterUserID := inviterUserID, email := email,
    role := role, token := token, isUsed := false, expiresAt := expiresAt, createdAt := now }

/-- The accessor `Invitation.ID`. -/
def Invitation.ID (i : Invitation) : String := i.id

/-- The accessor `Invitation.OrganizationID`. -/
def Invitation.OrganizationID (i : Invitation) : String := i.organizationID

/-- The accessor `Invitation.InviterUserID`. -/
def Invitation.InviterUserID (i : Invitation) : String := i.inviterUserID

/-- The accessor `Invitation.Email`. -/
def Invitation.Email (i : Invitation) : String := i.email

/-- The accessor `Invitation.Role`. -/
def Invitation.Role (i : Invitation) : Option Role := i.role

/-- The accessor `Invitation.Token`. -/
def Invitation.Token (i : Invitation) : String := i.token

/-- The accessor `Invitation.IsUsed`. -/
def Invitation.IsUsed (i : Invitation) : Bool := i.isUsed

/-- The accessor `Invitation.ExpiresAt`. -/
def Invitation.ExpiresAt (i : Invitation) : Time := i.expiresAt

/-- The accessor `Invitation.CreatedAt`. -/
def Invitation.CreatedAt (i : Invitation) : Time := i.createdAt

/-- The method `Invitation.IsExpired`: `time.Now().After(i.expiresAt)`. -/
def Invitation.IsExpired (i : Invitation) (now : Time) : Bool :=
  decide (now > i.expiresAt)

/-- The method `Invitation.Use`: the error returned (`none` is nil) and the
invitation as the call leaves it. -/
def Invitation.Use (i : Invitation) (now : Time) : Option String × Invitation :=
  if i.isUsed then
    (some "invitation already used", i)
  else if i.IsExpired now then
    (some "invitation expired", i)
  else
    (none, { i with isUsed := true })

/-- A call of one of the methods of `Invitation`, with the reading of
`time.Now()` it makes, if any. -/
inductive InvitationCall
  | ID
  | OrganizationID
  | InviterUserID
  | Email
  | Role
  | Token
  | IsUsed
  | ExpiresAt
  | CreatedAt
  | IsExpired (now : Time)
  | Use (now : Time)
deriving DecidableEq, Repr

/-- The invitation after one call: only `Use` assigns to a field. -/
def Invitation.afterCall (i : Invitation) : InvitationCall → Invitation
  | .Use now => (i.Use now).2
  | _ => i

/-- The invitation after a sequence of calls. -/
def Invitation.afterCalls (i : Invitation) (calls : List InvitationCall) : Invitation :=
  calls.foldl Invitation.afterCall i

/-- An invitation for trying `Use`: not used, expiring at time 100. -/
def demoInvitation : Invitation :=
  NewInvitation "inv-1" "org-7" "user-1" "someone@example.com" (some RoleOrgMember) "tok" 100 10

/-- A `uuid.Parse` for trying the handlers: it reads a decimal number. -/
def demoParse (s : String) : Except DbErr UUID :=
  match s.toNat? with
  | some n => .ok n
  | none => .error { msg := "invalid UUID length: " ++ toString s.length, notFound := false }

/-- A query string: the listed keys with their values, every other key
absent. -/
def demoQuery (params : List (String × String)) : fiber.Ctx :=
  { Query := fun key => ((params.find? (fun kv => kv.1 == key)).map (fun kv => kv.2)).getD "" }

/-! ## Theorems -/

theorem hasPair_iff (t : List ProjectProvider) (p q : UUID) :
    hasPair t p q = true ↔ (p, q) ∈ pairsOf t := by
  simp only [hasPair, pairsOf, List.any_eq_true, List.mem_map, Bool.and_eq_true, beq_iff_eq,
    Prod.mk.injEq]

theorem hasPair_eq_false_iff (t : List ProjectProvider) (p q : UUID) :
    hasPair t p q = false ↔ (p, q) ∉ pairsOf t := by
  rw [← hasPair_iff]; simp

theorem hasLinkID_iff (t : List ProjectProvider) (u : UUID) :
    hasLinkID t u = true ↔ u ∈ t.map (fun l => l.ID) := by
  simp only [hasLinkID, List.any_eq_true, List.mem_map, beq_iff_eq]

theorem pairsOf_append (s t : List ProjectProvider) :
    pairsOf (s ++ t) = pairsOf s ++ pairsOf t := by
  simp [pairsOf]

theorem filter_pair_eq_nil (t : List ProjectProvider) (p q : UUID)
    (h : (p, q) ∉ pairsOf t) :
    t.filter (fun l => l.ProjectID == p && l.ProviderID == q) = [] := by
  rw [List.filter_eq_nil_iff]
  intro l hl hb
  simp only [Bool.and_eq_true, beq_iff_eq] at hb
  apply h
  simp only [pairsOf, List.mem_map, Prod.mk.injEq]
  exact ⟨l, hl, hb.1, hb.2⟩

theorem filter_pair_length_one (t : List ProjectProvider) (p q : UUID) :
    (pairsOf t).Nodup → (p, q) ∈ pairsOf t →
      (t.filter (fun l => l.ProjectID == p && l.ProviderID == q)).length = 1 := by
  induction t with
  | nil => intro _ h; simp [pairsOf] at h
  | cons l t ih =>
    intro hnd hmem
    have hnd' : (l.ProjectID, l.ProviderID) ∉ pairsOf t ∧ (pairsOf t).Nodup := by
      simpa [pairsOf] using hnd
    by_cases h : l.ProjectID = p ∧ l.ProviderID = q
    · have hb : (l.ProjectID == p && l.ProviderID == q) = true := by simp [h.1, h.2]
      have hnot : (p, q) ∉ pairsOf t := by
        rw [← h.1, ← h.2]; exact hnd'.1
      simp only [List.filter_cons, hb, if_true, List.length_cons,
        filter_pair_eq_nil t p q hnot, List.length_nil]
    · have hb : (l.ProjectID == p && l.ProviderID == q) = false := by simpa using h
      have hmem' : (p, q) ∈ pairsOf t := by
        simp only [pairsOf, List.map_cons, List.mem_cons, Prod.mk.injEq] at hmem
        rcases hmem with ⟨e1, e2⟩ | hmem
        · exact absurd ⟨e1.symm, e2.symm⟩ h
        · simpa [pairsOf] using hmem
      simp only [List.filter_cons, hb]
      exact ih hnd'.2 hmem'

theorem insertOnConflictDoNothing_spec (d : LinkDefaults) (rows : List LinkArgs) :
    ∀ t : List ProjectProvider,
      (rows.map (fun a => a.id)).Nodup →
      (∀ a ∈ rows, a.id ∉ t.map (fun l => l.ID)) →
      ∃ added, insertOnConflictDoNothing d t rows = .ok (t ++ added) ∧
        (∀ l ∈ added, ∃ a ∈ rows, l = a.row d ∧ (a.project_id, a.provider_id) ∉ pairsOf t) ∧
        (∀ a ∈ rows, (a.project_id, a.provider_id) ∈ pairsOf (t ++ added)) ∧
        ((pairsOf t).Nodup → (pairsOf (t ++ added)).Nodup) := by
  induction rows with
  | nil =>
    intro t _ _
    exact ⟨[], by simp [insertOnConflictDoNothing], by simp, by simp, by simp⟩
  | cons a rest ih =>
    intro t hnd hfresh
    have hnd' : (rest.map (fun a => a.id)).Nodup := (List.nodup_cons.mp hnd).2
    have ha_notin : a.id ∉ rest.map (fun a => a.id) := (List.nodup_cons.mp hnd).1
    by_cases hp : (a.project_id, a.provider_id) ∈ pairsOf t
    · obtain ⟨added, h1, h2, h3, h4⟩ :=
        ih t hnd' (fun b hb => hfresh b (List.mem_cons_of_mem _ hb))
      refine ⟨added, ?_, ?_, ?_, h4⟩
      · rw [insertOnConflictDoNothing, if_pos ((hasPair_iff _ _ _).mpr hp)]; exact h1
      · intro l hl
        obtain ⟨b, hb, e, hn⟩ := h2 l hl
        exact ⟨b, List.mem_cons_of_mem _ hb, e, hn⟩
      · intro b hb
        rcases List.mem_cons.mp hb with rfl | hb
        · rw [pairsOf_append]; exact List.mem_append_left _ hp
        · exact h3 b hb
    · have hid : ¬ (hasLinkID t a.id = true) := by
        rw [hasLinkID_iff]; exact hfresh a (List.mem_cons_self _ _)
      have hpf : ¬ (hasPair t a.project_id a.provider_id = true) := by
        rw [hasPair_iff]; exact hp
      have hfresh' : ∀ b ∈ rest, b.id ∉ (t ++ [a.row d]).map (fun l => l.ID) := by
        intro b hb hmem
        rw [List.map_append, List.mem_append] at hmem
        rcases hmem with hmem | hmem
        · exact hfresh b (List.mem_cons_of_mem _ hb) hmem
        · simp only [List.map_cons, List.map_nil, List.mem_singleton, LinkArgs.row] at hmem
          exact ha_notin (List.mem_map.mpr ⟨b, hb, hmem⟩)
      obtain ⟨added, h1, h2, h3, h4⟩ := ih (t ++ [a.row d]) hnd' hfresh'
      refine ⟨a.row d :: added, ?_, ?_, ?_, ?_⟩
      · rw [insertOnConflictDoNothing, if_neg hpf, if_neg hid, h1]
        simp
      · intro l hl
        rcases List.mem_cons.mp hl with rfl | hl
        · exact ⟨a, List.mem_cons_self _ _, rfl, hp⟩
        · obtain ⟨b, hb, e, hn⟩ := h2 l hl
          refine ⟨b, List.mem_cons_of_mem _ hb, e, ?_⟩
          intro hmem
          exact hn (by rw [pairsOf_append]; exact List.mem_append_left _ hmem)
      · intro b hb
        have e : t ++ a.row d :: added = (t ++ [a.row d]) ++ added := by simp
        rw [e]
        rcases List.mem_cons.mp hb with rfl | hb
        · rw [pairsOf_append, pairsOf_append]
          exact List.mem_append_left _ (List.mem_append_right _ (by simp [pairsOf, LinkArgs.row]))
        · exact h3 b hb
      · intro hu
        have e : t ++ a.row d :: added = (t ++ [a.row d]) ++ added := by simp
        rw [e]
        apply h4
        rw [pairsOf_append, List.nodup_append]
        refine ⟨hu, by simp [pairsOf], ?_⟩
        intro x hx hx'
        simp only [pairsOf, List.map_cons, List.map_nil, List.mem_singleton, LinkArgs.row] at hx'
        subst hx'
        exact hp hx

theorem map_range_succ (f : Nat → Nat) (n k : Nat) :
    (List.range (k + 1)).map (fun i => f (n + i))
      = f n :: (List.range k).map (fun i => f (n + 1 + i)) := by
  rw [List.range_succ_eq_map, List.map_cons, List.map_map]
  have h : ((fun i => f (n + i)) ∘ Nat.succ) = (fun i => f (n + 1 + i)) := by
    funext i
    simp only [Function.comp, Nat.succ_eq_add_one, Nat.add_assoc, Nat.add_comm 1 i]
  rw [h]
  rfl

theorem nextIDs_succ (w : World) (k : Nat) :
    w.nextIDs (k + 1)
      = uuid.New (w.rand w.drawn) :: World.nextIDs { w with drawn := w.drawn + 1 } k :=
  map_range_succ (fun n => uuid.New (w.rand n)) w.drawn k

theorem bulkArgs_world (p o : UUID) (ids : List UUID) :
    ∀ w : World, (projectRepository.bulkArgs p o w ids).2
      = { w with drawn := w.drawn + ids.length } := by
  induction ids with
  | nil => intro w; rfl
  | cons x rest ih =>
    intro w
    simp only [projectRepository.bulkArgs, World.uuidNew, ih, List.length_cons]
    congr 1
    omega

theorem bulkArgs_ids (p o : UUID) (ids : List UUID) :
    ∀ w : World, (projectRepository.bulkArgs p o w ids).1.map (fun a => a.id)
      = w.nextIDs ids.length := by
  induction ids with
  | nil => intro w; rfl
  | cons x rest ih =>
    intro w
    simp only [projectRepository.bulkArgs, World.uuidNew, List.map_cons, ih, List.length_cons,
      nextIDs_succ]

theorem bulkArgs_providers (p o : UUID) (ids : List UUID) :
    ∀ w : World, (projectRepository.bulkArgs p o w ids).1.map (fun a => a.provider_id) = ids := by
  induction ids with
  | nil => intro w; rfl
  | cons x rest ih =>
    intro w
    simp only [projectRepository.bulkArgs, World.uuidNew, List.map_cons, ih]

theorem bulkArgs_fixed (p o : UUID) (ids : List UUID) :
    ∀ w : World, ∀ a ∈ (projectRepository.bulkArgs p o w ids).1,
      a.project_id = p ∧ a.organization_id = o := by
  induction ids with
  | nil => intro w a ha; simp [projectRepository.bulkArgs] at ha
  | cons x rest ih =>
    intro w a ha
    simp only [projectRepository.bulkArgs, World.uuidNew, List.mem_cons] at ha
    rcases ha with rfl | ha
    · exact ⟨rfl, rfl⟩
    · exact ih _ a ha

theorem GetByID_found (w : World) (id : UUID) (p : Project)
    (hf : w.fault w.log.length = none) (hp : w.db.findProject id = some p) :
    projectRepository.GetByID w id
      = (.ok p, { w with log := w.log ++ [StoreCall.projectsFindByID id] }) := by
  simp [projectRepository.GetByID, PgRepository.FindByID, World.call, hf, hp]

theorem GetByID_missing (w : World) (id : UUID) (hp : w.db.findProject id = none) :
    ∃ e, projectRepository.GetByID w id
      = (.error e, { w with log := w.log ++ [StoreCall.projectsFindByID id] })
      ∧ e.Code = ErrCode.ErrProjectNotFound := by
  unfold projectRepository.GetByID PgRepository.FindByID World.call
  cases hfault : w.fault w.log.length with
  | none =>
    simp only [hp]
    simp [storex.IsRecordNotFound, recordNotFound, ProjectsErrors.New, Error.WithDetail]
  | some err =>
    simp only
    by_cases h : storex.IsRecordNotFound err = true
    · simp [h, ProjectsErrors.New, Error.WithDetail]
    · simp [h, ProjectsErrors.New, Error.WithDetail, Error.WithCause]

theorem bulkArgs_eq_zip (p o : UUID) (ids : List UUID) :
    ∀ w : World, (projectRepository.bulkArgs p o w ids).1
      = List.zipWith (fun u x => LinkArgs.mk u p x o) (w.nextIDs ids.length) ids := by
  induction ids with
  | nil => intro w; rfl
  | cons x rest ih =>
    intro w
    simp only [projectRepository.bulkArgs, World.uuidNew, ih, List.length_cons, nextIDs_succ,
      List.zipWith_cons_cons]

/-- The repository bulk insert on a non-empty list, when the project is found,
no failure is scheduled and the statement yields the table `t`. -/
theorem repo_AddProvidersBulk_eval (w : World) (projectID : UUID) (providerIDs : List UUID)
    (project : Project) (t : List ProjectProvider)
    (hne : providerIDs ≠ [])
    (hfault : w.NoFault)
    (hproject : w.db.findProject projectID = some project)
    (hins : insertOnConflictDoNothing (w.schema.linkDefaults (w.clock w.ticks))
      w.db.project_providers
      (projectRepository.bulkArgs projectID project.OrganizationID w providerIDs).1 = .ok t) :
    (projectRepository.AddProvidersBulk w projectID providerIDs).1 = .ok () ∧
    (projectRepository.AddProvidersBulk w projectID providerIDs).2.db
      = { w.db with project_providers := t } := by
  have hlen : (providerIDs.length == 0) = false := by
    cases providerIDs with
    | nil => exact absurd rfl hne
    | cons x xs => rfl
  have hargs : (projectRepository.bulkArgs projectID project.OrganizationID
      { w with log := w.log ++ [StoreCall.projectsFindByID projectID] } providerIDs).1
      = (projectRepository.bulkArgs projectID project.OrganizationID w providerIDs).1 := by
    rw [bulkArgs_eq_zip, bulkArgs_eq_zip]; rfl
  have hw := bulkArgs_world projectID project.OrganizationID providerIDs
    { w with log := w.log ++ [StoreCall.projectsFindByID projectID] }
  unfold projectRepository.AddProvidersBulk
  rw [hlen, GetByID_found w projectID project (hfault _) hproject]
  simp only [Bool.false_eq_true, if_false]
  generalize hb : projectRepository.bulkArgs projectID project.OrganizationID
      { w with log := w.log ++ [StoreCall.projectsFindByID projectID] } providerIDs = b at *
  obtain ⟨args, w2⟩ := b
  simp only at hargs hw
  subst hw
  simp only [sqlx.ExecInsertLinks, World.call, hfault _, DB.insertLinksIgnore, hargs, hins]
  exact ⟨trivial, trivial⟩

/-- What the bulk insert of the repository leaves behind, for an existing
project, without store failure and with unused fresh identities. -/
theorem repo_AddProvidersBulk_spec (w : World) (projectID : UUID) (providerIDs : List UUID)
    (project : Project)
    (hproject : w.db.findProject projectID = some project)
    (hfault : w.NoFault)
    (hnew : (w.nextIDs providerIDs.length).Nodup)
    (hfresh : ∀ u ∈ w.nextIDs providerIDs.length, u ∉ w.db.project_providers.map (fun l => l.ID)) :
    (projectRepository.AddProvidersBulk w projectID providerIDs).1 = .ok () ∧
    (projectRepository.AddProvidersBulk w projectID providerIDs).2.db.projects
      = w.db.projects ∧
    ∃ added,
      (projectRepository.AddProvidersBulk w projectID providerIDs).2.db.project_providers
        = w.db.project_providers ++ added ∧
      (∀ l ∈ added, l.ProjectID = projectID ∧ l.ProviderID ∈ providerIDs ∧
        l.OrganizationID = project.OrganizationID ∧
        (projectID, l.ProviderID) ∉ pairsOf w.db.project_providers) ∧
      (∀ x ∈ providerIDs, (projectID, x) ∈ pairsOf (w.db.project_providers ++ added)) ∧
      ((pairsOf w.db.project_providers).Nodup →
        (pairsOf (w.db.project_providers ++ added)).Nodup) := by
  by_cases hne : providerIDs = []
  · subst hne
    refine ⟨rfl, rfl, [], ?_, ?_, ?_, ?_⟩
    · simp [projectRepository.AddProvidersBulk]
    · simp
    · simp
    · simp
  · have hids := bulkArgs_ids projectID project.OrganizationID providerIDs w
    have hprov := bulkArgs_providers projectID project.OrganizationID providerIDs w
    have hfix := bulkArgs_fixed projectID project.OrganizationID providerIDs w
    obtain ⟨added, h1, h2, h3, h4⟩ :=
      insertOnConflictDoNothing_spec (w.schema.linkDefaults (w.clock w.ticks))
        (projectRepository.bulkArgs projectID project.OrganizationID w providerIDs).1
        w.db.project_providers (by rw [hids]; exact hnew)
        (by
          intro a ha
          apply hfresh
          rw [← hids]
          exact List.mem_map.mpr ⟨a, ha, rfl⟩)
    obtain ⟨e1, e2⟩ := repo_AddProvidersBulk_eval w projectID providerIDs project _ hne hfault
      hproject h1
    refine ⟨e1, by rw [e2], added, by rw [e2], ?_, ?_, h4⟩
    · intro l hl
      obtain ⟨a, ha, rfl, hn⟩ := h2 l hl
      obtain ⟨f1, f2⟩ := hfix a ha
      refine ⟨f1, ?_, f2, ?_⟩
      · rw [← hprov]; exact List.mem_map.mpr ⟨a, ha, rfl⟩
      · rw [← f1]; exact hn
    · intro x hx
      rw [← hprov] at hx
      obtain ⟨a, ha, rfl⟩ := List.mem_map.mp hx
      have := h3 a ha
      rw [(hfix a ha).1] at this
      exact this

/-- C1: on an existing project, without store failure and with unused fresh
identities, `AddProvidersBulk` succeeds for every list of provider IDs; the
old link rows stay as they are and in place, the rows added belong to the
project, carry its organizationID and a listed provider that was not linked,
exactly one row is added per such provider, the pairs linked to the project
afterwards are the old ones and the listed ones, no pair occurs twice (if none
did before), and the rows of other projects are the same. -/
theorem AddProvidersBulk_links_union (w : World) (projectID : UUID) (providerIDs : List UUID)
    (project : Project)
    (hproject : w.db.findProject projectID = some project)
    (hfault : w.NoFault)
    (hnew : (w.nextIDs providerIDs.length).Nodup)
    (hfresh : ∀ u ∈ w.nextIDs providerIDs.length, u ∉ w.db.project_providers.map (fun l => l.ID))
    (hunique : (pairsOf w.db.project_providers).Nodup) :
    (projectService.AddProvidersBulk w projectID ⟨providerIDs⟩).1 = .ok () ∧
    (projectService.AddProvidersBulk w projectID ⟨providerIDs⟩).2.db.projects = w.db.projects ∧
    (∃ added,
      (projectService.AddProvidersBulk w projectID ⟨providerIDs⟩).2.db.project_providers
        = w.db.project_providers ++ added ∧
      (∀ l ∈ added, l.ProjectID = projectID ∧ l.ProviderID ∈ providerIDs ∧
        l.OrganizationID = project.OrganizationID ∧
        (projectID, l.ProviderID) ∉ pairsOf w.db.project_providers) ∧
      (∀ x ∈ providerIDs, (projectID, x) ∉ pairsOf w.db.project_providers →
        (added.filter (fun l => l.ProviderID == x)).length = 1)) ∧
    (∀ x, (projectID, x) ∈
        pairsOf (projectService.AddProvidersBulk w projectID ⟨providerIDs⟩).2.db.project_providers
      ↔ (projectID, x) ∈ pairsOf w.db.project_providers ∨ x ∈ providerIDs) ∧
    (∀ x ∈ providerIDs,
      linkCount (projectService.AddProvidersBulk w projectID ⟨providerIDs⟩).2.db projectID x = 1) ∧
    (pairsOf
      (projectService.AddProvidersBulk w projectID ⟨providerIDs⟩).2.db.project_providers).Nodup ∧
    (∀ other, other ≠ projectID →
      (projectService.AddProvidersBulk w projectID ⟨providerIDs⟩).2.db.project_providers.filter
          (fun l => l.ProjectID == other)
        = w.db.project_providers.filter (fun l => l.ProjectID == other)) := by
  have hsvc : projectService.AddProvidersBulk w projectID ⟨providerIDs⟩
      = projectRepository.AddProvidersBulk
          { w with log := w.log ++ [StoreCall.projectsFindByID projectID] }
          projectID providerIDs := by
    simp only [projectService.AddProvidersBulk,
      GetByID_found w projectID project (hfault _) hproject]
  obtain ⟨h1, h2, added, h3, h4, h5, h6⟩ :=
    repo_AddProvidersBulk_spec { w with log := w.log ++ [StoreCall.projectsFindByID projectID] }
      projectID providerIDs project hproject hfault hnew hfresh
  rw [hsvc]
  have hnd := h6 hunique
  have hcount : ∀ x ∈ providerIDs,
      ((w.db.project_providers ++ added).filter
        (fun l => l.ProjectID == projectID && l.ProviderID == x)).length = 1 :=
    fun x hx => filter_pair_length_one _ projectID x hnd (h5 x hx)
  refine ⟨h1, h2, ⟨added, h3, h4, ?_⟩, ?_, ?_, ?_, ?_⟩
  · intro x hx hnot
    have hc := hcount x hx
    rw [List.filter_append, filter_pair_eq_nil _ projectID x hnot, List.nil_append] at hc
    rw [← hc]
    congr 1
    apply List.filter_congr
    intro l hl
    simp [(h4 l hl).1]
  · intro x
    rw [h3, pairsOf_append, List.mem_append]
    constructor
    · rintro (h | h)
      · exact Or.inl h
      · right
        simp only [pairsOf, List.mem_map, Prod.mk.injEq] at h
        obtain ⟨l, hl, -, rfl⟩ := h
        exact (h4 l hl).2.1
    · rintro (h | h)
      · exact Or.inl h
      · have := h5 x h
        rwa [pairsOf_append, List.mem_append] at this
  · intro x hx
    rw [linkCount, h3]
    exact hcount x hx
  · rw [h3]; exact hnd
  · intro other hother
    rw [h3, List.filter_append]
    have : added.filter (fun l => l.ProjectID == other) = [] := by
      rw [List.filter_eq_nil_iff]
      intro l hl
      simp only [beq_iff_eq, (h4 l hl).1]
      exact fun h => hother h.symm
    rw [this, List.append_nil]

/-- C1 on the demo world: providers 20 (already linked), 21 (listed twice) and
22 are added to project 1; the call succeeds and provider 21 has one link. -/
theorem AddProvidersBulk_links_union_witness :
    (projectService.AddProvidersBulk demoWorld 1 ⟨[20, 21, 21, 22]⟩).1 = .ok () ∧
    linkCount (projectService.AddProvidersBulk demoWorld 1 ⟨[20, 21, 21, 22]⟩).2.db 1 21 = 1 :=
  have h := AddProvidersBulk_links_union demoWorld 1 [20, 21, 21, 22]
    { ID := 1, OrganizationID := 7, Name := "alpha", Description := none,
      IsActive := true, Metadata := some [], CreatedAt := 0, UpdatedAt := 0 }
    (by rfl) (fun _ => rfl) (by decide) (by decide) (by decide)
  ⟨h.1, h.2.2.2.2.1 21 (by decide)⟩

theorem call_frame {α : Type} (w : World) (c : StoreCall) (run : DB → Except DbErr (α × DB)) :
    (w.call c run).2.fault = w.fault ∧ (w.call c run).2.schema = w.schema ∧
    (w.call c run).2.rand = w.rand ∧ (w.call c run).2.clock = w.clock ∧
    (w.call c run).2.drawn = w.drawn ∧ (w.call c run).2.ticks = w.ticks ∧
    (w.call c run).2.log = w.log ++ [c] := by
  unfold World.call
  cases w.fault w.log.length with
  | some e => simp
  | none =>
    cases run w.db with
    | error e => simp
    | ok x => simp

theorem GetByID_frame (w : World) (id : UUID) :
    (projectRepository.GetByID w id).2 = { w with log := w.log ++ [StoreCall.projectsFindByID id] } := by
  unfold projectRepository.GetByID PgRepository.FindByID World.call
  cases hf : w.fault w.log.length with
  | some e => by_cases h : storex.IsRecordNotFound e = true <;> simp [h]
  | none =>
    cases hp : w.db.findProject id with
    | none => simp [hp, storex.IsRecordNotFound, recordNotFound]
    | some p => simp [hp]

theorem insertOnConflictDoNothing_present (d : LinkDefaults) (rows : List LinkArgs)
    (t : List ProjectProvider)
    (h : ∀ a ∈ rows, (a.project_id, a.provider_id) ∈ pairsOf t) :
    insertOnConflictDoNothing d t rows = .ok t := by
  induction rows with
  | nil => rfl
  | cons a rest ih =>
    rw [insertOnConflictDoNothing,
      if_pos ((hasPair_iff _ _ _).mpr (h a (List.mem_cons_self _ _)))]
    exact ih (fun b hb => h b (List.mem_cons_of_mem _ hb))

/-- The bulk insert of the repository changes nothing in the tables when every
listed provider is already linked to the project. -/
theorem repo_AddProvidersBulk_present (w : World) (projectID : UUID) (providerIDs : List UUID)
    (project : Project)
    (hproject : w.db.findProject projectID = some project)
    (hfault : w.NoFault)
    (hall : ∀ x ∈ providerIDs, (projectID, x) ∈ pairsOf w.db.project_providers) :
    (projectRepository.AddProvidersBulk w projectID providerIDs).1 = .ok () ∧
    (projectRepository.AddProvidersBulk w projectID providerIDs).2.db = w.db := by
  by_cases hne : providerIDs = []
  · subst hne
    exact ⟨rfl, rfl⟩
  · have hprov := bulkArgs_providers projectID project.OrganizationID providerIDs w
    have hfix := bulkArgs_fixed projectID project.OrganizationID providerIDs w
    have hins := insertOnConflictDoNothing_present (w.schema.linkDefaults (w.clock w.ticks))
      (projectRepository.bulkArgs projectID project.OrganizationID w providerIDs).1
      w.db.project_providers (by
        intro a ha
        rw [(hfix a ha).1]
        apply hall
        rw [← hprov]
        exact List.mem_map.mpr ⟨a, ha, rfl⟩)
    exact repo_AddProvidersBulk_eval w projectID providerIDs project _ hne hfault hproject hins

theorem ExecInsertLinks_frame (w : World) (args : List LinkArgs) :
    (sqlx.ExecInsertLinks w args).2.db.projects = w.db.projects ∧
    (sqlx.ExecInsertLinks w args).2.fault = w.fault ∧
    (sqlx.ExecInsertLinks w args).2.schema = w.schema ∧
    (sqlx.ExecInsertLinks w args).2.rand = w.rand ∧
    (sqlx.ExecInsertLinks w args).2.drawn = w.drawn := by
  unfold sqlx.ExecInsertLinks World.call DB.insertLinksIgnore
  cases w.fault w.log.length with
  | some e => simp
  | none =>
    cases h : insertOnConflictDoNothing (w.schema.linkDefaults (w.clock w.ticks))
        w.db.project_providers args with
    | error e => simp [h]
    | ok t => simp [h]

/-- What the bulk insert of the repository never touches: the projects table,
the failure schedule, the table definitions and the random bytes. -/
theorem repo_AddProvidersBulk_frame (w : World) (projectID : UUID) (providerIDs : List UUID) :
    (projectRepository.AddProvidersBulk w projectID providerIDs).2.db.projects = w.db.projects ∧
    (projectRepository.AddProvidersBulk w projectID providerIDs).2.fault = w.fault ∧
    (projectRepository.AddProvidersBulk w projectID providerIDs).2.schema = w.schema ∧
    (projectRepository.AddProvidersBulk w projectID providerIDs).2.rand = w.rand := by
  unfold projectRepository.AddProvidersBulk
  split
  · exact ⟨rfl, rfl, rfl, rfl⟩
  · have hg := GetByID_frame w projectID
    generalize projectRepository.GetByID w projectID = g at hg
    obtain ⟨r, w1⟩ := g
    simp only at hg
    subst hg
    cases r with
    | error e => exact ⟨rfl, rfl, rfl, rfl⟩
    | ok project =>
      simp only
      have hb := bulkArgs_world projectID project.OrganizationID providerIDs
        { w with log := w.log ++ [StoreCall.projectsFindByID projectID] }
      generalize projectRepository.bulkArgs projectID project.OrganizationID
        { w with log := w.log ++ [StoreCall.projectsFindByID projectID] } providerIDs = b at hb
      obtain ⟨args, w2⟩ := b
      simp only at hb
      subst hb
      simp only
      have hc := ExecInsertLinks_frame
        { w with log := w.log ++ [StoreCall.projectsFindByID projectID],
                 drawn := w.drawn + providerIDs.length } args
      generalize sqlx.ExecInsertLinks _ _ = c at hc ⊢
      obtain ⟨rc, w3⟩ := c
      cases rc <;> exact ⟨hc.1, hc.2.1, hc.2.2.1, hc.2.2.2.1⟩

/-- The number of identities the bulk insert of the repository draws when the
project is found and no failure is scheduled: one per listed provider. -/
theorem repo_AddProvidersBulk_drawn (w : World) (projectID : UUID) (providerIDs : List UUID)
    (project : Project) (hfault : w.NoFault)
    (hproject : w.db.findProject projectID = some project) :
    (projectRepository.AddProvidersBulk w projectID providerIDs).2.drawn
      = w.drawn + providerIDs.length := by
  unfold projectRepository.AddProvidersBulk
  split
  · rename_i h
    have : providerIDs.length = 0 := by simpa using h
    rw [this]; rfl
  · rw [GetByID_found w projectID project (hfault _) hproject]
    simp only
    have hb := bulkArgs_world projectID project.OrganizationID providerIDs
      { w with log := w.log ++ [StoreCall.projectsFindByID projectID] }
    generalize projectRepository.bulkArgs projectID project.OrganizationID
      { w with log := w.log ++ [StoreCall.projectsFindByID projectID] } providerIDs = b at hb
    obtain ⟨args, w2⟩ := b
    simp only at hb
    subst hb
    simp only
    have hc := ExecInsertLinks_frame
      { w with log := w.log ++ [StoreCall.projectsFindByID projectID],
               drawn := w.drawn + providerIDs.length } args
    generalize sqlx.ExecInsertLinks _ _ = c at hc ⊢
    obtain ⟨rc, w3⟩ := c
    cases rc <;> exact hc.2.2.2.2

theorem AddProvidersBulk_fault (w : World) (projectID : UUID) (req : BulkProviderRequest) :
    (projectService.AddProvidersBulk w projectID req).2.fault = w.fault := by
  unfold projectService.AddProvidersBulk
  have hg := GetByID_frame w projectID
  generalize projectRepository.GetByID w projectID = g at hg
  obtain ⟨r, w1⟩ := g
  simp only at hg
  subst hg
  cases r with
  | error e => rfl
  | ok project => exact (repo_AddProvidersBulk_frame _ _ _).2.1

/-- C2: on an existing project, without store failure and with unused fresh
identities for the first call, a second `AddProvidersBulk` with the same
arguments succeeds like the first and leaves both tables exactly as the first
call left them. -/
theorem AddProvidersBulk_idempotent (w : World) (projectID : UUID) (providerIDs : List UUID)
    (project : Project)
    (hproject : w.db.findProject projectID = some project)
    (hfault : w.NoFault)
    (hnew : (w.nextIDs providerIDs.length).Nodup)
    (hfresh : ∀ u ∈ w.nextIDs providerIDs.length, u ∉ w.db.project_providers.map (fun l => l.ID)) :
    (projectService.AddProvidersBulk w projectID ⟨providerIDs⟩).1 = .ok () ∧
    (projectService.AddProvidersBulk
      (projectService.AddProvidersBulk w projectID ⟨providerIDs⟩).2
      projectID ⟨providerIDs⟩).1 = .ok () ∧
    (projectService.AddProvidersBulk
      (projectService.AddProvidersBulk w projectID ⟨providerIDs⟩).2
      projectID ⟨providerIDs⟩).2.db
      = (projectService.AddProvidersBulk w projectID ⟨providerIDs⟩).2.db := by
  have hsvc : ∀ v : World, v.NoFault → v.db.findProject projectID = some project →
      projectService.AddProvidersBulk v projectID ⟨providerIDs⟩
        = projectRepository.AddProvidersBulk
            { v with log := v.log ++ [StoreCall.projectsFindByID projectID] }
            projectID providerIDs := by
    intro v hv hp
    simp only [projectService.AddProvidersBulk, GetByID_found v projectID project (hv _) hp]
  obtain ⟨h1, h2, added, h3, -, h5, -⟩ :=
    repo_AddProvidersBulk_spec { w with log := w.log ++ [StoreCall.projectsFindByID projectID] }
      projectID providerIDs project hproject hfault hnew hfresh
  rw [← hsvc w hfault hproject] at h1 h2 h3
  have hfault1 : (projectService.AddProvidersBulk w projectID ⟨providerIDs⟩).2.NoFault := by
    intro n
    rw [AddProvidersBulk_fault]
    exact hfault n
  have hproject1 :
      (projectService.AddProvidersBulk w projectID ⟨providerIDs⟩).2.db.findProject projectID
        = some project := by
    unfold DB.findProject
    rw [h2]
    exact hproject
  have hall : ∀ x ∈ providerIDs, (projectID, x) ∈
      pairsOf (projectService.AddProvidersBulk w projectID ⟨providerIDs⟩).2.db.project_providers := by
    intro x hx
    rw [h3]
    exact h5 x hx
  refine ⟨h1, ?_, ?_⟩
  · rw [hsvc _ hfault1 hproject1]
    exact (repo_AddProvidersBulk_present
      { (projectService.AddProvidersBulk w projectID ⟨providerIDs⟩).2 with
        log := (projectService.AddProvidersBulk w projectID ⟨providerIDs⟩).2.log
          ++ [StoreCall.projectsFindByID projectID] }
      projectID providerIDs project hproject1 hfault1 hall).1
  · rw [hsvc _ hfault1 hproject1]
    exact (repo_AddProvidersBulk_present
      { (projectService.AddProvidersBulk w projectID ⟨providerIDs⟩).2 with
        log := (projectService.AddProvidersBulk w projectID ⟨providerIDs⟩).2.log
          ++ [StoreCall.projectsFindByID projectID] }
      projectID providerIDs project hproject1 hfault1 hall).2

/-- C2 on the demo world: adding providers 22, 20, 22 to project 1 a second
time succeeds and leaves the tables as the first call left them. -/
theorem AddProvidersBulk_idempotent_witness :
    (projectService.AddProvidersBulk
      (projectService.AddProvidersBulk demoWorld 1 ⟨[22, 20, 22]⟩).2 1 ⟨[22, 20, 22]⟩).1 = .ok () ∧
    (projectService.AddProvidersBulk
      (projectService.AddProvidersBulk demoWorld 1 ⟨[22, 20, 22]⟩).2 1 ⟨[22, 20, 22]⟩).2.db
      = (projectService.AddProvidersBulk demoWorld 1 ⟨[22, 20, 22]⟩).2.db :=
  (AddProvidersBulk_idempotent demoWorld 1 [22, 20, 22]
    { ID := 1, OrganizationID := 7, Name := "alpha", Description := none,
      IsActive := true, Metadata := some [], CreatedAt := 0, UpdatedAt := 0 }
    (by rfl) (fun _ => rfl) (by decide) (by decide)).2

theorem findProject_eq_none (db : DB) (id : UUID) (h : ∀ p ∈ db.projects, p.ID ≠ id) :
    db.findProject id = none := by
  unfold DB.findProject
  rw [List.find?_eq_none]
  intro p hp
  simpa using h p hp

/-- C3: for a project ID that no stored project has, the service operation
`AddProvidersBulk` fails with NOT_FOUND for every list of provider IDs and
every schedule of store failures; both tables are what they were and the only
round trip made is the existence check. -/
theorem AddProvidersBulk_missing_project (w : World) (projectID : UUID)
    (req : BulkProviderRequest)
    (hmissing : ∀ p ∈ w.db.projects, p.ID ≠ projectID) :
    (∃ e, (projectService.AddProvidersBulk w projectID req).1 = .error e ∧
      e.Code = ErrCode.ErrProjectNotFound ∧ e.Code.code = "NOT_FOUND") ∧
    (projectService.AddProvidersBulk w projectID req).2.db = w.db ∧
    (projectService.AddProvidersBulk w projectID req).2.log
      = w.log ++ [StoreCall.projectsFindByID projectID] := by
  obtain ⟨e, he, hc⟩ := GetByID_missing w projectID (findProject_eq_none w.db projectID hmissing)
  have hev : projectService.AddProvidersBulk w projectID req
      = (.error e, { w with log := w.log ++ [StoreCall.projectsFindByID projectID] }) := by
    simp only [projectService.AddProvidersBulk, he]
  rw [hev]
  exact ⟨⟨e, rfl, hc, by rw [hc]; rfl⟩, rfl, rfl⟩

/-- C3 on the demo world: no project has the ID 3. -/
theorem AddProvidersBulk_missing_project_witness :
    (∃ e, (projectService.AddProvidersBulk demoWorld 3 ⟨[20, 21]⟩).1 = .error e ∧
      e.Code = ErrCode.ErrProjectNotFound ∧ e.Code.code = "NOT_FOUND") ∧
    (projectService.AddProvidersBulk demoWorld 3 ⟨[20, 21]⟩).2.db = demoWorld.db ∧
    (projectService.AddProvidersBulk demoWorld 3 ⟨[20, 21]⟩).2.log
      = demoWorld.log ++ [StoreCall.projectsFindByID 3] :=
  AddProvidersBulk_missing_project demoWorld 3 ⟨[20, 21]⟩ (by decide)

theorem filter_not_pair_eq_self (t : List ProjectProvider) (p q : UUID)
    (h : (p, q) ∉ pairsOf t) :
    t.filter (fun l => !(l.ProjectID == p && l.ProviderID == q)) = t := by
  rw [List.filter_eq_self]
  intro l hl
  simp only [Bool.not_eq_true', Bool.and_eq_false_iff, beq_eq_false_iff_ne, ne_eq]
  by_contra hc
  simp only [not_or, not_not] at hc
  apply h
  simp only [pairsOf, List.mem_map, Prod.mk.injEq]
  exact ⟨l, hl, hc.1, hc.2⟩

theorem not_mem_pairsOf_filter (t : List ProjectProvider) (p q : UUID) :
    (p, q) ∉ pairsOf (t.filter (fun l => !(l.ProjectID == p && l.ProviderID == q))) := by
  simp only [pairsOf, List.mem_map, List.mem_filter, Prod.mk.injEq, not_exists, not_and]
  intro l hl h1 h2
  simp [h1, h2] at hl

/-- C4: when the store executes the statement, `RemoveProvider` fails with
PROVIDER_NOT_FOUND exactly when no link row has the pair, and then both tables
are unchanged; otherwise it succeeds, no row with the pair is left and the
other rows are what they were, in their order. -/
theorem RemoveProvider_not_found_iff (w : World) (projectID providerID : UUID)
    (hfault : w.NoFault) :
    ((∃ e, (projectService.RemoveProvider w projectID providerID).1 = .error e ∧
        e.Code = ErrCode.ErrProjectProviderNotFound)
      ↔ (projectID, providerID) ∉ pairsOf w.db.project_providers) ∧
    ((projectID, providerID) ∉ pairsOf w.db.project_providers →
      (projectService.RemoveProvider w projectID providerID).2.db = w.db) ∧
    ((projectID, providerID) ∈ pairsOf w.db.project_providers →
      (projectService.RemoveProvider w projectID providerID).1 = .ok () ∧
      (projectID, providerID) ∉
        pairsOf (projectService.RemoveProvider w projectID providerID).2.db.project_providers ∧
      (projectService.RemoveProvider w projectID providerID).2.db.project_providers
        = w.db.project_providers.filter
            (fun l => !(l.ProjectID == projectID && l.ProviderID == providerID)) ∧
      (projectService.RemoveProvider w projectID providerID).2.db.projects = w.db.projects) := by
  by_cases hmem : (projectID, providerID) ∈ pairsOf w.db.project_providers
  · have hlen : ((w.db.project_providers.filter
        (fun l => l.ProjectID == projectID && l.ProviderID == providerID)).length == 0) = false := by
      rw [← hasPair_iff, hasPair, List.any_eq_true] at hmem
      obtain ⟨l, hl, hb⟩ := hmem
      have : l ∈ w.db.project_providers.filter
          (fun l => l.ProjectID == projectID && l.ProviderID == providerID) :=
        List.mem_filter.mpr ⟨hl, hb⟩
      cases hf : w.db.project_providers.filter
          (fun l => l.ProjectID == projectID && l.ProviderID == providerID) with
      | nil => rw [hf] at this; cases this
      | cons a b => rfl
    have hev : projectService.RemoveProvider w projectID providerID
        = (.ok (), { w with
            db := (w.db.deleteLink projectID providerID).2,
            log := w.log ++ [StoreCall.deleteProjectProvider projectID providerID] }) := by
      simp only [projectService.RemoveProvider, projectRepository.RemoveProvider,
        sqlx.ExecDeleteLink, World.call, hfault _, DB.deleteLink, hlen, Bool.false_eq_true,
        if_false]
    rw [hev]
    refine ⟨⟨?_, fun h => absurd hmem h⟩, fun h => absurd hmem h, fun _ => ⟨rfl, ?_, rfl, rfl⟩⟩
    · rintro ⟨e, he, -⟩
      cases he
    · exact not_mem_pairsOf_filter _ _ _
  · have hnil := filter_pair_eq_nil w.db.project_providers projectID providerID hmem
    have hself := filter_not_pair_eq_self w.db.project_providers projectID providerID hmem
    have hev : projectService.RemoveProvider w projectID providerID
        = (.error (((ProjectsErrors.New .ErrProjectProviderNotFound).WithDetail
            "project_id" (.uuid projectID)).WithDetail "provider_id" (.uuid providerID)),
          { w with log := w.log ++ [StoreCall.deleteProjectProvider projectID providerID] }) := by
      simp only [projectService.RemoveProvider, projectRepository.RemoveProvider,
        sqlx.ExecDeleteLink, World.call, hfault _, DB.deleteLink, hnil, hself, List.length_nil,
        beq_self_eq_true, if_true]
    rw [hev]
    exact ⟨⟨fun _ => hmem, fun _ => ⟨_, rfl, rfl⟩⟩, fun _ => rfl, fun h => absurd h hmem⟩

/-- C4 on the demo world: provider 21 is not linked to project 1, provider 20
is. -/
theorem RemoveProvider_not_found_iff_witness :
    ((∃ e, (projectService.RemoveProvider demoWorld 1 21).1 = .error e ∧
        e.Code = ErrCode.ErrProjectProviderNotFound)
      ↔ (1, 21) ∉ pairsOf demoWorld.db.project_providers) ∧
    ((1, 20) ∈ pairsOf demoWorld.db.project_providers →
      (projectService.RemoveProvider demoWorld 1 20).1 = .ok ()) :=
  ⟨(RemoveProvider_not_found_iff demoWorld 1 21 (fun _ => rfl)).1,
   fun h => ((RemoveProvider_not_found_iff demoWorld 1 20 (fun _ => rfl)).2.2 h).1⟩

/-- C5: without store failure `RemoveProvidersBulk` succeeds for every project
ID and every list of provider IDs, linked or not; the link rows left are the
old ones minus the rows of that project whose provider is listed, the projects
table is unchanged, and when no listed provider is linked to the project
nothing changes at all. -/
theorem RemoveProvidersBulk_removes_listed (w : World) (projectID : UUID)
    (providerIDs : List UUID) (hfault : w.NoFault) :
    (projectService.RemoveProvidersBulk w projectID ⟨providerIDs⟩).1 = .ok () ∧
    (projectService.RemoveProvidersBulk w projectID ⟨providerIDs⟩).2.db.project_providers
      = w.db.project_providers.filter
          (fun l => !(l.ProjectID == projectID && providerIDs.contains l.ProviderID)) ∧
    (projectService.RemoveProvidersBulk w projectID ⟨providerIDs⟩).2.db.projects
      = w.db.projects ∧
    ((∀ x ∈ providerIDs, (projectID, x) ∉ pairsOf w.db.project_providers) →
      (projectService.RemoveProvidersBulk w projectID ⟨providerIDs⟩).2.db = w.db) := by
  have hlinks : (projectService.RemoveProvidersBulk w projectID ⟨providerIDs⟩).1 = .ok () ∧
      (projectService.RemoveProvidersBulk w projectID ⟨providerIDs⟩).2.db
        = DB.mk w.db.projects (w.db.project_providers.filter
            (fun l => !(l.ProjectID == projectID && providerIDs.contains l.ProviderID)))
            w.db.providers := by
    cases providerIDs with
    | nil =>
      simp [projectService.RemoveProvidersBulk, projectRepository.RemoveProvidersBulk]
    | cons x xs =>
      simp only [projectService.RemoveProvidersBulk, projectRepository.RemoveProvidersBulk,
        sqlx.ExecDeleteLinksIn, World.call, hfault _, DB.deleteLinksIn, List.length_cons]
      exact ⟨rfl, rfl⟩
  refine ⟨hlinks.1, by rw [hlinks.2], by rw [hlinks.2], ?_⟩
  intro hnone
  rw [hlinks.2]
  have : w.db.project_providers.filter
      (fun l => !(l.ProjectID == projectID && providerIDs.contains l.ProviderID))
      = w.db.project_providers := by
    rw [List.filter_eq_self]
    intro l hl
    simp only [Bool.not_eq_true', Bool.and_eq_false_iff, beq_eq_false_iff_ne, ne_eq]
    by_contra hc
    simp only [not_or, not_not, Bool.not_eq_false] at hc
    apply hnone l.ProviderID (by simpa using hc.2)
    simp only [pairsOf, List.mem_map, Prod.mk.injEq]
    exact ⟨l, hl, hc.1, rfl⟩
  rw [this]

/-- C5 on the demo world: removing the unlinked provider 21 from project 1
succeeds and changes nothing. -/
theorem RemoveProvidersBulk_removes_listed_witness :
    (projectService.RemoveProvidersBulk demoWorld 1 ⟨[21]⟩).1 = .ok () ∧
    (projectService.RemoveProvidersBulk demoWorld 1 ⟨[21]⟩).2.db = demoWorld.db :=
  have h := RemoveProvidersBulk_removes_listed demoWorld 1 [21] (fun _ => rfl)
  ⟨h.1, h.2.2.2 (by decide)⟩

theorem contains_uniqueViolation (n : String) :
    strings.Contains (uniqueViolation n).msg n = true := by
  simp only [strings.Contains, uniqueViolation, decide_eq_true_eq, String.data_append]
  exact ⟨_, _, rfl⟩

/-- `AddProvider` on a pair that is already linked: the insert is refused by
the unique index and, when the index bears the name the repository looks for,
the call fails with PROVIDER_EXISTS and leaves the tables alone. -/
theorem AddProvider_eval_linked (w : World) (projectID : UUID) (req : AddProviderRequest)
    (project : Project)
    (hproject : w.db.findProject projectID = some project)
    (hfault : w.NoFault)
    (hname : w.schema.projectProvidersUnique = "project_providers_unique")
    (hid : uuid.New (w.rand w.drawn) ∉ w.db.project_providers.map (fun l => l.ID))
    (hpair : (projectID, req.ProviderID) ∈ pairsOf w.db.project_providers) :
    (∃ e, (projectService.AddProvider w projectID req).1 = .error e ∧
      e.Code = ErrCode.ErrProjectProviderExists) ∧
    (projectService.AddProvider w projectID req).2.db = w.db ∧
    (projectService.AddProvider w projectID req).2.fault = w.fault ∧
    (projectService.AddProvider w projectID req).2.schema = w.schema ∧
    (projectService.AddProvider w projectID req).2.rand = w.rand ∧
    (projectService.AddProvider w projectID req).2.drawn = w.drawn + 1 := by
  have h1 : ¬ (hasLinkID w.db.project_providers (uuid.New (w.rand w.drawn)) = true) := by
    rw [hasLinkID_iff]; exact hid
  have h2 := (hasPair_iff _ _ _).mpr hpair
  have h3 := contains_uniqueViolation "project_providers_unique"
  simp only [projectService.AddProvider, GetByID_found w projectID project (hfault _) hproject,
    World.timeNow, projectRepository.AddProvider, World.uuidNew, PgRepository.CreateLink,
    World.call, hfault _, DB.insertLink, beq_self_eq_true, if_true, h1, h2, hname, h3, if_false]
  exact ⟨⟨_, rfl, rfl⟩, rfl, rfl, rfl, rfl, rfl⟩

/-- `AddProvider` on a pair that is not linked yet: the link built by the
service, with a fresh identity, is appended to the table. -/
theorem AddProvider_eval_new (w : World) (projectID : UUID) (req : AddProviderRequest)
    (project : Project)
    (hproject : w.db.findProject projectID = some project)
    (hfault : w.NoFault)
    (hid : uuid.New (w.rand w.drawn) ∉ w.db.project_providers.map (fun l => l.ID))
    (hpair : (projectID, req.ProviderID) ∉ pairsOf w.db.project_providers) :
    (projectService.AddProvider w projectID req).1
      = .ok (ProjectProvider.mk (uuid.New (w.rand w.drawn)) projectID req.ProviderID
          project.OrganizationID req.Role true (w.clock w.ticks) (w.clock (w.ticks + 1))) ∧
    (projectService.AddProvider w projectID req).2.db
      = DB.mk w.db.projects (w.db.project_providers ++
          [ProjectProvider.mk (uuid.New (w.rand w.drawn)) projectID req.ProviderID
            project.OrganizationID req.Role true (w.clock w.ticks) (w.clock (w.ticks + 1))])
          w.db.providers ∧
    (projectService.AddProvider w projectID req).2.fault = w.fault ∧
    (projectService.AddProvider w projectID req).2.schema = w.schema ∧
    (projectService.AddProvider w projectID req).2.rand = w.rand ∧
    (projectService.AddProvider w projectID req).2.drawn = w.drawn + 1 := by
  have h1 : ¬ (hasLinkID w.db.project_providers (uuid.New (w.rand w.drawn)) = true) := by
    rw [hasLinkID_iff]; exact hid
  have h2 : ¬ (hasPair w.db.project_providers projectID req.ProviderID = true) := by
    rw [hasPair_iff]; exact hpair
  simp only [projectService.AddProvider, GetByID_found w projectID project (hfault _) hproject,
    World.timeNow, projectRepository.AddProvider, World.uuidNew, PgRepository.CreateLink,
    World.call, hfault _, DB.insertLink, beq_self_eq_true, if_true, h1, h2, if_false]
  exact ⟨rfl, rfl, rfl, rfl, rfl, rfl⟩

theorem nextIDs_two (w : World) :
    w.nextIDs 2 = [uuid.New (w.rand w.drawn), uuid.New (w.rand (w.drawn + 1))] := by
  rw [show (2 : Nat) = 0 + 1 + 1 from rfl, nextIDs_succ, nextIDs_succ]
  rfl

/-- C6: over a store whose unique index on (project_id, provider_id) is named
project_providers_unique and whose link rows respect it, for an existing
project, without store failure and with unused fresh identities: after a first
`AddProvider` (which succeeds when the pair was not linked), a second
`AddProvider` with the same pair fails with PROVIDER_EXISTS, a Conflict, and
the pair has exactly one link row after the first call and after the second. -/
theorem AddProvider_twice_provider_exists (w : World) (projectID : UUID)
    (req req2 : AddProviderRequest) (project : Project)
    (hproject : w.db.findProject projectID = some project)
    (hfault : w.NoFault)
    (hname : w.schema.projectProvidersUnique = "project_providers_unique")
    (hunique : (pairsOf w.db.project_providers).Nodup)
    (hnew : (w.nextIDs 2).Nodup)
    (hfresh : ∀ u ∈ w.nextIDs 2, u ∉ w.db.project_providers.map (fun l => l.ID))
    (hsame : req2.ProviderID = req.ProviderID) :
    ((projectID, req.ProviderID) ∉ pairsOf w.db.project_providers →
      ∃ l, (projectService.AddProvider w projectID req).1 = .ok l) ∧
    (∃ e, (projectService.AddProvider
        (projectService.AddProvider w projectID req).2 projectID req2).1 = .error e ∧
      e.Code = ErrCode.ErrProjectProviderExists ∧ e.Code.code = "PROVIDER_EXISTS" ∧
      e.Code.errType = ErrType.TypeConflict) ∧
    linkCount (projectService.AddProvider w projectID req).2.db projectID req.ProviderID = 1 ∧
    linkCount (projectService.AddProvider
      (projectService.AddProvider w projectID req).2 projectID req2).2.db
      projectID req.ProviderID = 1 := by
  rw [nextIDs_two] at hnew hfresh
  have hid1 : uuid.New (w.rand w.drawn) ∉ w.db.project_providers.map (fun l => l.ID) :=
    hfresh _ (by simp)
  have hid2 : uuid.New (w.rand (w.drawn + 1)) ∉ w.db.project_providers.map (fun l => l.ID) :=
    hfresh _ (by simp)
  have hne : uuid.New (w.rand (w.drawn + 1)) ≠ uuid.New (w.rand w.drawn) := by
    intro h
    simp [h] at hnew
  by_cases hpair : (projectID, req.ProviderID) ∈ pairsOf w.db.project_providers
  · obtain ⟨-, f2, f3, f4, f5, f6⟩ :=
      AddProvider_eval_linked w projectID req project hproject hfault hname hid1 hpair
    obtain ⟨⟨e, he, hc⟩, g2, -⟩ :=
      AddProvider_eval_linked (projectService.AddProvider w projectID req).2 projectID req2 project
        (by rw [DB.findProject, f2]; exact hproject)
        (by intro n; rw [f3]; exact hfault n)
        (by rw [f4]; exact hname)
        (by rw [f2, f5, f6]; exact hid2)
        (by rw [f2, hsame]; exact hpair)
    refine ⟨fun h => absurd hpair h, ⟨e, he, hc, by rw [hc]; rfl, by rw [hc]; rfl⟩, ?_, ?_⟩
    · rw [linkCount, f2]
      exact filter_pair_length_one _ _ _ hunique hpair
    · rw [linkCount, g2, f2]
      exact filter_pair_length_one _ _ _ hunique hpair
  · obtain ⟨f1, f2, f3, f4, f5, f6⟩ :=
      AddProvider_eval_new w projectID req project hproject hfault hid1 hpair
    have hpair1 : (projectID, req.ProviderID) ∈
        pairsOf (projectService.AddProvider w projectID req).2.db.project_providers := by
      rw [f2]
      simp [pairsOf]
    have hunique1 :
        (pairsOf (projectService.AddProvider w projectID req).2.db.project_providers).Nodup := by
      rw [f2]
      simp only [pairsOf_append, List.nodup_append]
      refine ⟨hunique, by simp [pairsOf], ?_⟩
      intro x hx hx2
      simp only [pairsOf, List.map_cons, List.map_nil, List.mem_singleton] at hx2
      subst hx2
      exact hpair hx
    obtain ⟨⟨e, he, hc⟩, g2, -⟩ :=
      AddProvider_eval_linked (projectService.AddProvider w projectID req).2 projectID req2 project
        (by rw [DB.findProject, f2]; exact hproject)
        (by intro n; rw [f3]; exact hfault n)
        (by rw [f4]; exact hname)
        (by
          rw [f2, f5, f6]
          simp only [List.map_append, List.map_cons, List.map_nil, List.mem_append,
            List.mem_singleton, not_or]
          exact ⟨hid2, hne⟩)
        (by rw [hsame]; exact hpair1)
    refine ⟨fun _ => ⟨_, f1⟩, ⟨e, he, hc, by rw [hc]; rfl, by rw [hc]; rfl⟩, ?_, ?_⟩
    · rw [linkCount]
      exact filter_pair_length_one _ _ _ hunique1 hpair1
    · rw [linkCount, g2]
      exact filter_pair_length_one _ _ _ hunique1 hpair1

/-- C6 on the demo world: provider 21 is added to project 1 twice; the second
call fails with PROVIDER_EXISTS and one link row exists for the pair. -/
theorem AddProvider_twice_provider_exists_witness :
    (∃ e, (projectService.AddProvider
        (projectService.AddProvider demoWorld 1 ⟨21, none⟩).2 1 ⟨21, some "qa"⟩).1 = .error e ∧
      e.Code = ErrCode.ErrProjectProviderExists ∧ e.Code.code = "PROVIDER_EXISTS" ∧
      e.Code.errType = ErrType.TypeConflict) ∧
    linkCount (projectService.AddProvider
      (projectService.AddProvider demoWorld 1 ⟨21, none⟩).2 1 ⟨21, some "qa"⟩).2.db 1 21 = 1 :=
  have h := AddProvider_twice_provider_exists demoWorld 1 ⟨21, none⟩ ⟨21, some "qa"⟩
    { ID := 1, OrganizationID := 7, Name := "alpha", Description := none,
      IsActive := true, Metadata := some [], CreatedAt := 0, UpdatedAt := 0 }
    (by rfl) (fun _ => rfl) (by rfl) (by decide) (by decide) (by decide) (by rfl)
  ⟨h.2.1, h.2.2.2⟩

theorem uuid_New_ne_Nil (r : Nat) : uuid.New r ≠ uuid.Nil := by
  intro h
  have h2 : r % 2 ^ 128 - (r % 2 ^ 128 / 2 ^ 76 % 16) * 2 ^ 76
      - (r % 2 ^ 128 / 2 ^ 62 % 4) * 2 ^ 62 + 4 * 2 ^ 76 + 2 * 2 ^ 62 = 0 := h
  have h3 : 0 < 2 * 2 ^ 62 := by positivity
  generalize r % 2 ^ 128 - (r % 2 ^ 128 / 2 ^ 76 % 16) * 2 ^ 76
      - (r % 2 ^ 128 / 2 ^ 62 % 4) * 2 ^ 62 + 4 * 2 ^ 76 = a at h2
  generalize 2 * 2 ^ 62 = b at h2 h3
  omega

theorem repo_AddProvider_log (w : World) (pp : ProjectProvider) (h : pp.ID = uuid.Nil) :
    (projectRepository.AddProvider w pp).2.log
      = w.log ++ [StoreCall.projectProvidersCreate
          (ProjectProvider.mk (uuid.New (w.rand w.drawn)) pp.ProjectID pp.ProviderID
            pp.OrganizationID pp.Role pp.IsActive pp.CreatedAt pp.UpdatedAt)] := by
  unfold projectRepository.AddProvider
  simp only [h, beq_self_eq_true, if_true, World.uuidNew, PgRepository.CreateLink]
  have hc := fun run => (call_frame (α := ProjectProvider)
    { w with drawn := w.drawn + 1 }
    (StoreCall.projectProvidersCreate
      (ProjectProvider.mk (uuid.New (w.rand w.drawn)) pp.ProjectID pp.ProviderID
        pp.OrganizationID pp.Role pp.IsActive pp.CreatedAt pp.UpdatedAt)) run).2.2.2.2.2.2
  generalize hg : World.call _ _ _ = c
  have hc2 := hc (fun db => db.insertLink w.schema
      (ProjectProvider.mk (uuid.New (w.rand w.drawn)) pp.ProjectID pp.ProviderID
        pp.OrganizationID pp.Role pp.IsActive pp.CreatedAt pp.UpdatedAt))
  rw [hg] at hc2
  obtain ⟨r, w1⟩ := c
  cases r with
  | error e =>
    simp only
    split <;> exact hc2
  | ok x => exact hc2

/-- C7: if no stored project has the ID, `AddProvider` fails with NOT_FOUND,
the tables are unchanged and nothing but the existence check reaches the
store; if the project is found, the link handed to the store has the given
projectID, providerID and role, isActive true, the organizationID of the
project and an identity that is not the nil UUID, and when the store accepts
it (no failure, identity unused, pair not linked) the call returns this link
and the table gains exactly this row. -/
theorem AddProvider_builds_link (w : World) (projectID : UUID) (req : AddProviderRequest) :
    ((∀ p ∈ w.db.projects, p.ID ≠ projectID) →
      (∃ e, (projectService.AddProvider w projectID req).1 = .error e ∧
        e.Code = ErrCode.ErrProjectNotFound) ∧
      (projectService.AddProvider w projectID req).2.db = w.db ∧
      (projectService.AddProvider w projectID req).2.log
        = w.log ++ [StoreCall.projectsFindByID projectID]) ∧
    (∀ project, w.db.findProject projectID = some project → w.fault w.log.length = none →
      ∃ pp, (projectService.AddProvider w projectID req).2.log
          = w.log ++ [StoreCall.projectsFindByID projectID, StoreCall.projectProvidersCreate pp] ∧
        pp.ProjectID = projectID ∧ pp.ProviderID = req.ProviderID ∧ pp.Role = req.Role ∧
        pp.IsActive = true ∧ pp.OrganizationID = project.OrganizationID ∧ pp.ID ≠ uuid.Nil ∧
        (w.NoFault → pp.ID ∉ w.db.project_providers.map (fun l => l.ID) →
          (projectID, req.ProviderID) ∉ pairsOf w.db.project_providers →
          (projectService.AddProvider w projectID req).1 = .ok pp ∧
          (projectService.AddProvider w projectID req).2.db.project_providers
            = w.db.project_providers ++ [pp] ∧
          (projectService.AddProvider w projectID req).2.db.projects = w.db.projects)) := by
  constructor
  · intro hmissing
    obtain ⟨e, he, hc⟩ :=
      GetByID_missing w projectID (findProject_eq_none w.db projectID hmissing)
    have hev : projectService.AddProvider w projectID req
        = (.error e, { w with log := w.log ++ [StoreCall.projectsFindByID projectID] }) := by
      simp only [projectService.AddProvider, he]
    rw [hev]
    exact ⟨⟨e, rfl, hc⟩, rfl, rfl⟩
  · intro project hproject hfirst
    refine ⟨ProjectProvider.mk (uuid.New (w.rand w.drawn)) projectID req.ProviderID
      project.OrganizationID req.Role true (w.clock w.ticks) (w.clock (w.ticks + 1)),
      ?_, rfl, rfl, rfl, rfl, rfl, uuid_New_ne_Nil _, ?_⟩
    · have hlog := repo_AddProvider_log
        { w with log := w.log ++ [StoreCall.projectsFindByID projectID], ticks := w.ticks + 1 + 1 }
        (ProjectProvider.mk uuid.Nil projectID req.ProviderID project.OrganizationID req.Role
          true (w.clock w.ticks) (w.clock (w.ticks + 1))) rfl
      simp only [projectService.AddProvider, GetByID_found w projectID project hfirst hproject,
        World.timeNow]
      generalize hg : projectRepository.AddProvider _ _ = c at hlog
      obtain ⟨r, w1⟩ := c
      cases r with
      | error e => simpa using hlog
      | ok x => simpa using hlog
    · intro hfault hid hpair
      obtain ⟨f1, f2, -⟩ := AddProvider_eval_new w projectID req project hproject hfault hid hpair
      exact ⟨f1, by rw [f2], by rw [f2]⟩

/-- C7 on the demo world: the link handed to the store when provider 21 is
added to project 1 with role "qa". -/
theorem AddProvider_builds_link_witness :
    ∃ pp, (projectService.AddProvider demoWorld 1 ⟨21, some "qa"⟩).2.log
        = demoWorld.log ++ [StoreCall.projectsFindByID 1, StoreCall.projectProvidersCreate pp] ∧
      pp.ProjectID = 1 ∧ pp.ProviderID = 21 ∧ pp.Role = some "qa" ∧
      pp.IsActive = true ∧ pp.OrganizationID = 7 ∧ pp.ID ≠ uuid.Nil :=
  have h := (AddProvider_builds_link demoWorld 1 ⟨21, some "qa"⟩).2
    { ID := 1, OrganizationID := 7, Name := "alpha", Description := none,
      IsActive := true, Metadata := some [], CreatedAt := 0, UpdatedAt := 0 } (by rfl) (by rfl)
  match h with
  | ⟨pp, h1, h2, h3, h4, h5, h6, h7, _⟩ => ⟨pp, h1, h2, h3, h4, h5, h6, h7⟩

theorem ExistsByNameAndOrganization_eval (w : World) (name : String) (orgID : UUID)
    (excludeID : Option UUID) (hfault : w.fault w.log.length = none) :
    projectRepository.ExistsByNameAndOrganization w name orgID excludeID
      = (.ok (decide (w.db.countByName name orgID excludeID > 0)),
         { w with log := w.log ++ [StoreCall.countProjectsByName name orgID excludeID] }) := by
  simp only [projectRepository.ExistsByNameAndOrganization, sqlx.GetCountByName, World.call,
    hfault]

theorem countByName_none_pos_iff (db : DB) (name : String) (orgID : UUID) :
    db.countByName name orgID none > 0
      ↔ ∃ p ∈ db.projects, p.Name = name ∧ p.OrganizationID = orgID := by
  simp only [DB.countByName, gt_iff_lt, List.length_pos, ne_eq, List.filter_eq_nil_iff,
    Bool.and_eq_true, beq_iff_eq, not_forall, Classical.not_imp, not_not, exists_prop]

theorem countByName_some_pos_iff (db : DB) (name : String) (orgID x : UUID) :
    db.countByName name orgID (some x) > 0
      ↔ ∃ p ∈ db.projects, p.Name = name ∧ p.OrganizationID = orgID ∧ p.ID ≠ x := by
  simp only [DB.countByName, gt_iff_lt, List.length_pos, ne_eq, List.filter_eq_nil_iff,
    Bool.and_eq_true, beq_iff_eq, bne_iff_ne, not_forall, Classical.not_imp, not_not,
    exists_prop, and_assoc]

theorem any_name_org_iff (ps : List Project) (name : String) (orgID : UUID) :
    ps.any (fun q => q.Name == name && q.OrganizationID == orgID) = true
      ↔ ∃ p ∈ ps, p.Name = name ∧ p.OrganizationID = orgID := by
  simp only [List.any_eq_true, Bool.and_eq_true, beq_iff_eq]

theorem any_id_iff (ps : List Project) (id : UUID) :
    ps.any (fun q => q.ID == id) = true ↔ id ∈ ps.map (fun p => p.ID) := by
  simp only [List.any_eq_true, beq_iff_eq, List.mem_map]

/-- `CreateProject` when the name is already used in the organization. -/
theorem CreateProject_eval_exists (w : World) (req : CreateProjectRequest)
    (hvalid : projectService.validateCreateRequest req = none)
    (hfault : w.fault w.log.length = none)
    (hex : ∃ p ∈ w.db.projects, p.Name = req.Name ∧ p.OrganizationID = req.OrganizationID) :
    projectService.CreateProject w req
      = (.error (((ProjectsErrors.New .ErrProjectNameExists).WithDetail
          "name" (.str req.Name)).WithDetail "organization_id" (.uuid req.OrganizationID)),
         { w with log := w.log ++
            [StoreCall.countProjectsByName req.Name req.OrganizationID none] }) := by
  have hc : decide (w.db.countByName req.Name req.OrganizationID none > 0) = true :=
    decide_eq_true ((countByName_none_pos_iff _ _ _).mpr hex)
  simp only [projectService.CreateProject, hvalid,
    ExistsByNameAndOrganization_eval w _ _ _ hfault, hc, if_true]

theorem repo_Create_eval_ok (w : World) (project : Project)
    (hnil : project.ID = uuid.Nil)
    (hfault : w.fault w.log.length = none)
    (hid : uuid.New (w.rand w.drawn) ∉ w.db.projects.map (fun p => p.ID))
    (hname : ¬ ∃ p ∈ w.db.projects,
      p.Name = project.Name ∧ p.OrganizationID = project.OrganizationID) :
    projectRepository.Create w project
      = (.ok { project with ID := uuid.New (w.rand w.drawn) },
         World.mk
           (DB.mk (w.db.projects ++ [{ project with ID := uuid.New (w.rand w.drawn) }])
             w.db.project_providers w.db.providers)
           w.schema
           (w.log ++ [StoreCall.projectsCreate { project with ID := uuid.New (w.rand w.drawn) }])
           w.fault w.rand (w.drawn + 1) w.clock w.ticks) := by
  have h1 : ¬ (w.db.projects.any (fun q => q.ID == uuid.New (w.rand w.drawn)) = true) := by
    rw [any_id_iff]; exact hid
  have h2 : ¬ (w.db.projects.any
      (fun q => q.Name == project.Name && q.OrganizationID == project.OrganizationID) = true) := by
    rw [any_name_org_iff]; exact hname
  simp only [projectRepository.Create, hnil, beq_self_eq_true, if_true, World.uuidNew,
    PgRepository.Create, World.call, hfault, DB.insertProject, h1, h2, Bool.false_eq_true,
    if_false]

theorem repo_Create_eval_collision (w : World) (project : Project)
    (hnil : project.ID = uuid.Nil)
    (hfault : w.fault w.log.length = none)
    (hid : uuid.New (w.rand w.drawn) ∈ w.db.projects.map (fun p => p.ID)) :
    projectRepository.Create w project
      = (.error (((ProjectsErrors.New .ErrProjectCreateFailed).WithDetail
            "project_name" (.str project.Name)).WithCause (uniqueViolation "projects_pkey")),
         World.mk w.db w.schema
           (w.log ++ [StoreCall.projectsCreate { project with ID := uuid.New (w.rand w.drawn) }])
           w.fault w.rand (w.drawn + 1) w.clock w.ticks) := by
  have h1 := (any_id_iff _ _).mpr hid
  have h2 : strings.Contains (uniqueViolation "projects_pkey").msg "projects_name_org_unique"
      = false := by decide
  simp only [projectRepository.Create, hnil, beq_self_eq_true, if_true, World.uuidNew,
    PgRepository.Create, World.call, hfault, DB.insertProject, h1, h2, Bool.false_eq_true,
    if_false]

/-- `CreateProject` once validation and the name check have passed: the
project built from the request goes to the repository and the outcome of the
bulk insert of providers is dropped. -/
theorem CreateProject_unfold (w : World) (req : CreateProjectRequest)
    (hvalid : projectService.validateCreateRequest req = none)
    (hfault : w.fault w.log.length = none)
    (hex : ¬ ∃ p ∈ w.db.projects, p.Name = req.Name ∧ p.OrganizationID = req.OrganizationID) :
    projectService.CreateProject w req
      = (match projectRepository.Create
            (World.mk w.db w.schema
              (w.log ++ [StoreCall.countProjectsByName req.Name req.OrganizationID none])
              w.fault w.rand w.drawn w.clock (w.ticks + 1 + 1))
            (Project.mk uuid.Nil req.OrganizationID req.Name req.Description true
              (if req.Metadata == none then some [] else req.Metadata)
              (w.clock w.ticks) (w.clock (w.ticks + 1))) with
        | (.error err, w4) => (.error err, w4)
        | (.ok createdProject, w4) =>
          if req.ProviderIDs.length > 0 then
            (.ok createdProject,
              (projectRepository.AddProvidersBulk w4 createdProject.ID req.ProviderIDs).2)
          else (.ok createdProject, w4)) := by
  have hc : decide (w.db.countByName req.Name req.OrganizationID none > 0) = false :=
    decide_eq_false (fun h => hex ((countByName_none_pos_iff _ _ _).mp h))
  simp only [projectService.CreateProject, hvalid,
    ExistsByNameAndOrganization_eval w _ _ _ hfault, hc, World.timeNow, Bool.false_eq_true,
    if_false]
  cases req.Metadata <;> rfl

theorem mem_nextIDs (w : World) (k i : Nat) (h : i < k) :
    uuid.New (w.rand (w.drawn + i)) ∈ w.nextIDs k :=
  List.mem_map.mpr ⟨i, List.mem_range.mpr h, rfl⟩

theorem nextIDs_ne (w : World) (k i j : Nat) (hnd : (w.nextIDs k).Nodup)
    (hi : i < k) (hj : j < k) (hij : i ≠ j) :
    uuid.New (w.rand (w.drawn + i)) ≠ uuid.New (w.rand (w.drawn + j)) := by
  intro h
  exact hij (List.inj_on_of_nodup_map hnd (List.mem_range.mpr hi) (List.mem_range.mpr hj) h)

theorem findProject_append_new (ps : List Project) (sp : List ProjectProvider)
    (sv : List Provider) (p : Project)
    (h : p.ID ∉ ps.map (fun q => q.ID)) :
    (DB.mk (ps ++ [p]) sp sv).findProject p.ID = some p := by
  have hn : ps.find? (fun q => q.ID == p.ID) = none := by
    rw [List.find?_eq_none]
    intro q hq hb
    exact h (List.mem_map.mpr ⟨q, hq, by simpa using hb⟩)
  simp [DB.findProject, List.find?_append, hn]

/-- `CreateProject` when the name is free in the organization, no failure is
scheduled and the generated identity is unused. -/
theorem CreateProject_eval_new (w : World) (req : CreateProjectRequest)
    (hvalid : projectService.validateCreateRequest req = none)
    (hfault : w.NoFault)
    (hex : ¬ ∃ p ∈ w.db.projects, p.Name = req.Name ∧ p.OrganizationID = req.OrganizationID)
    (hid : uuid.New (w.rand w.drawn) ∉ w.db.projects.map (fun p => p.ID)) :
    ∃ p, (projectService.CreateProject w req).1 = .ok p ∧
      p.ID = uuid.New (w.rand w.drawn) ∧ p.Name = req.Name ∧
      p.OrganizationID = req.OrganizationID ∧
      (projectService.CreateProject w req).2.db.projects = w.db.projects ++ [p] ∧
      (projectService.CreateProject w req).2.fault = w.fault ∧
      (projectService.CreateProject w req).2.schema = w.schema ∧
      (projectService.CreateProject w req).2.rand = w.rand ∧
      (projectService.CreateProject w req).2.drawn = w.drawn + 1 + req.ProviderIDs.length := by
  rw [CreateProject_unfold w req hvalid (hfault _) hex]
  generalize hw3 : World.mk w.db w.schema
      (w.log ++ [StoreCall.countProjectsByName req.Name req.OrganizationID none])
      w.fault w.rand w.drawn w.clock (w.ticks + 1 + 1) = w3
  generalize hP : Project.mk uuid.Nil req.OrganizationID req.Name req.Description true
      (if req.Metadata == none then some [] else req.Metadata)
      (w.clock w.ticks) (w.clock (w.ticks + 1)) = P
  have e := repo_Create_eval_ok w3 P (by subst hP; rfl) (by subst hw3; exact hfault _)
    (by subst hw3; exact hid) (by subst hw3 hP; exact hex)
  rw [e]
  subst hw3 hP
  simp only
  by_cases hlen : req.ProviderIDs.length > 0
  · rw [if_pos hlen]
    refine ⟨_, rfl, rfl, rfl, rfl, ?_, ?_, ?_, ?_, ?_⟩
    · exact (repo_AddProvidersBulk_frame _ _ _).1
    · exact (repo_AddProvidersBulk_frame _ _ _).2.1
    · exact (repo_AddProvidersBulk_frame _ _ _).2.2.1
    · exact (repo_AddProvidersBulk_frame _ _ _).2.2.2
    · exact repo_AddProvidersBulk_drawn _ _ _ _ hfault
        (findProject_append_new w.db.projects w.db.project_providers w.db.providers _ hid)
  · rw [if_neg hlen]
    have h0 : req.ProviderIDs.length = 0 := by omega
    exact ⟨_, rfl, rfl, rfl, rfl, rfl, rfl, rfl, rfl, by rw [h0]⟩

/-- `CreateProject` never answers NAME_EXISTS when the name is free in the
organization and no failure is scheduled. -/
theorem CreateProject_free_not_name_exists (w : World) (req : CreateProjectRequest)
    (hvalid : projectService.validateCreateRequest req = none)
    (hfault : w.NoFault)
    (hex : ¬ ∃ p ∈ w.db.projects, p.Name = req.Name ∧ p.OrganizationID = req.OrganizationID) :
    ¬ ∃ e, (projectService.CreateProject w req).1 = .error e ∧
      e.Code = ErrCode.ErrProjectNameExists := by
  by_cases hid : uuid.New (w.rand w.drawn) ∈ w.db.projects.map (fun p => p.ID)
  · rw [CreateProject_unfold w req hvalid (hfault _) hex,
      repo_Create_eval_collision
        (World.mk w.db w.schema
          (w.log ++ [StoreCall.countProjectsByName req.Name req.OrganizationID none])
          w.fault w.rand w.drawn w.clock (w.ticks + 1 + 1)) _ rfl (hfault _) hid]
    rintro ⟨e, he, hc⟩
    simp only [Except.error.injEq] at he
    subst he
    cases hc
  · obtain ⟨p, hp, -⟩ := CreateProject_eval_new w req hvalid hfault hex hid
    rintro ⟨e, he, -⟩
    rw [hp] at he
    cases he

/-- A project returned by a successful `CreateProject` is in the table. -/
theorem CreateProject_ok_stored (w : World) (req : CreateProjectRequest)
    (hvalid : projectService.validateCreateRequest req = none)
    (hfault : w.NoFault)
    (hok : ∃ p, (projectService.CreateProject w req).1 = .ok p) :
    ∃ p ∈ (projectService.CreateProject w req).2.db.projects,
      p.Name = req.Name ∧ p.OrganizationID = req.OrganizationID := by
  obtain ⟨p0, hp0⟩ := hok
  by_cases hex : ∃ p ∈ w.db.projects, p.Name = req.Name ∧ p.OrganizationID = req.OrganizationID
  · rw [CreateProject_eval_exists w req hvalid (hfault _) hex] at hp0
    cases hp0
  · by_cases hid : uuid.New (w.rand w.drawn) ∈ w.db.projects.map (fun p => p.ID)
    · rw [CreateProject_unfold w req hvalid (hfault _) hex,
        repo_Create_eval_collision
          (World.mk w.db w.schema
            (w.log ++ [StoreCall.countProjectsByName req.Name req.OrganizationID none])
            w.fault w.rand w.drawn w.clock (w.ticks + 1 + 1)) _ rfl (hfault _) hid] at hp0
      cases hp0
    · obtain ⟨p, -, -, h3, h4, h5, -⟩ := CreateProject_eval_new w req hvalid hfault hex hid
      exact ⟨p, by rw [h5]; simp, h3, h4⟩

/-- C8: for a request that passes validation and without store failure,
`CreateProject` fails with NAME_EXISTS exactly when a stored project has that
name in that organization, and then the tables are unchanged; hence a second
create of the name in the organization after a successful first one fails
with NAME_EXISTS, a Conflict, and changes nothing, while two creates in two
different organizations, each name free in its organization and the generated
identities unused, both succeed. -/
theorem CreateProject_name_exists_iff (w : World) (req : CreateProjectRequest)
    (hvalid : projectService.validateCreateRequest req = none)
    (hfault : w.NoFault) :
    ((∃ e, (projectService.CreateProject w req).1 = .error e ∧
        e.Code = ErrCode.ErrProjectNameExists)
      ↔ ∃ p ∈ w.db.projects, p.Name = req.Name ∧ p.OrganizationID = req.OrganizationID) ∧
    ((∃ e, (projectService.CreateProject w req).1 = .error e ∧
        e.Code = ErrCode.ErrProjectNameExists) →
      (projectService.CreateProject w req).2.db = w.db) ∧
    (∀ req2 : CreateProjectRequest, projectService.validateCreateRequest req2 = none →
      req2.Name = req.Name → req2.OrganizationID = req.OrganizationID →
      (∃ p, (projectService.CreateProject w req).1 = .ok p) →
      (∃ e, (projectService.CreateProject (projectService.CreateProject w req).2 req2).1
          = .error e ∧
        e.Code = ErrCode.ErrProjectNameExists ∧ e.Code.errType = ErrType.TypeConflict) ∧
      (projectService.CreateProject (projectService.CreateProject w req).2 req2).2.db
        = (projectService.CreateProject w req).2.db) ∧
    (∀ req2 : CreateProjectRequest, projectService.validateCreateRequest req2 = none →
      req2.OrganizationID ≠ req.OrganizationID →
      (¬ ∃ p ∈ w.db.projects, p.Name = req.Name ∧ p.OrganizationID = req.OrganizationID) →
      (¬ ∃ p ∈ w.db.projects, p.Name = req2.Name ∧ p.OrganizationID = req2.OrganizationID) →
      (w.nextIDs (req.ProviderIDs.length + 2)).Nodup →
      (∀ u ∈ w.nextIDs (req.ProviderIDs.length + 2), u ∉ w.db.projects.map (fun p => p.ID)) →
      (∃ p, (projectService.CreateProject w req).1 = .ok p) ∧
      (∃ p2, (projectService.CreateProject (projectService.CreateProject w req).2 req2).1
        = .ok p2)) := by
  have hframe : (projectService.CreateProject w req).2.fault = w.fault := by
    by_cases hex : ∃ p ∈ w.db.projects, p.Name = req.Name ∧ p.OrganizationID = req.OrganizationID
    · rw [CreateProject_eval_exists w req hvalid (hfault _) hex]
    · by_cases hid : uuid.New (w.rand w.drawn) ∈ w.db.projects.map (fun p => p.ID)
      · rw [CreateProject_unfold w req hvalid (hfault _) hex,
          repo_Create_eval_collision
            (World.mk w.db w.schema
              (w.log ++ [StoreCall.countProjectsByName req.Name req.OrganizationID none])
              w.fault w.rand w.drawn w.clock (w.ticks + 1 + 1)) _ rfl (hfault _) hid]
      · exact (CreateProject_eval_new w req hvalid hfault hex hid).choose_spec.2.2.2.2.2.1
  have hfault1 : (projectService.CreateProject w req).2.NoFault := by
    intro n; rw [hframe]; exact hfault n
  refine ⟨⟨?_, ?_⟩, ?_, ?_, ?_⟩
  · intro h
    by_contra hex
    exact CreateProject_free_not_name_exists w req hvalid hfault hex h
  · intro hex
    rw [CreateProject_eval_exists w req hvalid (hfault _) hex]
    exact ⟨_, rfl, rfl⟩
  · intro h
    have hex : ∃ p ∈ w.db.projects, p.Name = req.Name ∧ p.OrganizationID = req.OrganizationID := by
      by_contra hex
      exact CreateProject_free_not_name_exists w req hvalid hfault hex h
    rw [CreateProject_eval_exists w req hvalid (hfault _) hex]
  · intro req2 hvalid2 hname horg hok
    obtain ⟨p, hp, h1, h2⟩ := CreateProject_ok_stored w req hvalid hfault hok
    have hex2 : ∃ p ∈ (projectService.CreateProject w req).2.db.projects,
        p.Name = req2.Name ∧ p.OrganizationID = req2.OrganizationID :=
      ⟨p, hp, by rw [hname]; exact h1, by rw [horg]; exact h2⟩
    rw [CreateProject_eval_exists _ req2 hvalid2 (hfault1 _) hex2]
    exact ⟨⟨_, rfl, rfl, rfl⟩, rfl⟩
  · intro req2 hvalid2 horg hfree1 hfree2 hnd hfresh
    have hid : uuid.New (w.rand w.drawn) ∉ w.db.projects.map (fun p => p.ID) :=
      hfresh _ (mem_nextIDs w _ 0 (by omega))
    obtain ⟨p, h1, h2, h3, h4, h5, h6, h7, h8, h9⟩ :=
      CreateProject_eval_new w req hvalid hfault hfree1 hid
    refine ⟨⟨p, h1⟩, ?_⟩
    have hex2 : ¬ ∃ q ∈ (projectService.CreateProject w req).2.db.projects,
        q.Name = req2.Name ∧ q.OrganizationID = req2.OrganizationID := by
      rw [h5]
      rintro ⟨q, hq, hq1, hq2⟩
      rcases List.mem_append.mp hq with hq | hq
      · exact hfree2 ⟨q, hq, hq1, hq2⟩
      · rw [List.mem_singleton] at hq
        subst hq
        exact horg (by rw [← hq2, h4])
    have hid2 : uuid.New ((projectService.CreateProject w req).2.rand
        (projectService.CreateProject w req).2.drawn)
        ∉ (projectService.CreateProject w req).2.db.projects.map (fun p => p.ID) := by
      rw [h5, h8, h9, Nat.add_assoc]
      simp only [List.map_append, List.map_cons, List.map_nil, List.mem_append,
        List.mem_singleton, not_or]
      constructor
      · exact hfresh _ (mem_nextIDs w _ _ (by omega))
      · rw [h2]
        exact nextIDs_ne w _ (1 + req.ProviderIDs.length) 0 hnd (by omega) (by omega) (by omega)
    obtain ⟨p2, g1, -⟩ := CreateProject_eval_new _ req2 hvalid2 hfault1 hex2 hid2
    exact ⟨p2, g1⟩

/-- C8 on the demo world: "beta" is created in organization 7 and then in
organization 9, and a second create of "beta" in organization 7 fails with
NAME_EXISTS. -/
theorem CreateProject_name_exists_iff_witness :
    ((∃ p, (projectService.CreateProject demoWorld ⟨7, "beta", none, none, [20, 21]⟩).1 = .ok p) ∧
      (∃ p2, (projectService.CreateProject
          (projectService.CreateProject demoWorld ⟨7, "beta", none, none, [20, 21]⟩).2
          ⟨9, "beta", none, none, []⟩).1 = .ok p2)) ∧
    (∃ e, (projectService.CreateProject
        (projectService.CreateProject demoWorld ⟨7, "beta", none, none, [20, 21]⟩).2
        ⟨7, "beta", some "again", none, []⟩).1 = .error e ∧
      e.Code = ErrCode.ErrProjectNameExists ∧ e.Code.errType = ErrType.TypeConflict) :=
  have h := CreateProject_name_exists_iff demoWorld ⟨7, "beta", none, none, [20, 21]⟩
    (by decide) (fun _ => rfl)
  have h2 := h.2.2.2 ⟨9, "beta", none, none, []⟩
    (by decide) (by decide) (by decide) (by decide) (by decide) (by decide)
  ⟨h2, (h.2.2.1 ⟨7, "beta", some "again", none, []⟩ (by decide) rfl rfl h2.1).1⟩

theorem any_other_name_org_iff (ps : List Project) (id : UUID) (name : String) (orgID : UUID) :
    ps.any (fun q => q.ID != id && q.Name == name && q.OrganizationID == orgID) = true
      ↔ ∃ q ∈ ps, q.ID ≠ id ∧ q.Name = name ∧ q.OrganizationID = orgID := by
  simp only [List.any_eq_true, Bool.and_eq_true, bne_iff_ne, ne_eq, beq_iff_eq, and_assoc]

/-- The repository update does not answer NAME_EXISTS when no other row has the
name and organization of the row written and no scheduled failure mentions the
unique index. -/
theorem repo_Update_not_name_exists (w : World) (id : UUID) (project : Project)
    (hmsg : ∀ n e, w.fault n = some e →
      strings.Contains e.msg "projects_name_org_unique" = false)
    (hdup : ¬ ∃ q ∈ w.db.projects,
      q.ID ≠ id ∧ q.Name = project.Name ∧ q.OrganizationID = project.OrganizationID) :
    ¬ ∃ e, (projectRepository.Update w id project).1 = .error e ∧
      e.Code = ErrCode.ErrProjectNameExists := by
  have h2 : (w.db.projects.any (fun q => q.ID != id && q.Name == project.Name
      && q.OrganizationID == project.OrganizationID)) = false := by
    rw [← Bool.not_eq_true, any_other_name_org_iff]; exact hdup
  have h3 : strings.Contains recordNotFound.msg "projects_name_org_unique" = false := by decide
  unfold projectRepository.Update PgRepository.Update World.call
  cases hf : w.fault w.log.length with
  | some e =>
    have := hmsg _ e hf
    simp only [this, Bool.false_eq_true, if_false]
    by_cases hn : storex.IsRecordNotFound e = true
    · simp only [hn, if_true]
      rintro ⟨e2, he, hc⟩
      cases he
      simp [ProjectsErrors.New, Error.WithDetail, Error.WithCause] at hc
    · simp only [hn, if_false]
      rintro ⟨e2, he, hc⟩
      cases he
      simp [ProjectsErrors.New, Error.WithDetail, Error.WithCause] at hc
  | none =>
    simp only [DB.updateProject, h2, Bool.false_eq_true, if_false]
    by_cases hi : w.db.projects.any (fun q => q.ID == id) = true
    · simp only [hi, if_true]
      rintro ⟨e2, he, -⟩
      cases he
    · simp only [hi, if_false, h3, Bool.false_eq_true]
      rintro ⟨e2, he, hc⟩
      simp only [storex.IsRecordNotFound, recordNotFound, if_true] at he
      cases he
      simp [ProjectsErrors.New, Error.WithDetail, Error.WithCause] at hc

theorem repo_Update_log (w : World) (id : UUID) (project : Project) :
    (projectRepository.Update w id project).2.log
      = w.log ++ [StoreCall.projectsUpdate id { project with ID := id }] := by
  unfold projectRepository.Update PgRepository.Update World.call
  cases hf : w.fault w.log.length with
  | some e =>
    simp only
    split_ifs <;> rfl
  | none =>
    simp only
    cases hu : DB.updateProject w.schema w.db id { project with ID := id } with
    | error e =>
      simp only
      split_ifs <;> rfl
    | ok x => rfl

theorem updatedProject_fields (existingProject : Project) (req : UpdateProjectRequest)
    (now : Time) :
    (projectService.UpdateProject.updatedProject existingProject req now).Name
      = req.Name.getD existingProject.Name ∧
    (projectService.UpdateProject.updatedProject existingProject req now).OrganizationID
      = existingProject.OrganizationID := by
  obtain ⟨n, d, a, m⟩ := req
  cases n <;> cases d <;> cases a <;> cases m <;> exact ⟨rfl, rfl⟩

/-- The second half of `UpdateProject` does not answer NAME_EXISTS when no
other row has the name the project will bear in its organization and no
scheduled failure mentions the unique index. -/
theorem UpdateProject_apply_not_name_exists (w : World) (id : UUID) (existingProject : Project)
    (req : UpdateProjectRequest)
    (hmsg : ∀ n e, w.fault n = some e →
      strings.Contains e.msg "projects_name_org_unique" = false)
    (hdup : ¬ ∃ q ∈ w.db.projects, q.ID ≠ id ∧ q.Name = req.Name.getD existingProject.Name ∧
      q.OrganizationID = existingProject.OrganizationID) :
    ¬ ∃ e, (projectService.UpdateProject.apply w id existingProject req).1 = .error e ∧
      e.Code = ErrCode.ErrProjectNameExists := by
  have hfields := updatedProject_fields existingProject req (w.clock w.ticks)
  have key := repo_Update_not_name_exists
    (World.mk w.db w.schema w.log w.fault w.rand w.drawn w.clock (w.ticks + 1)) id
    (projectService.UpdateProject.updatedProject existingProject req (w.clock w.ticks))
    hmsg (by rw [hfields.1, hfields.2]; exact hdup)
  unfold projectService.UpdateProject.apply
  simp only [World.timeNow]
  generalize projectRepository.Update _ _ _ = x at key ⊢
  obtain ⟨r, w2⟩ := x
  cases r <;> exact key

theorem UpdateProject_apply_log (w : World) (id : UUID) (existingProject : Project)
    (req : UpdateProjectRequest) :
    ∃ u, (projectService.UpdateProject.apply w id existingProject req).2.log
      = w.log ++ [StoreCall.projectsUpdate id u] := by
  have key := repo_Update_log
    (World.mk w.db w.schema w.log w.fault w.rand w.drawn w.clock (w.ticks + 1)) id
    (projectService.UpdateProject.updatedProject existingProject req (w.clock w.ticks))
  unfold projectService.UpdateProject.apply
  simp only [World.timeNow]
  generalize projectRepository.Update _ _ _ = x at key ⊢
  obtain ⟨r, w2⟩ := x
  cases r <;> exact ⟨_, key⟩

theorem findProject_some (db : DB) (id : UUID) (p : Project) (h : db.findProject id = some p) :
    p ∈ db.projects ∧ p.ID = id := by
  unfold DB.findProject at h
  exact ⟨List.mem_of_find?_eq_some h, by simpa using List.find?_some h⟩

/-- C9: for an existing project `p` of a store whose rows respect the unique
index on (name, organization_id) and whose failures do not mention that index,
`UpdateProject` with the name absent or equal to the current name does not
answer NAME_EXISTS; and when the name changes (no store failure), the check
sent to the store carries the identity of `p` as the one to exclude and
NAME_EXISTS is answered exactly when a row with another identity has the new
name in the organization of `p`. -/
theorem UpdateProject_own_name_no_conflict (w : World) (id : UUID) (req : UpdateProjectRequest)
    (p : Project) (hproject : w.db.findProject id = some p) :
    ((req.Name = none ∨ req.Name = some p.Name) →
      (w.db.projects.map (fun q => (q.Name, q.OrganizationID))).Nodup →
      (∀ n e, w.fault n = some e →
        strings.Contains e.msg "projects_name_org_unique" = false) →
      ¬ ∃ e, (projectService.UpdateProject w id req).1 = .error e ∧
        e.Code = ErrCode.ErrProjectNameExists) ∧
    (∀ name, req.Name = some name → name ≠ p.Name → w.NoFault →
      (∃ rest, (projectService.UpdateProject w id req).2.log
        = w.log ++ [StoreCall.projectsFindByID id,
            StoreCall.countProjectsByName name p.OrganizationID (some id)] ++ rest) ∧
      ((∃ e, (projectService.UpdateProject w id req).1 = .error e ∧
          e.Code = ErrCode.ErrProjectNameExists)
        ↔ ∃ q ∈ w.db.projects, q.ID ≠ id ∧ q.Name = name ∧
            q.OrganizationID = p.OrganizationID)) := by
  obtain ⟨hmem, hpid⟩ := findProject_some w.db id p hproject
  constructor
  · intro hname hinv hmsg
    have hdup : ¬ ∃ q ∈ w.db.projects, q.ID ≠ id ∧ q.Name = req.Name.getD p.Name ∧
        q.OrganizationID = p.OrganizationID := by
      rintro ⟨q, hq, hne, hn, ho⟩
      have hn2 : q.Name = p.Name := by
        rcases hname with h | h <;> simpa [h] using hn
      have := List.inj_on_of_nodup_map hinv hq hmem (by simp [hn2, ho])
      exact hne (by rw [this, hpid])
    cases hf : w.fault w.log.length with
    | some e0 =>
      intro ⟨e, he, hc⟩
      have hframe := GetByID_frame w id
      unfold projectService.UpdateProject at he
      unfold projectRepository.GetByID PgRepository.FindByID World.call at he
      simp only [hf] at he
      by_cases hnf : storex.IsRecordNotFound e0 = true
      · simp only [hnf, if_true] at he
        cases he
        simp [ProjectsErrors.New, Error.WithDetail] at hc
      · simp only [hnf, if_false] at he
        cases he
        simp [ProjectsErrors.New, Error.WithDetail, Error.WithCause] at hc
    | none =>
      have happly := UpdateProject_apply_not_name_exists
        (World.mk w.db w.schema (w.log ++ [StoreCall.projectsFindByID id]) w.fault w.rand
          w.drawn w.clock w.ticks) id p req hmsg hdup
      unfold projectService.UpdateProject
      rw [GetByID_found w id p hf hproject]
      rcases hname with h | h
      · simp only [h]
        exact happly
      · simp only [h, bne_self_eq_false, Bool.false_eq_true, if_false]
        exact happly
  · intro name hname hne hfault
    have hb : (name != p.Name) = true := by simpa using hne
    have hfault1 : (World.mk w.db w.schema (w.log ++ [StoreCall.projectsFindByID id]) w.fault
        w.rand w.drawn w.clock w.ticks).fault
          (World.mk w.db w.schema (w.log ++ [StoreCall.projectsFindByID id]) w.fault
            w.rand w.drawn w.clock w.ticks).log.length = none := hfault _
    have hunf : projectService.UpdateProject w id req
        = (if decide (w.db.countByName name p.OrganizationID (some id) > 0) = true then
            (.error (((ProjectsErrors.New .ErrProjectNameExists).WithDetail
              "name" (.str name)).WithDetail "organization_id" (.uuid p.OrganizationID)),
             World.mk w.db w.schema (w.log ++ [StoreCall.projectsFindByID id] ++
               [StoreCall.countProjectsByName name p.OrganizationID (some id)]) w.fault w.rand
               w.drawn w.clock w.ticks)
          else
            projectService.UpdateProject.apply
              (World.mk w.db w.schema (w.log ++ [StoreCall.projectsFindByID id] ++
                [StoreCall.countProjectsByName name p.OrganizationID (some id)]) w.fault w.rand
                w.drawn w.clock w.ticks) id p req) := by
      unfold projectService.UpdateProject
      rw [GetByID_found w id p (hfault _) hproject]
      simp only [hname, hb, if_true]
      rw [ExistsByNameAndOrganization_eval _ name p.OrganizationID (some id) hfault1]
    rw [hunf]
    by_cases hcount : w.db.countByName name p.OrganizationID (some id) > 0
    · have hex := (countByName_some_pos_iff _ _ _ _).mp hcount
      rw [if_pos (decide_eq_true hcount)]
      refine ⟨⟨[], by simp⟩, ⟨fun _ => ?_, fun _ => ⟨_, rfl, rfl⟩⟩⟩
      obtain ⟨q, hq, h1, h2, h3⟩ := hex
      exact ⟨q, hq, h3, h1, h2⟩
    · have hnex : ¬ ∃ q ∈ w.db.projects, q.ID ≠ id ∧ q.Name = name ∧
          q.OrganizationID = p.OrganizationID := by
        rintro ⟨q, hq, h1, h2, h3⟩
        exact hcount ((countByName_some_pos_iff _ _ _ _).mpr ⟨q, hq, h2, h3, h1⟩)
      rw [if_neg (by simpa using hcount)]
      obtain ⟨u, hu⟩ := UpdateProject_apply_log
        (World.mk w.db w.schema (w.log ++ [StoreCall.projectsFindByID id] ++
          [StoreCall.countProjectsByName name p.OrganizationID (some id)]) w.fault w.rand
          w.drawn w.clock w.ticks) id p req
      have happly := UpdateProject_apply_not_name_exists
        (World.mk w.db w.schema (w.log ++ [StoreCall.projectsFindByID id] ++
          [StoreCall.countProjectsByName name p.OrganizationID (some id)]) w.fault w.rand
          w.drawn w.clock w.ticks) id p req
        (fun n e h => by rw [show w.fault n = none from hfault n] at h; cases h)
        (by rw [hname]; exact hnex)
      refine ⟨⟨[StoreCall.projectsUpdate id u], ?_⟩, ⟨fun h => absurd h happly, fun h => absurd h hnex⟩⟩
      rw [hu]
      simp

/-- C9 on the demo world: project 1 keeps its name "alpha" without conflict,
and a rename to "gamma" conflicts exactly because another project of
organization 7 bears that name. -/
theorem UpdateProject_own_name_no_conflict_witness :
    (¬ ∃ e, (projectService.UpdateProject demoWorld 1 ⟨some "alpha", some "x", none, none⟩).1
        = .error e ∧ e.Code = ErrCode.ErrProjectNameExists) ∧
    ((∃ e, (projectService.UpdateProject demoWorld 1 ⟨some "gamma", none, none, none⟩).1
        = .error e ∧ e.Code = ErrCode.ErrProjectNameExists)
      ↔ ∃ q ∈ demoWorld.db.projects, q.ID ≠ 1 ∧ q.Name = "gamma" ∧ q.OrganizationID = 7) :=
  ⟨(UpdateProject_own_name_no_conflict demoWorld 1 ⟨some "alpha", some "x", none, none⟩
      { ID := 1, OrganizationID := 7, Name := "alpha", Description := none,
        IsActive := true, Metadata := some [], CreatedAt := 0, UpdatedAt := 0 } (by rfl)).1
      (Or.inr rfl) (by decide) (fun n e h => by cases h),
   ((UpdateProject_own_name_no_conflict demoWorld 1 ⟨some "gamma", none, none, none⟩
      { ID := 1, OrganizationID := 7, Name := "alpha", Description := none,
        IsActive := true, Metadata := some [], CreatedAt := 0, UpdatedAt := 0 } (by rfl)).2
      "gamma" rfl (by decide) (fun _ => rfl)).2⟩

theorem repo_Create_log (w : World) (project : Project) (hnil : project.ID = uuid.Nil) :
    (projectRepository.Create w project).2.log
      = w.log ++ [StoreCall.projectsCreate { project with ID := uuid.New (w.rand w.drawn) }] := by
  unfold projectRepository.Create PgRepository.Create World.call
  simp only [hnil, beq_self_eq_true, if_true, World.uuidNew]
  cases hf : w.fault w.log.length with
  | some e =>
    simp only
    split_ifs <;> rfl
  | none =>
    simp only
    cases hu : DB.insertProject w.schema w.db
        { project with ID := uuid.New (w.rand w.drawn) } with
    | error e =>
      simp only
      split_ifs <;> rfl
    | ok x => rfl

theorem repo_AddProvidersBulk_log (w : World) (projectID : UUID) (providerIDs : List UUID) :
    ∃ rest, (projectRepository.AddProvidersBulk w projectID providerIDs).2.log
      = w.log ++ rest := by
  unfold projectRepository.AddProvidersBulk
  split
  · exact ⟨[], by simp⟩
  · have hg := GetByID_frame w projectID
    generalize projectRepository.GetByID w projectID = g at hg
    obtain ⟨r, w1⟩ := g
    simp only at hg
    subst hg
    cases r with
    | error e => exact ⟨[StoreCall.projectsFindByID projectID], rfl⟩
    | ok project =>
      simp only
      have hb := bulkArgs_world projectID project.OrganizationID providerIDs
        { w with log := w.log ++ [StoreCall.projectsFindByID projectID] }
      generalize projectRepository.bulkArgs projectID project.OrganizationID
        { w with log := w.log ++ [StoreCall.projectsFindByID projectID] } providerIDs = b at hb
      obtain ⟨args, w2⟩ := b
      simp only at hb
      subst hb
      simp only
      have hc := (call_frame
        { w with log := w.log ++ [StoreCall.projectsFindByID projectID],
                 drawn := w.drawn + providerIDs.length }
        (StoreCall.insertProjectProviders args)
        (fun db => db.insertLinksIgnore (w.schema.linkDefaults (w.clock w.ticks)) args)).2.2.2.2.2.2
      unfold sqlx.ExecInsertLinks
      generalize World.call _ _ _ = c at hc ⊢
      obtain ⟨rc, w3⟩ := c
      cases rc <;>
        exact ⟨[StoreCall.projectsFindByID projectID, StoreCall.insertProjectProviders args],
          by simpa using hc⟩

/-- A request that passes validation always reaches the store: the first
round trip of `CreateProject` is the name check. -/
theorem CreateProject_log_of_valid (w : World) (req : CreateProjectRequest)
    (hvalid : projectService.validateCreateRequest req = none) :
    ∃ rest, (projectService.CreateProject w req).2.log
      = w.log ++ [StoreCall.countProjectsByName req.Name req.OrganizationID none] ++ rest := by
  unfold projectService.CreateProject
  simp only [hvalid]
  have hc := (call_frame w (StoreCall.countProjectsByName req.Name req.OrganizationID none)
    (fun db => (.ok (db.countByName req.Name req.OrganizationID none, db)
      : Except DbErr (Nat × DB)))).2.2.2.2.2.2
  unfold projectRepository.ExistsByNameAndOrganization sqlx.GetCountByName
  generalize World.call _ _ _ = c at hc ⊢
  obtain ⟨rc, w1⟩ := c
  simp only at hc
  cases rc with
  | error e => exact ⟨[], by simpa using hc⟩
  | ok count =>
    simp only
    split
    · exact ⟨[], by simpa using hc⟩
    · simp only [World.timeNow]
      generalize hP : (@ite Project _ (instDecidableEqBool _ _) _ _) = P
      have hPnil : P.ID = uuid.Nil := by
        rw [← hP]; split <;> rfl
      have hl := repo_Create_log
        (World.mk w1.db w1.schema w1.log w1.fault w1.rand w1.drawn w1.clock (w1.ticks + 1 + 1))
        P hPnil
      generalize projectRepository.Create _ _ = cr at hl ⊢
      obtain ⟨r4, w4⟩ := cr
      simp only at hl
      cases r4 with
      | error e => exact ⟨_, by simp only; rw [hl, hc]⟩
      | ok created =>
        simp only
        split
        · obtain ⟨rest, hrest⟩ := repo_AddProvidersBulk_log w4 created.ID req.ProviderIDs
          refine ⟨[StoreCall.projectsCreate { P with ID := uuid.New (w1.rand w1.drawn) }] ++ rest,
            ?_⟩
          simp only
          rw [hrest, hl, hc, List.append_assoc, List.append_assoc]
        · exact ⟨_, by simp only; rw [hl, hc]⟩

theorem utf8ByteSize_go_replicate (n : Nat) :
    String.utf8ByteSize.go (List.replicate n 'a') = n := by
  induction n with
  | zero => rfl
  | succ k ih =>
    show String.utf8ByteSize.go (List.replicate k 'a') + Char.utf8Size 'a' = k + 1
    rw [ih]
    rfl

theorem len_replicate (n : Nat) : len (String.mk (List.replicate n 'a')) = n :=
  utf8ByteSize_go_replicate n

theorem validateCreateRequest_none_iff (req : CreateProjectRequest) :
    projectService.validateCreateRequest req = none
      ↔ ¬ (req.OrganizationID = uuid.Nil ∨ req.Name = "" ∨ len req.Name > 255 ∨
          ∃ d, req.Description = some d ∧ len d > 1000) := by
  unfold projectService.validateCreateRequest
  by_cases h1 : req.OrganizationID = uuid.Nil
  · simp [h1]
  · by_cases h2 : req.Name = ""
    · simp [h1, h2]
    · by_cases h3 : len req.Name > 255
      · simp [h1, h2, h3]
      · cases hd : req.Description with
        | none => simp [h1, h2, h3]
        | some d =>
          by_cases h4 : len d > 1000
          · simp [h1, h2, h3, h4]
          · simp [h1, h2, h3, h4]

theorem validateCreateRequest_code (req : CreateProjectRequest) (e : Error)
    (h : projectService.validateCreateRequest req = some e) :
    e.Code = ErrCode.ErrProjectValidationFailed := by
  unfold projectService.validateCreateRequest at h
  split_ifs at h <;> cases h <;> rfl

/-- C10: `CreateProject` fails with VALIDATION_FAILED without any round trip to
the store exactly when the organization ID is the nil UUID, or the name is
empty, or the name is longer than 255 bytes, or a description is present and
longer than 1000 bytes; in that case nothing at all is touched; and a request
with a non-nil organization, a name of exactly 255 bytes and a description (if
any) of exactly 1000 bytes passes validation. -/
theorem CreateProject_validation_iff (w : World) (req : CreateProjectRequest) :
    ((∃ e, (projectService.CreateProject w req).1 = .error e ∧
        e.Code = ErrCode.ErrProjectValidationFailed ∧
        (projectService.CreateProject w req).2.log = w.log)
      ↔ (req.OrganizationID = uuid.Nil ∨ req.Name = "" ∨ len req.Name > 255 ∨
          ∃ d, req.Description = some d ∧ len d > 1000)) ∧
    ((req.OrganizationID = uuid.Nil ∨ req.Name = "" ∨ len req.Name > 255 ∨
        ∃ d, req.Description = some d ∧ len d > 1000) →
      (projectService.CreateProject w req).2 = w) ∧
    (req.OrganizationID ≠ uuid.Nil → len req.Name = 255 →
      (∀ d, req.Description = some d → len d = 1000) →
      projectService.validateCreateRequest req = none ∧
      ¬ ∃ e, (projectService.CreateProject w req).1 = .error e ∧
        e.Code = ErrCode.ErrProjectValidationFailed ∧
        (projectService.CreateProject w req).2.log = w.log) := by
  have hvalid_log : projectService.validateCreateRequest req = none →
      ¬ ∃ e, (projectService.CreateProject w req).1 = .error e ∧
        e.Code = ErrCode.ErrProjectValidationFailed ∧
        (projectService.CreateProject w req).2.log = w.log := by
    rintro hv ⟨e, -, -, hlog⟩
    obtain ⟨rest, hrest⟩ := CreateProject_log_of_valid w req hv
    rw [hrest] at hlog
    have := congrArg List.length hlog
    simp at this
  have hinvalid : ∀ e, projectService.validateCreateRequest req = some e →
      projectService.CreateProject w req = (.error e, w) := by
    intro e he
    simp only [projectService.CreateProject, he]
  refine ⟨⟨?_, ?_⟩, ?_, ?_⟩
  · intro h
    by_contra hn
    exact hvalid_log ((validateCreateRequest_none_iff req).mpr hn) h
  · intro h
    cases hv : projectService.validateCreateRequest req with
    | none => exact absurd h ((validateCreateRequest_none_iff req).mp hv)
    | some e =>
      rw [hinvalid e hv]
      exact ⟨e, rfl, validateCreateRequest_code req e hv, rfl⟩
  · intro h
    cases hv : projectService.validateCreateRequest req with
    | none => exact absurd h ((validateCreateRequest_none_iff req).mp hv)
    | some e => rw [hinvalid e hv]
  · intro horg hname hdesc
    have hv : projectService.validateCreateRequest req = none := by
      rw [validateCreateRequest_none_iff]
      rintro (h | h | h | ⟨d, hd, h⟩)
      · exact horg h
      · rw [h] at hname
        have : len "" = 0 := rfl
        omega
      · omega
      · have := hdesc d hd
        omega
    exact ⟨hv, hvalid_log hv⟩

/-- C10 at the bounds: a name of 255 bytes and a description of 1000 bytes
pass validation. -/
theorem CreateProject_validation_iff_witness :
    projectService.validateCreateRequest
      ⟨7, String.mk (List.replicate 255 'a'), some (String.mk (List.replicate 1000 'a')),
        none, []⟩ = none :=
  ((CreateProject_validation_iff demoWorld
    ⟨7, String.mk (List.replicate 255 'a'), some (String.mk (List.replicate 1000 'a')),
      none, []⟩).2.2
    (by decide) (len_replicate 255)
    (fun d hd => by
      have h : String.mk (List.replicate 1000 'a') = d := Option.some.inj hd
      rw [← h]
      exact len_replicate 1000)).1

/-- C11: for a valid request with a non-empty provider list whose name check
passes (the check is executed and the name is free) and whose project is
persisted (the insert is executed and the generated identity is unused),
`CreateProject` returns the created project and the project is the last row
of the projects table afterwards, whatever failures are scheduled for the
round trips of the bulk insert of providers that follows. -/
theorem CreateProject_survives_bulk_failure (w : World) (req : CreateProjectRequest)
    (hvalid : projectService.validateCreateRequest req = none)
    (hne : req.ProviderIDs ≠ [])
    (hcheck : w.fault w.log.length = none)
    (hfree : ¬ ∃ p ∈ w.db.projects, p.Name = req.Name ∧ p.OrganizationID = req.OrganizationID)
    (hinsert : w.fault (w.log.length + 1) = none)
    (hid : uuid.New (w.rand w.drawn) ∉ w.db.projects.map (fun p => p.ID)) :
    ∃ p, (projectService.CreateProject w req).1 = .ok p ∧
      p.ID = uuid.New (w.rand w.drawn) ∧ p.Name = req.Name ∧
      p.OrganizationID = req.OrganizationID ∧ p.IsActive = true ∧
      (projectService.CreateProject w req).2.db.projects = w.db.projects ++ [p] ∧
      p ∈ (projectService.CreateProject w req).2.db.projects := by
  rw [CreateProject_unfold w req hvalid hcheck hfree]
  generalize hw3 : World.mk w.db w.schema
      (w.log ++ [StoreCall.countProjectsByName req.Name req.OrganizationID none])
      w.fault w.rand w.drawn w.clock (w.ticks + 1 + 1) = w3
  generalize hP : Project.mk uuid.Nil req.OrganizationID req.Name req.Description true
      (if req.Metadata == none then some [] else req.Metadata)
      (w.clock w.ticks) (w.clock (w.ticks + 1)) = P
  have e := repo_Create_eval_ok w3 P (by subst hP; rfl)
    (by subst hw3; simpa using hinsert)
    (by subst hw3; exact hid) (by subst hw3 hP; exact hfree)
  rw [e]
  subst hw3 hP
  have hlen : req.ProviderIDs.length > 0 := List.length_pos.mpr hne
  simp only
  rw [if_pos hlen]
  have hproj := (repo_AddProvidersBulk_frame
    (World.mk
      (DB.mk (w.db.projects ++
        [Project.mk (uuid.New (w.rand w.drawn)) req.OrganizationID req.Name req.Description true
          (if req.Metadata == none then some [] else req.Metadata)
          (w.clock w.ticks) (w.clock (w.ticks + 1))]) w.db.project_providers w.db.providers)
      w.schema
      (w.log ++ [StoreCall.countProjectsByName req.Name req.OrganizationID none] ++
        [StoreCall.projectsCreate
          (Project.mk (uuid.New (w.rand w.drawn)) req.OrganizationID req.Name req.Description
            true (if req.Metadata == none then some [] else req.Metadata)
            (w.clock w.ticks) (w.clock (w.ticks + 1)))])
      w.fault w.rand (w.drawn + 1) w.clock (w.ticks + 1 + 1))
    (uuid.New (w.rand w.drawn)) req.ProviderIDs).1
  refine ⟨_, rfl, rfl, rfl, rfl, rfl, hproj, ?_⟩
  rw [hproj]
  simp

/-- C11 on the demo world with the insert of the provider links failing
(fourth round trip): "delta" is created in organization 7, the call succeeds,
the project is stored and no link is. -/
theorem CreateProject_survives_bulk_failure_witness :
    (∃ p, (projectService.CreateProject
        { demoWorld with fault := fun n => if n = 3 then some ⟨"connection reset", false⟩ else none }
        ⟨7, "delta", none, none, [20, 21]⟩).1 = .ok p ∧
      p ∈ (projectService.CreateProject
        { demoWorld with fault := fun n => if n = 3 then some ⟨"connection reset", false⟩ else none }
        ⟨7, "delta", none, none, [20, 21]⟩).2.db.projects) ∧
    (projectService.CreateProject
        { demoWorld with fault := fun n => if n = 3 then some ⟨"connection reset", false⟩ else none }
        ⟨7, "delta", none, none, [20, 21]⟩).2.db.project_providers
      = demoWorld.db.project_providers :=
  have h := CreateProject_survives_bulk_failure
    { demoWorld with fault := fun n => if n = 3 then some ⟨"connection reset", false⟩ else none }
    ⟨7, "delta", none, none, [20, 21]⟩
    (by decide) (by decide) (by rfl) (by decide) (by rfl) (by decide)
  match h with
  | ⟨p, h1, _, _, _, _, _, h7⟩ => ⟨⟨p, h1, h7⟩, by rfl⟩

theorem wrapInt_of_range (x : Int) (h1 : -(2 ^ 63) ≤ x) (h2 : x < 2 ^ 63) : wrapInt x = x := by
  unfold wrapInt
  norm_num at h1 h2 ⊢
  omega

theorem filter_active_split (ps : List Project) (orgID : UUID) :
    ((ps.filter (fun p => p.OrganizationID == orgID)).length : Int)
      = (ps.filter (fun p => p.OrganizationID == orgID && p.IsActive)).length
        + (ps.filter (fun p => p.OrganizationID == orgID && !p.IsActive)).length := by
  induction ps with
  | nil => rfl
  | cons p ps ih =>
    by_cases ho : p.OrganizationID = orgID
    · cases ha : p.IsActive
      · simp only [List.filter_cons, ho, beq_self_eq_true, ha, Bool.and_false, Bool.not_false,
          Bool.and_self, if_true, Bool.false_eq_true, if_false, List.length_cons] at ih ⊢
        push_cast
        omega
      · simp only [List.filter_cons, ho, beq_self_eq_true, ha, Bool.and_self, Bool.not_true,
          Bool.and_false, if_true, Bool.false_eq_true, if_false, List.length_cons] at ih ⊢
        push_cast
        omega
    · have hb : (p.OrganizationID == orgID) = false := by simpa using ho
      simp only [List.filter_cons, hb, Bool.false_and, Bool.false_eq_true, if_false]
      exact ih

theorem storex_page_total {α : Type} (rows : List α) (page pageSize : Int)
    (h1 : 1 ≤ page) (h2 : 1 ≤ pageSize) :
    ∃ r, storex.page rows page pageSize = .ok r ∧ r.Total = rows.length := by
  have hb : (decide (page < 1) || decide (pageSize < 1)) = false := by
    simp only [Bool.or_eq_false_iff, decide_eq_false_iff_not, not_lt]
    exact ⟨h1, h2⟩
  simp only [storex.page, hb, Bool.false_eq_true, if_false]
  exact ⟨_, rfl, rfl⟩

/-- C12: without store failure (the table holding fewer than 2^63 rows),
`GetProjectStats` returns total = the number of projects of the organization,
active = the number of them with `IsActive` true and inactive = total -
active, so that active + inactive = total; both counts being taken over the
same table, inactive is the number of projects of the organization with
`IsActive` false. -/
theorem GetProjectStats_counts (w : World) (orgID : UUID)
    (hfault : w.NoFault) (hsize : (w.db.projects.length : Int) < 2 ^ 63) :
    ∃ stats, (projectService.GetProjectStats w orgID).1 = .ok stats ∧
      stats.TotalProjects
        = (w.db.projects.filter (fun p => p.OrganizationID == orgID)).length ∧
      stats.ActiveProjects
        = (w.db.projects.filter (fun p => p.OrganizationID == orgID && p.IsActive)).length ∧
      stats.InactiveProjects = stats.TotalProjects - stats.ActiveProjects ∧
      stats.ActiveProjects + stats.InactiveProjects = stats.TotalProjects ∧
      stats.InactiveProjects
        = (w.db.projects.filter (fun p => p.OrganizationID == orgID && !p.IsActive)).length := by
  have hf : ∀ n, w.fault n = none := hfault
  have hmatch : w.db.projects.filter
      (projectRepository.List.options
        { OrganizationID := some orgID, IsActive := some true, Search := none, Page := 1,
          PageSize := 1, SortBy := "", SortOrder := "" }).Filters.matchesProject
      = w.db.projects.filter (fun p => p.OrganizationID == orgID && p.IsActive) := by
    apply List.filter_congr
    intro p _
    simp [projectRepository.List.options, Filters.matchesProject]
  obtain ⟨r, hr, htotal⟩ := storex_page_total
    (w.schema.orderProjects "" false
      (w.db.projects.filter (fun p => p.OrganizationID == orgID && p.IsActive))) 1 1
    (le_refl 1) (le_refl 1)
  rw [(w.schema.orderProjects_perm _ _ _).length_eq] at htotal
  have hsplit := filter_active_split w.db.projects orgID
  have hle : ((w.db.projects.filter (fun p => p.OrganizationID == orgID)).length : Int)
      ≤ w.db.projects.length := by
    exact_mod_cast List.length_filter_le _ _
  have hwrap : wrapInt
      (((w.db.projects.filter (fun p => p.OrganizationID == orgID)).length : Int) - r.Total)
      = ((w.db.projects.filter (fun p => p.OrganizationID == orgID)).length : Int) - r.Total := by
    apply wrapInt_of_range
    · rw [htotal]
      have : (0 : Int) ≤ (w.db.projects.filter
          (fun p => p.OrganizationID == orgID && !p.IsActive)).length := Int.natCast_nonneg _
      norm_num
      omega
    · rw [htotal]
      have : (0 : Int) ≤ (w.db.projects.filter
          (fun p => p.OrganizationID == orgID && p.IsActive)).length := Int.natCast_nonneg _
      omega
  have hopts : (projectRepository.List.options
      { OrganizationID := some orgID, IsActive := some true, Search := none, Page := 1,
        PageSize := 1, SortBy := "", SortOrder := "" })
      = PaginationOptions.mk 1 1 "" false "" false (Filters.mk (some orgID) (some true) none) := by
    rfl
  have hev : (projectService.GetProjectStats w orgID).1
      = .ok (ProjectStats.mk (w.db.projects.filter (fun p => p.OrganizationID == orgID)).length
          r.Total
          (wrapInt (((w.db.projects.filter (fun p => p.OrganizationID == orgID)).length : Int)
            - r.Total))) := by
    rw [hopts] at hmatch
    simp only [projectService.GetProjectStats, projectRepository.CountByOrganization,
      sqlx.GetCountByOrganization, World.call, hf, projectRepository.List, PgRepository.Paginate,
      hopts, hmatch, hr]
  refine ⟨_, hev, rfl, htotal, ?_, ?_, ?_⟩
  · exact hwrap
  · show r.Total + wrapInt _ = _
    rw [hwrap]; ring
  · show wrapInt _ = _
    rw [hwrap, htotal]; omega

/-- C12 on the demo world: organization 7 has two projects, both active. -/
theorem GetProjectStats_counts_witness :
    ∃ stats, (projectService.GetProjectStats demoWorld 7).1 = .ok stats ∧
      stats.TotalProjects = 2 ∧ stats.ActiveProjects = 2 ∧ stats.InactiveProjects = 0 :=
  match GetProjectStats_counts demoWorld 7 (fun _ => rfl) (by decide) with
  | ⟨stats, h1, h2, h3, h4, _, _⟩ =>
    ⟨stats, h1, h2.trans (by decide), h3.trans (by decide),
      by rw [h4, h2, h3]; decide⟩

theorem ceil_div_eq (total pageSize : Int) (hsize : 1 ≤ pageSize) :
    ⌈(total : ℚ) / (pageSize : ℚ)⌉ = (total + pageSize - 1) / pageSize := by
  have hpos : (0 : Int) < pageSize := by omega
  have hposq : (0 : ℚ) < (pageSize : ℚ) := by exact_mod_cast hpos
  have hdiv := Int.emod_add_ediv (total + pageSize - 1) pageSize
  have hr0 := Int.emod_nonneg (total + pageSize - 1) (ne_of_gt hpos)
  have hr1 := Int.emod_lt_of_pos (total + pageSize - 1) hpos
  generalize (total + pageSize - 1) / pageSize = q at hdiv ⊢
  generalize (total + pageSize - 1) % pageSize = r at hdiv hr0 hr1
  rw [Int.ceil_eq_iff]
  constructor
  · rw [lt_div_iff₀ hposq]
    have h : (q - 1) * pageSize < total := by nlinarith
    exact_mod_cast h
  · rw [div_le_iff₀ hposq]
    have h : total ≤ q * pageSize := by nlinarith
    exact_mod_cast h

/-- C13: for every page (in particular page >= 1), pageSize >= 1 and
total >= 0 with total + pageSize inside the 64-bit range, `buildListResponseWithPagination` returns a response
whose `TotalPages` is the ceiling of total / pageSize, whose `HasNext` is true
exactly when page < totalPages and whose `HasPrev` is true exactly when
page > 1 (page, page size, total and rows are reported as given); at page 2,
pageSize 10, total 25 it reports 3 pages, `HasNext` and `HasPrev` true, and at
page 3 `HasNext` false. -/
theorem buildListResponseWithPagination_pages (result : Paginated Provider)
    (page pageSize total : Int) (hsize : 1 ≤ pageSize) (htotal : 0 ≤ total)
    (hrange : total + pageSize < 2 ^ 63) :
    (∃ r, providerRepository.buildListResponseWithPagination result page pageSize total = some r ∧
      r.TotalPages = ⌈(total : ℚ) / (pageSize : ℚ)⌉ ∧
      (r.HasNext = true ↔ page < r.TotalPages) ∧
      (r.HasPrev = true ↔ page > 1) ∧
      r.Page = page ∧ r.PageSize = pageSize ∧ r.Total = total ∧
      r.Data = result.Data.map providerRepository.toResponse) ∧
    (∃ r, providerRepository.buildListResponseWithPagination result 2 10 25 = some r ∧
      r.TotalPages = 3 ∧ r.HasNext = true ∧ r.HasPrev = true) ∧
    (∃ r, providerRepository.buildListResponseWithPagination result 3 10 25 = some r ∧
      r.TotalPages = 3 ∧ r.HasNext = false) := by
  refine ⟨?_, ⟨_, rfl, rfl, rfl, rfl⟩, ⟨_, rfl, rfl, rfl⟩⟩
  have hne : (pageSize == 0) = false := by
    simp only [beq_eq_false_iff_ne, ne_eq]
    omega
  have hw1 : wrapInt (total + pageSize) = total + pageSize :=
    wrapInt_of_range _ (by norm_num; omega) hrange
  have hw2 : wrapInt (total + pageSize - 1) = total + pageSize - 1 :=
    wrapInt_of_range _ (by norm_num; omega) (by omega)
  have hnn : (0 : Int) ≤ total + pageSize - 1 := by omega
  have htd : Int.tdiv (total + pageSize - 1) pageSize = (total + pageSize - 1) / pageSize :=
    Int.tdiv_eq_ediv hnn (by omega)
  have hq0 : (0 : Int) ≤ (total + pageSize - 1) / pageSize := Int.ediv_nonneg hnn (by omega)
  have hqle : (total + pageSize - 1) / pageSize ≤ total + pageSize - 1 :=
    Int.ediv_le_self _ hnn
  have hw3 : wrapInt ((total + pageSize - 1) / pageSize) = (total + pageSize - 1) / pageSize :=
    wrapInt_of_range _ (by norm_num; omega) (by omega)
  have hev : providerRepository.buildListResponseWithPagination result page pageSize total
      = some { Data := result.Data.map providerRepository.toResponse, Page := page,
               PageSize := pageSize, Total := total,
               TotalPages := (total + pageSize - 1) / pageSize,
               HasNext := decide (page < (total + pageSize - 1) / pageSize),
               HasPrev := decide (page > 1) } := by
    simp only [providerRepository.buildListResponseWithPagination, hne, hw1, hw2, htd, hw3,
      Bool.false_eq_true, if_false]
  refine ⟨_, hev, (ceil_div_eq total pageSize hsize).symm, ?_, ?_, rfl, rfl, rfl, rfl⟩
  · simp only [decide_eq_true_eq]
  · simp only [decide_eq_true_eq]

/-- C13 at page 2 of 25 providers in pages of 10. -/
theorem buildListResponseWithPagination_pages_witness :
    ∃ r, providerRepository.buildListResponseWithPagination ⟨[], 25, 2, 10, 3, true, true⟩ 2 10 25
        = some r ∧
      r.TotalPages = ⌈((25 : Int) : ℚ) / ((10 : Int) : ℚ)⌉ ∧ (r.HasNext = true ↔ (2 : Int) < r.TotalPages) :=
  match (buildListResponseWithPagination_pages ⟨[], 25, 2, 10, 3, true, true⟩ 2 10 25
    (by decide) (by decide) (by decide)).1 with
  | ⟨r, h1, h2, h3, _⟩ => ⟨r, h1, h2, h3⟩

theorem projectRepository_List_log (w : World) (req : ProjectListRequest) :
    (projectRepository.List w req).2.log
      = w.log ++ [StoreCall.projectsPaginate (projectRepository.List.options req)] := by
  have h := (call_frame w (StoreCall.projectsPaginate (projectRepository.List.options req))
    (fun db =>
      match storex.page
          (w.schema.orderProjects (projectRepository.List.options req).SortBy
            (projectRepository.List.options req).SortDesc
            (db.projects.filter (projectRepository.List.options req).Filters.matchesProject))
          (projectRepository.List.options req).Page
          (projectRepository.List.options req).PageSize with
      | .error e => .error e
      | .ok r => .ok (r, db))).2.2.2.2.2.2
  unfold projectRepository.List PgRepository.Paginate
  split
  · next err w1 heq =>
    have := congrArg (fun x => x.2.log) heq
    simp only at this
    rw [← this]; exact h
  · next r w1 heq =>
    have := congrArg (fun x => x.2.log) heq
    simp only at this
    rw [← this]; exact h

/-- C14 (the code at a failing input): three providers match a request
without search for page 2 in pages of 1, and `providerRepository.List`
answers with the second row but reports page 1, total 1, one page in all, no
next and no previous page, where the claim has page 2, total 3, three pages,
a next and a previous page. -/
theorem List_without_search_reports_fixed_pagination :
    (demoWorld.db.providers.filter
      (providerRepository.List.options
        (providerRepository.List.defaults ⟨none, none, none, 2, 1, none, false⟩)).Filters.matchesProvider).length = 3 ∧
    ∃ r, (providerRepository.List demoWorld ⟨none, none, none, 2, 1, none, false⟩).1 = .ok (some r) ∧
      r.Data.map (fun p => p.ID) = [21] ∧
      r.Page = 1 ∧ r.PageSize = 1 ∧ r.Total = 1 ∧ r.TotalPages = 1 ∧
      r.HasNext = false ∧ r.HasPrev = false :=
  ⟨by decide, _, rfl, by decide, by decide, by decide, by decide, by decide, by decide, by decide⟩

/-- C15 (the code at a failing input): for the query `sort_order=sideways`
`parseListRequest` returns a request carrying that value, `listProjects`
succeeds, the store is asked for an ascending page, and the answer is the one
of `sort_order=asc`. -/
theorem listProjects_accepts_unknown_sort_order :
    (∃ req, ProjectsAPI.parseListRequest demoParse (demoQuery [("sort_order", "sideways")]) = .ok req ∧
      req.SortOrder = "sideways") ∧
    (∃ resp, (ProjectsAPI.listProjects demoParse demoWorld
        (demoQuery [("sort_order", "sideways")])).1 = .ok resp ∧
      resp.Projects.map (fun p => p.ID) = [1, 2, 4]) ∧
    (∃ opts, (ProjectsAPI.listProjects demoParse demoWorld
        (demoQuery [("sort_order", "sideways")])).2.log = [StoreCall.projectsPaginate opts] ∧
      opts.SortDesc = false) ∧
    (ProjectsAPI.listProjects demoParse demoWorld (demoQuery [("sort_order", "sideways")])).1
      = (ProjectsAPI.listProjects demoParse demoWorld (demoQuery [("sort_order", "asc")])).1 ∧
    (∃ resp, (ProjectsAPI.listProjects demoParse demoWorld
        (demoQuery [("sort_order", "desc")])).1 = .ok resp ∧
      resp.Projects.map (fun p => p.ID) = [4, 2, 1]) :=
  ⟨⟨_, rfl, by decide⟩, ⟨_, rfl, by decide⟩, ⟨_, rfl, rfl⟩, rfl, ⟨_, rfl, by decide⟩⟩

theorem ListProjects_defaults_fields (req : ProjectListRequest) :
    (projectService.ListProjects.defaults req).Page = (if req.Page = 0 then 1 else req.Page) ∧
    (projectService.ListProjects.defaults req).PageSize
      = (if req.PageSize = 0 then 20 else req.PageSize) ∧
    (projectService.ListProjects.defaults req).SortBy
      = (if req.SortBy = "" then "created_at" else req.SortBy) ∧
    (projectService.ListProjects.defaults req).SortOrder
      = (if req.SortOrder = "" then "desc" else req.SortOrder) ∧
    (projectService.ListProjects.defaults req).OrganizationID = req.OrganizationID ∧
    (projectService.ListProjects.defaults req).IsActive = req.IsActive ∧
    (projectService.ListProjects.defaults req).Search = req.Search := by
  unfold projectService.ListProjects.defaults
  by_cases h1 : req.Page = 0 <;> by_cases h2 : req.PageSize = 0 <;>
    by_cases h3 : req.SortBy = "" <;> by_cases h4 : req.SortOrder = "" <;>
    simp [h1, h2, h3, h4]

/-- C16: `ListProjects` is `projectRepository.List` on the request with its
defaults set, and its one store call is the page query built from that
request, in which page is 1 when the request had 0 and the given page
otherwise, pageSize is 20 when it had 0, sortBy is "created_at" when it was
empty and sortOrder is "desc" when it was empty (the query is then
descending), and in which every field that was set (the filters included)
is the one of the request. -/
theorem ListProjects_sets_defaults (w : World) (req : ProjectListRequest) :
    projectService.ListProjects w req
      = projectRepository.List w (projectService.ListProjects.defaults req) ∧
    (projectService.ListProjects w req).2.log
      = w.log ++ [StoreCall.projectsPaginate
          (projectRepository.List.options (projectService.ListProjects.defaults req))] ∧
    (projectService.ListProjects.defaults req).Page = (if req.Page = 0 then 1 else req.Page) ∧
    (projectService.ListProjects.defaults req).PageSize
      = (if req.PageSize = 0 then 20 else req.PageSize) ∧
    (projectService.ListProjects.defaults req).SortBy
      = (if req.SortBy = "" then "created_at" else req.SortBy) ∧
    (projectService.ListProjects.defaults req).SortOrder
      = (if req.SortOrder = "" then "desc" else req.SortOrder) ∧
    (projectService.ListProjects.defaults req).OrganizationID = req.OrganizationID ∧
    (projectService.ListProjects.defaults req).IsActive = req.IsActive ∧
    (projectService.ListProjects.defaults req).Search = req.Search ∧
    (projectRepository.List.options (projectService.ListProjects.defaults req)).Page
      = (if req.Page = 0 then 1 else req.Page) ∧
    (projectRepository.List.options (projectService.ListProjects.defaults req)).PageSize
      = (if req.PageSize = 0 then 20 else req.PageSize) ∧
    (projectRepository.List.options (projectService.ListProjects.defaults req)).SortBy
      = (if req.SortBy = "" then "created_at" else req.SortBy) ∧
    (projectRepository.List.options (projectService.ListProjects.defaults req)).SortDesc
      = (if req.SortOrder = "" then true else req.SortOrder == "desc") ∧
    (projectRepository.List.options (projectService.ListProjects.defaults req)).Filters
      = (projectRepository.List.options req).Filters := by
  obtain ⟨h1, h2, h3, h4, h5, h6, h7⟩ := ListProjects_defaults_fields req
  refine ⟨rfl, projectRepository_List_log w _, h1, h2, h3, h4, h5, h6, h7, h1, h2, h3, ?_, ?_⟩
  · show ((projectService.ListProjects.defaults req).SortOrder == "desc") = _
    rw [h4]
    by_cases h : req.SortOrder = ""
    · simp [h]
    · simp [h]
  · show Filters.mk _ _ _ = Filters.mk _ _ _
    simp only [projectRepository.List.options, h5, h6, h7]

/-- C16 on a request with nothing set, and on one with everything set. -/
theorem ListProjects_sets_defaults_witness :
    (projectService.ListProjects demoWorld ⟨none, none, none, 0, 0, "", ""⟩).2.log
      = [StoreCall.projectsPaginate
          { Page := 1, PageSize := 20, SortBy := "created_at", SortDesc := true, OrderBy := "",
            Desc := false,
            Filters := { organization_id := none, is_active := none, orIlike := none } }] ∧
    (projectService.ListProjects demoWorld ⟨some 7, some true, none, 3, 5, "name", "asc"⟩).2.log
      = [StoreCall.projectsPaginate
          { Page := 3, PageSize := 5, SortBy := "name", SortDesc := false, OrderBy := "",
            Desc := false,
            Filters := { organization_id := some 7, is_active := some true, orIlike := none } }] :=
  ⟨(ListProjects_sets_defaults demoWorld ⟨none, none, none, 0, 0, "", ""⟩).2.1,
   (ListProjects_sets_defaults demoWorld ⟨some 7, some true, none, 3, 5, "name", "asc"⟩).2.1⟩

theorem parseListRequest_unset (Parse : String → Except DbErr UUID) (c : fiber.Ctx)
    (req : ProviderListRequest)
    (hpage : c.Query "page" = "") (hsize : c.Query "page_size" = "")
    (horder : c.Query "order_by" = "") (hdesc : c.Query "desc" = "")
    (hparse : ProvidersAPI.parseListRequest Parse c = .ok req) :
    req.Page = 0 ∧ req.PageSize = 0 ∧ req.OrderBy = none ∧ req.Desc = false := by
  unfold ProvidersAPI.parseListRequest at hparse
  simp only [hpage, hsize, horder, hdesc, bne_self_eq_false, Bool.false_eq_true, if_false] at hparse
  split at hparse
  · exact absurd hparse (by simp)
  · next req1 h1 =>
    have hr1 : req1.Page = 0 ∧ req1.PageSize = 0 ∧ req1.OrderBy = none ∧ req1.Desc = false := by
      split at h1
      · split at h1
        · exact absurd h1 (by simp)
        · injection h1 with h1; subst h1; exact ⟨rfl, rfl, rfl, rfl⟩
      · injection h1 with h1; subst h1; exact ⟨rfl, rfl, rfl, rfl⟩
    split at hparse
    · exact absurd hparse (by simp)
    · next req2 h2 =>
      have hr2 : req2.Page = 0 ∧ req2.PageSize = 0 ∧ req2.OrderBy = none ∧ req2.Desc = false := by
        split at h2
        · split at h2
          · exact absurd h2 (by simp)
          · injection h2 with h2; subst h2; exact hr1
        · injection h2 with h2; subst h2; exact hr1
      injection hparse with hparse
      subst hparse
      split
      · exact hr2
      · exact hr2

theorem searchProviders_log (w : World) (query : String) (opts : PaginationOptions) :
    ∃ rest, (providerRepository.searchProviders w query opts).2.log
      = w.log ++ StoreCall.selectProvidersSearch ("%" ++ query ++ "%")
          opts.Filters.organization_id opts.Filters.is_active opts.OrderBy
          (if opts.Desc then "DESC" else "ASC") opts.PageSize
          (wrapInt (wrapInt (opts.Page - 1) * opts.PageSize)) :: rest := by
  unfold providerRepository.searchProviders
  simp only
  cases h1 : sqlx.SelectProvidersSearch w ("%" ++ query ++ "%") opts.Filters.organization_id
      opts.Filters.is_active opts.OrderBy (if opts.Desc then "DESC" else "ASC") opts.PageSize
      (wrapInt (wrapInt (opts.Page - 1) * opts.PageSize)) with
  | mk r1 w1 =>
    have hlog1 : w1.log = w.log ++ [StoreCall.selectProvidersSearch ("%" ++ query ++ "%")
        opts.Filters.organization_id opts.Filters.is_active opts.OrderBy
        (if opts.Desc then "DESC" else "ASC") opts.PageSize
        (wrapInt (wrapInt (opts.Page - 1) * opts.PageSize))] := by
      have := congrArg (fun x => x.2.log) h1
      simp only [sqlx.SelectProvidersSearch, (call_frame w _ _).2.2.2.2.2.2] at this
      exact this.symm
    cases r1 with
    | error err => exact ⟨[], by simp [hlog1]⟩
    | ok providersData =>
      simp only
      cases h2 : sqlx.GetCountProvidersSearch w1 ("%" ++ query ++ "%")
          opts.Filters.organization_id opts.Filters.is_active with
      | mk r2 w2 =>
        have hlog2 : w2.log = w1.log ++ [StoreCall.countProvidersSearch ("%" ++ query ++ "%")
            opts.Filters.organization_id opts.Filters.is_active] := by
          have := congrArg (fun x => x.2.log) h2
          simp only [sqlx.GetCountProvidersSearch, (call_frame w1 _ _).2.2.2.2.2.2] at this
          exact this.symm
        cases r2 with
        | error err =>
          refine ⟨[StoreCall.countProvidersSearch ("%" ++ query ++ "%")
            opts.Filters.organization_id opts.Filters.is_active], ?_⟩
          simp only [hlog2, hlog1, List.append_assoc, List.singleton_append]
        | ok total =>
          refine ⟨[StoreCall.countProvidersSearch ("%" ++ query ++ "%")
            opts.Filters.organization_id opts.Filters.is_active], ?_⟩
          simp only [hlog2, hlog1, List.append_assoc, List.singleton_append]

theorem PaginateProviders_log (w : World) (opts : PaginationOptions) :
    (PgRepository.PaginateProviders w opts).2.log = w.log ++ [StoreCall.providersPaginate opts] := by
  unfold PgRepository.PaginateProviders
  exact (call_frame w _ _).2.2.2.2.2.2

theorem List_plain_log (w : World) (opts : PaginationOptions) :
    (match PgRepository.PaginateProviders w opts with
      | (.error err, w1) =>
        ((.error ((ProvidersErrors.New .ErrProviderListFailed).WithCause err) :
          Except ProviderError (Option ProviderListResponse)), w1)
      | (.ok result, w1) => (.ok (some (providerRepository.buildListResponse result)), w1)).2.log
      = w.log ++ [StoreCall.providersPaginate opts] := by
  have h := PaginateProviders_log w opts
  cases hp : PgRepository.PaginateProviders w opts with
  | mk r w1 =>
    rw [hp] at h
    cases r with
    | error e => exact h
    | ok x => exact h

/-- C17 (counterexample): for a request that sets nothing, `List` does not ask
the store for a descending page: its one query has page 1, pageSize 20, order
field "created_at" and `Desc` false, and the rows come back in ascending
order. -/
theorem List_default_order_not_descending :
    ¬ (∃ opts, (providerRepository.List demoWorld ⟨none, none, none, 0, 0, none, false⟩).2.log
          = [StoreCall.providersPaginate opts] ∧
        opts.Page = 1 ∧ opts.PageSize = 20 ∧ opts.OrderBy = "created_at" ∧ opts.Desc = true) := by
  rintro ⟨opts, hlog, -, -, -, hdesc⟩
  have h : (providerRepository.List demoWorld ⟨none, none, none, 0, 0, none, false⟩).2.log
      = [StoreCall.providersPaginate
          { Page := 1, PageSize := 20, SortBy := "", SortDesc := false, OrderBy := "created_at",
            Desc := false,
            Filters := { organization_id := none, is_active := none, orIlike := none } }] := rfl
  rw [h] at hlog
  injection hlog with hhead _
  injection hhead with hopts
  rw [← hopts] at hdesc
  exact Bool.noConfusion hdesc

/-- C17 (amended): for every provider list request that sets neither page,
page size, order field nor direction (`Desc` is false), `List` queries with
page 1, pageSize 20, order field "created_at" and ascending order: without a
search term its one store call is the page query with these options and the
filters of the request, and with a search term its first store call is the
search query `ORDER BY created_at ASC LIMIT 20 OFFSET 0`. -/
theorem List_default_query (w : World) (req : ProviderListRequest)
    (hpage : req.Page = 0) (hsize : req.PageSize = 0) (horder : req.OrderBy = none)
    (hdesc : req.Desc = false) :
    ((req.Search = none ∨ req.Search = some "") →
      (providerRepository.List w req).2.log
        = w.log ++ [StoreCall.providersPaginate
            { Page := 1, PageSize := 20, SortBy := "", SortDesc := false,
              OrderBy := "created_at", Desc := false,
              Filters := { organization_id := req.OrganizationID, is_active := req.IsActive,
                           orIlike := none } }]) ∧
    (∀ search, req.Search = some search → search ≠ "" →
      ∃ rest, (providerRepository.List w req).2.log
        = w.log ++ StoreCall.selectProvidersSearch ("%" ++ search ++ "%") req.OrganizationID
            req.IsActive "created_at" "ASC" 20 0 :: rest) := by
  have hdef : providerRepository.List.defaults req
      = { req with Page := 1, PageSize := 20, OrderBy := some "created_at" } := by
    simp [providerRepository.List.defaults, hpage, hsize, horder]
  have hopts : providerRepository.List.options (providerRepository.List.defaults req)
      = { Page := 1, PageSize := 20, SortBy := "", SortDesc := false,
          OrderBy := "created_at", Desc := false,
          Filters := { organization_id := req.OrganizationID, is_active := req.IsActive,
                       orIlike := none } } := by
    rw [hdef]
    unfold providerRepository.List.options
    cases req.OrganizationID <;> cases req.IsActive <;> simp [hdesc]
  have hsearch : (providerRepository.List.defaults req).Search = req.Search := by
    rw [hdef]
  constructor
  · intro hs
    have hl := List_plain_log w (providerRepository.List.options (providerRepository.List.defaults req))
    rw [hopts] at hl
    unfold providerRepository.List
    simp only [hsearch, hopts]
    rcases hs with hs | hs
    · simp only [hs]; exact hl
    · simp only [hs, bne_self_eq_false, Bool.false_eq_true, if_false]; exact hl
  · intro search hs hne
    obtain ⟨rest, hrest⟩ := searchProviders_log w search
      (providerRepository.List.options (providerRepository.List.defaults req))
    rw [hopts] at hrest
    refine ⟨rest, ?_⟩
    unfold providerRepository.List
    have hb : (search != "") = true := by simpa using hne
    simp only [hsearch, hopts, hs, hb, if_true]
    have hoff : wrapInt (wrapInt ((1 : Int) - 1) * 20) = 0 := by decide
    simpa [hoff] using hrest

/-- C17 (amended) on the demo world, without and with a search term. -/
theorem List_default_query_witness :
    (providerRepository.List demoWorld ⟨none, some true, none, 0, 0, none, false⟩).2.log
      = [StoreCall.providersPaginate
          { Page := 1, PageSize := 20, SortBy := "", SortDesc := false,
            OrderBy := "created_at", Desc := false,
            Filters := { organization_id := none, is_active := some true, orIlike := none } }] ∧
    ∃ rest, (providerRepository.List demoWorld ⟨some 7, none, some "o", 0, 0, none, false⟩).2.log
      = StoreCall.selectProvidersSearch "%o%" (some 7) none "created_at" "ASC" 20 0 :: rest :=
  ⟨(List_default_query demoWorld ⟨none, some true, none, 0, 0, none, false⟩ rfl rfl rfl rfl).1
      (Or.inl rfl),
   (List_default_query demoWorld ⟨some 7, none, some "o", 0, 0, none, false⟩ rfl rfl rfl rfl).2
      "o" rfl (by decide)⟩

/-- C18: `Use` succeeds exactly when the invitation is not used and `now` is
not after `expiresAt` (so `now = expiresAt` succeeds); on success `isUsed`
becomes true and no other field changes; an invitation never used whose
`expiresAt` has passed fails with the expired error. -/
theorem Invitation_Use_succeeds_iff (i : Invitation) (now : Time) :
    ((i.Use now).1 = none ↔ i.isUsed = false ∧ ¬ now > i.expiresAt) ∧
    (i.isUsed = false → now = i.expiresAt → (i.Use now).1 = none) ∧
    ((i.Use now).1 = none → (i.Use now).2 = { i with isUsed := true } ∧
      (i.Use now).2.isUsed = true) ∧
    (i.isUsed = false → now > i.expiresAt → (i.Use now).1 = some "invitation expired") := by
  unfold Invitation.Use Invitation.IsExpired
  cases hu : i.isUsed with
  | true => simp
  | false =>
    by_cases he : now > i.expiresAt
    · have hne : now ≠ i.expiresAt := fun h => by rw [h] at he; exact lt_irrefl _ he
      simp [he, hne]
    · refine ⟨?_, ?_, ?_, ?_⟩
      · simp [he]
      · intro _ _; simp [he]
      · intro _; simp [he, hu]
      · intro _ h; exact absurd h he

/-- C18 on the demo invitation, which expires at time 100: use at time 100
succeeds, use at time 101 fails with the expired error. -/
theorem Invitation_Use_succeeds_iff_witness :
    (demoInvitation.Use 100).1 = none ∧
    (demoInvitation.Use 100).2.isUsed = true ∧
    (demoInvitation.Use 101).1 = some "invitation expired" :=
  have h := Invitation_Use_succeeds_iff demoInvitation 100
  have h1 := h.2.1 (by decide) (by decide)
  ⟨h1, (h.2.2.1 h1).2,
   (Invitation_Use_succeeds_iff demoInvitation 101).2.2.2 (by decide) (by decide)⟩

theorem afterCall_isUsed (i : Invitation) (c : InvitationCall) (h : i.isUsed = true) :
    (i.afterCall c).isUsed = true := by
  cases c <;> simp [Invitation.afterCall, Invitation.Use, h]

theorem afterCalls_isUsed (calls : List InvitationCall) :
    ∀ i : Invitation, i.isUsed = true → (i.afterCalls calls).isUsed = true := by
  induction calls with
  | nil => intro i h; exact h
  | cons c rest ih =>
    intro i h
    exact ih (i.afterCall c) (afterCall_isUsed i c h)

/-- C19: once `isUsed` is true it stays true through every sequence of calls
of the methods of `Invitation`; and once `Use` has succeeded, `Use` fails with
the already-used error after any such sequence and at any time. -/
theorem Invitation_use_is_one_way (i : Invitation) (calls : List InvitationCall) :
    (i.isUsed = true → (i.afterCalls calls).isUsed = true) ∧
    (∀ now later : Time, (i.Use now).1 = none →
      (((i.Use now).2.afterCalls calls).Use later).1 = some "invitation already used" ∧
      (((i.Use now).2.afterCalls calls).Use later).2.isUsed = true) := by
  refine ⟨afterCalls_isUsed calls i, ?_⟩
  intro now later hok
  have h1 : (i.Use now).2.isUsed = true := by
    unfold Invitation.Use at hok ⊢
    split_ifs at hok ⊢
    all_goals simp_all
  have h2 := afterCalls_isUsed calls _ h1
  generalize (i.Use now).2.afterCalls calls = j at h2
  simp [Invitation.Use, h2]

/-- C19 on the demo invitation: after a successful use at time 50 and further
calls, a use at time 60 fails with the already-used error. -/
theorem Invitation_use_is_one_way_witness :
    (((demoInvitation.Use 50).2.afterCalls
        [InvitationCall.IsUsed, InvitationCall.IsExpired 55, InvitationCall.Use 56]).Use 60).1
      = some "invitation already used" :=
  ((Invitation_use_is_one_way demoInvitation
      [InvitationCall.IsUsed, InvitationCall.IsExpired 55, InvitationCall.Use 56]).2
    50 60 (by decide)).1

/-- C20: for a membership whose role is `r`, `HasPermission` returns a value,
and the value is true exactly when the membership is active and the
permission is an element of the permission list of `r`. -/
theorem Membership_HasPermission_iff (m : Membership) (r : Role) (permission : Permission)
    (hrole : m.role = some r) :
    (∃ b, m.HasPermission permission = some b) ∧
    (m.HasPermission permission = some true
      ↔ m.isActive = true ∧ permission ∈ r.permissions) := by
  unfold Membership.HasPermission Role.HasPermission
  rw [hrole]
  cases m.isActive with
  | true => simp
  | false => simp

/-- C20 on an active member with the role `org_member`: viewing the
organization is granted, managing it is not. -/
theorem Membership_HasPermission_iff_witness :
    (NewMembership "m-1" "user-1" "org-7" (some RoleOrgMember) 0).HasPermission
      PermissionViewOrg = some true ∧
    (NewMembership "m-1" "user-1" "org-7" (some RoleOrgMember) 0).HasPermission
      PermissionManageOrg ≠ some true :=
  ⟨(Membership_HasPermission_iff (NewMembership "m-1" "user-1" "org-7" (some RoleOrgMember) 0)
      RoleOrgMember PermissionViewOrg rfl).2.mpr ⟨rfl, by decide⟩,
   fun h => absurd
     ((Membership_HasPermission_iff (NewMembership "m-1" "user-1" "org-7" (some RoleOrgMember) 0)
        RoleOrgMember PermissionManageOrg rfl).2.mp h).2 (by decide)⟩

theorem repo_Create_error_cases (w : World) (project : Project) (e : Error)
    (h : (projectRepository.Create w project).1 = .error e) :
    ∃ err, e.Cause = some err ∧
      (strings.Contains err.msg "projects_name_org_unique" = true →
        e.Code = ErrCode.ErrProjectNameExists ∧
        e.Details = [("name", Detail.str project.Name),
                     ("organization_id", Detail.uuid project.OrganizationID)]) ∧
      (strings.Contains err.msg "projects_name_org_unique" = false →
        e.Code = ErrCode.ErrProjectCreateFailed) := by
  unfold projectRepository.Create at h
  by_cases hnil : (project.ID == uuid.Nil) = true
  · simp only [hnil, if_true, World.uuidNew] at h
    generalize PgRepository.Create _ _ = r at h
    obtain ⟨r1, w1⟩ := r
    cases r1 with
    | ok p => simp at h
    | error err =>
      by_cases hc : strings.Contains err.msg "projects_name_org_unique" = true
      · simp only [hc, if_true] at h
        injection h with h
        subst h
        exact ⟨err, rfl, fun _ => ⟨rfl, rfl⟩, fun hf => by rw [hc] at hf; cases hf⟩
      · simp only [hc, if_false] at h
        injection h with h
        subst h
        exact ⟨err, rfl, fun ht => absurd ht hc, fun _ => rfl⟩
  · simp only [hnil, if_false] at h
    generalize PgRepository.Create _ _ = r at h
    obtain ⟨r1, w1⟩ := r
    cases r1 with
    | ok p => simp at h
    | error err =>
      by_cases hc : strings.Contains err.msg "projects_name_org_unique" = true
      · simp only [hc, if_true] at h
        injection h with h
        subst h
        exact ⟨err, rfl, fun _ => ⟨rfl, rfl⟩, fun hf => by rw [hc] at hf; cases hf⟩
      · simp only [hc, if_false] at h
        injection h with h
        subst h
        exact ⟨err, rfl, fun ht => absurd ht hc, fun _ => rfl⟩

/-- C25: when the store fails the INSERT of `Create` or the UPDATE of `Update`
with an error whose message contains `projects_name_org_unique`, the
repository returns NAME_EXISTS (type Conflict) with the name and the
organization of the project as details and the store error as cause, not
CREATE_FAILED or UPDATE_FAILED; and every failure of `Create` (on any world
and project) carries a store error as cause and is NAME_EXISTS when the
message of that error contains the index name and CREATE_FAILED
otherwise. -/
theorem Create_Update_translate_unique_violation (w : World) (project : Project) (id : UUID)
    (err : DbErr) (hfault : w.fault w.log.length = some err)
    (hmsg : strings.Contains err.msg "projects_name_org_unique" = true) :
    (projectRepository.Create w project).1
      = .error { Code := ErrCode.ErrProjectNameExists,
                 Details := [("name", Detail.str project.Name),
                             ("organization_id", Detail.uuid project.OrganizationID)],
                 Cause := some err } ∧
    (projectRepository.Update w id project).1
      = .error { Code := ErrCode.ErrProjectNameExists,
                 Details := [("name", Detail.str project.Name),
                             ("organization_id", Detail.uuid project.OrganizationID)],
                 Cause := some err } ∧
    ErrCode.ErrProjectNameExists.errType = ErrType.TypeConflict ∧
    (∀ (w2 : World) (p2 : Project) (e : Error), (projectRepository.Create w2 p2).1 = .error e →
      ∃ err2, e.Cause = some err2 ∧
        (strings.Contains err2.msg "projects_name_org_unique" = true →
          e.Code = ErrCode.ErrProjectNameExists ∧
          e.Details = [("name", Detail.str p2.Name),
                       ("organization_id", Detail.uuid p2.OrganizationID)]) ∧
        (strings.Contains err2.msg "projects_name_org_unique" = false →
          e.Code = ErrCode.ErrProjectCreateFailed)) := by
  refine ⟨?_, ?_, rfl, repo_Create_error_cases⟩
  · unfold projectRepository.Create PgRepository.Create World.call
    by_cases hnil : (project.ID == uuid.Nil) = true
    · simp [hnil, World.uuidNew, hfault, hmsg, ProjectsErrors.New, Error.WithDetail,
        Error.WithCause]
    · simp [hnil, hfault, hmsg, ProjectsErrors.New, Error.WithDetail, Error.WithCause]
  · unfold projectRepository.Update PgRepository.Update World.call
    simp [hfault, hmsg, ProjectsErrors.New, Error.WithDetail, Error.WithCause]

/-- C25 on the demo world, the store answering the first round trip with the
violation of the unique index. -/
theorem Create_Update_translate_unique_violation_witness :
    ∃ e, (projectRepository.Create
        { demoWorld with fault := fun _ => some (uniqueViolation "projects_name_org_unique") }
        ⟨0, 7, "alpha", none, true, some [], 0, 0⟩).1 = .error e ∧
      e.Code = ErrCode.ErrProjectNameExists ∧
      e.Details = [("name", Detail.str "alpha"), ("organization_id", Detail.uuid 7)] :=
  ⟨_, (Create_Update_translate_unique_violation
      { demoWorld with fault := fun _ => some (uniqueViolation "projects_name_org_unique") }
      ⟨0, 7, "alpha", none, true, some [], 0, 0⟩ 1
      (uniqueViolation "projects_name_org_unique") rfl (by decide)).1, rfl, rfl⟩

/-- `UpdateProject` with only `IsActive` set, on a project that is found: the
two round trips, and the outcome of the second. -/
theorem UpdateProject_flag_only (w : World) (id : UUID) (p : Project) (b : Bool)
    (hproject : w.db.findProject id = some p) (hfind : w.fault w.log.length = none) :
    (projectService.UpdateProject w id ⟨none, none, some b, none⟩).2.log
      = w.log ++ [StoreCall.projectsFindByID id,
          StoreCall.projectsUpdate id { p with IsActive := b, UpdatedAt := w.clock w.ticks }] ∧
    (w.fault (w.log.length + 1) = none →
      (w.db.projects.map (fun q => (q.Name, q.OrganizationID))).Nodup →
      (projectService.UpdateProject w id ⟨none, none, some b, none⟩).1
        = .ok { p with IsActive := b, UpdatedAt := w.clock w.ticks } ∧
      (projectService.UpdateProject w id ⟨none, none, some b, none⟩).2.db
        = { w.db with projects := w.db.projects.map (fun q =>
              if q.ID == id then { p with IsActive := b, UpdatedAt := w.clock w.ticks }
              else q) }) ∧
    (∀ e, (projectService.UpdateProject w id ⟨none, none, some b, none⟩).1 = .error e →
      e.Code = ErrCode.ErrProjectNameExists →
      (w.db.projects.map (fun q => (q.Name, q.OrganizationID))).Nodup →
      ∃ err, w.fault (w.log.length + 1) = some err ∧
        strings.Contains err.msg "projects_name_org_unique" = true) := by
  obtain ⟨hmem, hpid⟩ := findProject_some w.db id p hproject
  have hup : projectService.UpdateProject.updatedProject p ⟨none, none, some b, none⟩
      (w.clock w.ticks) = { p with IsActive := b, UpdatedAt := w.clock w.ticks } := rfl
  have hid : ({ ({ p with IsActive := b, UpdatedAt := w.clock w.ticks } : Project) with ID := id }
      : Project) = { p with IsActive := b, UpdatedAt := w.clock w.ticks } := by
    subst hpid; rfl
  have hany : w.db.projects.any (fun q => q.ID == id) = true := by
    rw [any_id_iff]
    exact List.mem_map.mpr ⟨p, hmem, hpid⟩
  have hother : (w.db.projects.map (fun q => (q.Name, q.OrganizationID))).Nodup →
      w.db.projects.any (fun q => q.ID != id && q.Name == p.Name
        && q.OrganizationID == p.OrganizationID) = false := by
    intro hinv
    rw [← Bool.not_eq_true, any_other_name_org_iff]
    rintro ⟨q, hq, hne, hn, ho⟩
    have := List.inj_on_of_nodup_map hinv hq hmem (by simp [hn, ho])
    exact hne (by rw [this, hpid])
  have hunf : projectService.UpdateProject w id ⟨none, none, some b, none⟩
      = projectService.UpdateProject.apply
          { w with log := w.log ++ [StoreCall.projectsFindByID id] } id p
          ⟨none, none, some b, none⟩ := by
    unfold projectService.UpdateProject
    rw [GetByID_found w id p hfind hproject]
  have happly : projectService.UpdateProject.apply
      { w with log := w.log ++ [StoreCall.projectsFindByID id] } id p ⟨none, none, some b, none⟩
      = projectRepository.Update
          (World.mk w.db w.schema (w.log ++ [StoreCall.projectsFindByID id]) w.fault w.rand
            w.drawn w.clock (w.ticks + 1)) id
          { p with IsActive := b, UpdatedAt := w.clock w.ticks } := by
    unfold projectService.UpdateProject.apply
    simp only [World.timeNow, hup]
    generalize projectRepository.Update _ _ _ = x
    obtain ⟨r, w2⟩ := x
    cases r <;> rfl
  rw [hunf, happly]
  have hlog := repo_Update_log
    (World.mk w.db w.schema (w.log ++ [StoreCall.projectsFindByID id]) w.fault w.rand
      w.drawn w.clock (w.ticks + 1)) id
    { p with IsActive := b, UpdatedAt := w.clock w.ticks }
  rw [hid] at hlog
  refine ⟨by rw [hlog]; simp, ?_, ?_⟩
  · intro hf hinv
    unfold projectRepository.Update PgRepository.Update World.call
    simp only [hid, List.length_append, List.length_singleton, hf, DB.updateProject, hany,
      if_true, hother hinv, Bool.false_eq_true, if_false, and_self]
  · intro e he hcode hinv
    unfold projectRepository.Update PgRepository.Update World.call at he
    simp only [hid, List.length_append, List.length_singleton] at he
    cases hf : w.fault (w.log.length + 1) with
    | none =>
      simp only [hf, DB.updateProject, hany, if_true, hother hinv, Bool.false_eq_true,
        if_false] at he
      cases he
    | some err =>
      refine ⟨err, rfl, ?_⟩
      simp only [hf] at he
      by_contra hc
      simp only [hc, if_false] at he
      by_cases hnf : storex.IsRecordNotFound err = true
      · simp only [hnf, if_true] at he
        injection he with he
        subst he
        cases hcode
      · simp only [hnf, if_false] at he
        injection he with he
        subst he
        cases hcode

/-- C21: for an existing project `p` that the store finds, `ActivateProject`
(resp. `DeactivateProject`) makes two round trips, the read and an update
that hands the store `p` with `IsActive` true (resp. false) and `UpdatedAt`
the present time, every other field as stored; no name check is sent. When the
store carries out the update (the rows respecting the unique index), the call
succeeds with that project whatever the flag was before, and NAME_EXISTS can
only come from a store error that names the unique index, not from the
guard. -/
theorem Activate_Deactivate_change_flag_only (w : World) (id : UUID) (p : Project)
    (hproject : w.db.findProject id = some p) (hfind : w.fault w.log.length = none) :
    ((projectService.ActivateProject w id).2.log
        = w.log ++ [StoreCall.projectsFindByID id,
            StoreCall.projectsUpdate id
              { p with IsActive := true, UpdatedAt := w.clock w.ticks }] ∧
      (w.fault (w.log.length + 1) = none →
        (w.db.projects.map (fun q => (q.Name, q.OrganizationID))).Nodup →
        (projectService.ActivateProject w id).1
          = .ok { p with IsActive := true, UpdatedAt := w.clock w.ticks } ∧
        (projectService.ActivateProject w id).2.db
          = { w.db with projects := w.db.projects.map (fun q =>
                if q.ID == id then { p with IsActive := true, UpdatedAt := w.clock w.ticks }
                else q) }) ∧
      (∀ e, (projectService.ActivateProject w id).1 = .error e →
        e.Code = ErrCode.ErrProjectNameExists →
        (w.db.projects.map (fun q => (q.Name, q.OrganizationID))).Nodup →
        ∃ err, w.fault (w.log.length + 1) = some err ∧
          strings.Contains err.msg "projects_name_org_unique" = true)) ∧
    ((projectService.DeactivateProject w id).2.log
        = w.log ++ [StoreCall.projectsFindByID id,
            StoreCall.projectsUpdate id
              { p with IsActive := false, UpdatedAt := w.clock w.ticks }] ∧
      (w.fault (w.log.length + 1) = none →
        (w.db.projects.map (fun q => (q.Name, q.OrganizationID))).Nodup →
        (projectService.DeactivateProject w id).1
          = .ok { p with IsActive := false, UpdatedAt := w.clock w.ticks } ∧
        (projectService.DeactivateProject w id).2.db
          = { w.db with projects := w.db.projects.map (fun q =>
                if q.ID == id then { p with IsActive := false, UpdatedAt := w.clock w.ticks }
                else q) }) ∧
      (∀ e, (projectService.DeactivateProject w id).1 = .error e →
        e.Code = ErrCode.ErrProjectNameExists →
        (w.db.projects.map (fun q => (q.Name, q.OrganizationID))).Nodup →
        ∃ err, w.fault (w.log.length + 1) = some err ∧
          strings.Contains err.msg "projects_name_org_unique" = true)) :=
  ⟨UpdateProject_flag_only w id p true hproject hfind,
   UpdateProject_flag_only w id p false hproject hfind⟩

/-- C21 on the demo world: the inactive project 2 is activated and the
active project 1 deactivated, nothing else of them changing but
`UpdatedAt`. -/
theorem Activate_Deactivate_change_flag_only_witness :
    (projectService.ActivateProject demoWorld 2).1
      = .ok ⟨2, 8, "beta", some "second", true, some [], 0, 1000⟩ ∧
    (projectService.DeactivateProject demoWorld 1).2.log
      = [StoreCall.projectsFindByID 1,
         StoreCall.projectsUpdate 1 ⟨1, 7, "alpha", none, false, some [], 0, 1000⟩] :=
  ⟨((Activate_Deactivate_change_flag_only demoWorld 2
      ⟨2, 8, "beta", some "second", false, some [], 0, 0⟩ rfl rfl).1.2.1 rfl (by decide)).1,
   (Activate_Deactivate_change_flag_only demoWorld 1
      ⟨1, 7, "alpha", none, true, some [], 0, 0⟩ rfl rfl).2.1⟩

/-- `CreateProject` when the name is free, no failure is scheduled and the
generated identity is unused: the project returned and the world the bulk
insert of the provider links leaves. -/
theorem CreateProject_eval_full (w : World) (req : CreateProjectRequest)
    (hvalid : projectService.validateCreateRequest req = none)
    (hfault : w.NoFault)
    (hex : ¬ ∃ p ∈ w.db.projects, p.Name = req.Name ∧ p.OrganizationID = req.OrganizationID)
    (hid : uuid.New (w.rand w.drawn) ∉ w.db.projects.map (fun p => p.ID)) :
    projectService.CreateProject w req
      = (.ok (Project.mk (uuid.New (w.rand w.drawn)) req.OrganizationID req.Name req.Description
            true (if req.Metadata == none then some [] else req.Metadata)
            (w.clock w.ticks) (w.clock (w.ticks + 1))),
         (projectRepository.AddProvidersBulk
            (World.mk
              (DB.mk (w.db.projects ++
                  [Project.mk (uuid.New (w.rand w.drawn)) req.OrganizationID req.Name
                    req.Description true (if req.Metadata == none then some [] else req.Metadata)
                    (w.clock w.ticks) (w.clock (w.ticks + 1))])
                w.db.project_providers w.db.providers)
              w.schema
              (w.log ++ [StoreCall.countProjectsByName req.Name req.OrganizationID none] ++
                [StoreCall.projectsCreate
                  (Project.mk (uuid.New (w.rand w.drawn)) req.OrganizationID req.Name
                    req.Description true (if req.Metadata == none then some [] else req.Metadata)
                    (w.clock w.ticks) (w.clock (w.ticks + 1)))])
              w.fault w.rand (w.drawn + 1) w.clock (w.ticks + 1 + 1))
            (uuid.New (w.rand w.drawn)) req.ProviderIDs).2) := by
  rw [CreateProject_unfold w req hvalid (hfault _) hex]
  generalize hw3 : World.mk w.db w.schema
      (w.log ++ [StoreCall.countProjectsByName req.Name req.OrganizationID none])
      w.fault w.rand w.drawn w.clock (w.ticks + 1 + 1) = w3
  generalize hP : Project.mk uuid.Nil req.OrganizationID req.Name req.Description true
      (if req.Metadata == none then some [] else req.Metadata)
      (w.clock w.ticks) (w.clock (w.ticks + 1)) = P
  have e := repo_Create_eval_ok w3 P (by subst hP; rfl) (by subst hw3; exact hfault _)
    (by subst hw3; exact hid) (by subst hw3 hP; exact hex)
  rw [e]
  subst hw3 hP
  simp only
  by_cases hlen : req.ProviderIDs.length > 0
  · rw [if_pos hlen]
  · rw [if_neg hlen]
    have h0 : req.ProviderIDs = [] := List.length_eq_zero.mp (by omega)
    rw [h0]
    rfl

theorem missingFields_getProviders :
    sqlx.missingFields getProvidersColumns ProjectProviderDetails.dbNames = some "provider_id" := by
  decide

/-- `GetProviders` fails on every call, whatever the store holds and whether
or not the store fails the query: when the store answers, the columns of the
result find no field in `models.ProjectProviderDetails`. -/
theorem GetProviders_fails (w : World) (projectID : UUID) :
    ∃ e, projectRepository.GetProviders w projectID
        = (.error e, { w with log := w.log ++ [StoreCall.selectProjectProviders projectID] }) ∧
      e.Code = ErrCode.ErrProjectProviderManagementFailed ∧
      (w.fault w.log.length = none →
        e.Cause = some (sqlx.missingDestination "provider_id"
          "*[]*models.ProjectProviderDetails")) := by
  unfold projectRepository.GetProviders sqlx.SelectProjectProviders World.call
  rw [missingFields_getProviders]
  cases hf : w.fault w.log.length with
  | some err => exact ⟨_, rfl, rfl, fun h => by cases h⟩
  | none => exact ⟨_, rfl, rfl, fun _ => rfl⟩

/-- `DuplicateProject` of a project that the store finds is `CreateProject`
of the copied fields with no provider identity: the error of `GetProviders`
is dropped and `ProviderIDs` stays nil. -/
theorem DuplicateProject_unfold (w : World) (id : UUID) (newName : String) (p : Project)
    (hproject : w.db.findProject id = some p) (hfind : w.fault w.log.length = none) :
    projectService.DuplicateProject w id newName
      = projectService.CreateProject
          (World.mk w.db w.schema
            (w.log ++ [StoreCall.projectsFindByID id] ++ [StoreCall.selectProjectProviders id])
            w.fault w.rand w.drawn w.clock w.ticks)
          { OrganizationID := p.OrganizationID, Name := newName, Description := p.Description,
            Metadata := p.Metadata, ProviderIDs := [] } := by
  unfold projectService.DuplicateProject
  rw [GetByID_found w id p hfind hproject]
  simp only
  obtain ⟨e, he, -, -⟩ := GetProviders_fails
    (World.mk w.db w.schema (w.log ++ [StoreCall.projectsFindByID id]) w.fault w.rand w.drawn
      w.clock w.ticks) id
  rw [he]

theorem repo_Create_ok_fields (w : World) (project r : Project)
    (h : (projectRepository.Create w project).1 = .ok r) :
    r.IsActive = project.IsActive ∧ r.Metadata = project.Metadata := by
  have key : ∀ (w0 : World) (q : Project), ∀ r0, (PgRepository.Create w0 q).1 = .ok r0 → r0 = q := by
    intro w0 q r0 h0
    unfold PgRepository.Create World.call DB.insertProject at h0
    cases hf : w0.fault w0.log.length with
    | some e => simp [hf] at h0
    | none =>
      simp only [hf] at h0
      split_ifs at h0
      simp at h0
      exact h0.symm
  unfold projectRepository.Create at h
  by_cases hnil : (project.ID == uuid.Nil) = true
  · simp only [hnil, if_true, World.uuidNew] at h
    have k := key { w with drawn := w.drawn + 1 } { project with ID := uuid.New (w.rand w.drawn) }
    generalize PgRepository.Create { w with drawn := w.drawn + 1 }
      { project with ID := uuid.New (w.rand w.drawn) } = x at h k
    obtain ⟨r1, w1⟩ := x
    cases r1 with
    | error e =>
      simp only at h
      split_ifs at h
    | ok r2 =>
      simp only at h
      have := k r2 rfl
      injection h with h
      subst h
      subst this
      exact ⟨rfl, rfl⟩
  · have hb : (project.ID == uuid.Nil) = false := by simpa using hnil
    simp only [hb, Bool.false_eq_true, if_false] at h
    have k := key w project
    generalize PgRepository.Create w project = x at h k
    obtain ⟨r1, w1⟩ := x
    cases r1 with
    | error e =>
      simp only at h
      split_ifs at h
    | ok r2 =>
      simp only at h
      have := k r2 rfl
      injection h with h
      subst h
      subst this
      exact ⟨rfl, rfl⟩

/-- Whenever `CreateProject` succeeds, the project it returns is active and
its metadata is not the nil map. -/
theorem CreateProject_ok_active (w : World) (req : CreateProjectRequest) (p : Project)
    (h : (projectService.CreateProject w req).1 = .ok p) :
    p.IsActive = true ∧ p.Metadata ≠ none := by
  unfold projectService.CreateProject at h
  cases hv : projectService.validateCreateRequest req with
  | some err => simp [hv] at h
  | none =>
    simp only [hv] at h
    generalize projectRepository.ExistsByNameAndOrganization w req.Name req.OrganizationID none
      = x at h
    obtain ⟨r1, w1⟩ := x
    cases r1 with
    | error e => simp at h
    | ok found =>
      cases found with
      | true => simp at h
      | false =>
        simp only [Bool.false_eq_true, if_false, World.timeNow] at h
        generalize hP : (if (Project.mk uuid.Nil req.OrganizationID req.Name req.Description true
            req.Metadata (w1.clock w1.ticks) (w1.clock (w1.ticks + 1))).Metadata == none
          then { (Project.mk uuid.Nil req.OrganizationID req.Name req.Description true
            req.Metadata (w1.clock w1.ticks) (w1.clock (w1.ticks + 1))) with Metadata := some [] }
          else (Project.mk uuid.Nil req.OrganizationID req.Name req.Description true
            req.Metadata (w1.clock w1.ticks) (w1.clock (w1.ticks + 1)))) = P at h
        have hPa : P.IsActive = true ∧ P.Metadata ≠ none := by
          subst hP
          cases hm : req.Metadata with
          | none => exact ⟨by simp, by simp⟩
          | some m => exact ⟨by simp, by simp⟩
        have k := repo_Create_ok_fields
          (World.mk w1.db w1.schema w1.log w1.fault w1.rand w1.drawn w1.clock (w1.ticks + 1 + 1)) P
        generalize projectRepository.Create _ P = y at h k
        obtain ⟨r2, w4⟩ := y
        cases r2 with
        | error e => simp at h
        | ok created =>
          have hc := k created rfl
          simp only at h
          split_ifs at h
          · injection h with h
            subst h
            exact ⟨hc.1.trans hPa.1, by rw [hc.2]; exact hPa.2⟩
          · injection h with h
            subst h
            exact ⟨hc.1.trans hPa.1, by rw [hc.2]; exact hPa.2⟩

/-- C27: for an existing project `p`, active or not, and a new name that is
valid and unused in its organization (no store failure, `p` passing the checks
of creation, the generated identity unused), `DuplicateProject` returns and
stores a project that is active and whose metadata is not the nil map; and
whenever `DuplicateProject` succeeds at all, on any world, the project it
returns is active with non-nil metadata. -/
theorem DuplicateProject_result_is_active (w : World) (id : UUID) (newName : String)
    (p : Project)
    (hproject : w.db.findProject id = some p)
    (hfault : w.NoFault)
    (hname : newName ≠ "" ∧ len newName ≤ 255)
    (horg : p.OrganizationID ≠ uuid.Nil)
    (hdesc : ∀ d, p.Description = some d → len d ≤ 1000)
    (hfree : ¬ ∃ q ∈ w.db.projects, q.Name = newName ∧ q.OrganizationID = p.OrganizationID)
    (hid : uuid.New (w.rand w.drawn) ∉ w.db.projects.map (fun q => q.ID)) :
    (∃ dup, (projectService.DuplicateProject w id newName).1 = .ok dup ∧
      dup.IsActive = true ∧ dup.Metadata ≠ none ∧
      dup ∈ (projectService.DuplicateProject w id newName).2.db.projects) ∧
    (∀ (w2 : World) (id2 : UUID) (name2 : String) (dup2 : Project),
      (projectService.DuplicateProject w2 id2 name2).1 = .ok dup2 →
      dup2.IsActive = true ∧ dup2.Metadata ≠ none) := by
  constructor
  · have hvalid : projectService.validateCreateRequest
        { OrganizationID := p.OrganizationID, Name := newName, Description := p.Description,
          Metadata := p.Metadata, ProviderIDs := [] }
        = none := by
      rw [validateCreateRequest_none_iff]
      rintro (h | h | h | ⟨d, hd, h⟩)
      · exact horg h
      · exact hname.1 h
      · exact absurd hname.2 (by simpa using h)
      · exact absurd (hdesc d hd) (by simpa using h)
    rw [DuplicateProject_unfold w id newName p hproject (hfault _)]
    rw [CreateProject_eval_full
      (World.mk w.db w.schema
        (w.log ++ [StoreCall.projectsFindByID id] ++ [StoreCall.selectProjectProviders id])
        w.fault w.rand w.drawn w.clock w.ticks)
      { OrganizationID := p.OrganizationID, Name := newName, Description := p.Description,
        Metadata := p.Metadata, ProviderIDs := [] }
      hvalid hfault hfree hid]
    refine ⟨_, rfl, rfl, ?_, ?_⟩
    · cases p.Metadata <;> simp
    · rw [(repo_AddProvidersBulk_frame _ _ _).1]
      simp
  · intro w2 id2 name2 dup2 h
    unfold projectService.DuplicateProject at h
    generalize projectRepository.GetByID w2 id2 = x at h
    obtain ⟨r1, w1⟩ := x
    cases r1 with
    | error e => simp at h
    | ok original =>
      simp only at h
      generalize projectRepository.GetProviders w1 id2 = y at h
      obtain ⟨r2, w3⟩ := y
      cases r2 with
      | error e => exact CreateProject_ok_active _ _ _ h
      | ok providers => exact CreateProject_ok_active _ _ _ h

/-- C27 on the demo world: the duplicate of the inactive project 2 is
active. -/
theorem DuplicateProject_result_is_active_witness :
    ∃ dup, (projectService.DuplicateProject demoWorld 2 "beta copy").1 = .ok dup ∧
      dup.IsActive = true ∧ dup.Metadata ≠ none :=
  match (DuplicateProject_result_is_active demoWorld 2 "beta copy"
      ⟨2, 8, "beta", some "second", false, some [], 0, 0⟩ rfl (fun _ => rfl) (by decide)
      (by decide) (fun d h => by cases h; decide) (by decide) (by decide)).1 with
  | ⟨dup, h1, h2, h3, _⟩ => ⟨dup, h1, h2, h3⟩

/-- C23 (the code at a failing input): with the store out of reach (an error
that is neither record-not-found nor a unique-index violation) `GetByID`
returns NOT_FOUND, an error of type NotFound, and
`ExistsByNameAndOrganization` returns VALIDATION_FAILED, an error of type
Validation, each with the store error as its cause; `Update` and `Create` on
the same store return errors of type Internal. -/
theorem GetByID_outage_reported_as_not_found :
    (∃ err, demoOutage.fault 0 = some err ∧ storex.IsRecordNotFound err = false ∧
      strings.Contains err.msg "projects_name_org_unique" = false ∧
      (∃ e, (projectRepository.GetByID demoOutage 1).1 = .error e ∧
        e.Code = ErrCode.ErrProjectNotFound ∧ e.Code.errType = ErrType.TypeNotFound ∧
        e.Cause = some err) ∧
      (∃ e, (projectRepository.ExistsByNameAndOrganization demoOutage "alpha" 7 none).1
          = .error e ∧
        e.Code = ErrCode.ErrProjectValidationFailed ∧
        e.Code.errType = ErrType.TypeValidation ∧ e.Cause = some err) ∧
      (∃ e, (projectRepository.Update demoOutage 1
          ⟨1, 7, "alpha", none, true, some [], 0, 0⟩).1 = .error e ∧
        e.Code.errType = ErrType.TypeInternal ∧ e.Cause = some err) ∧
      (∃ e, (projectRepository.Create demoOutage
          ⟨0, 7, "delta", none, true, some [], 0, 0⟩).1 = .error e ∧
        e.Code.errType = ErrType.TypeInternal ∧ e.Cause = some err)) :=
  ⟨_, rfl, rfl, by decide, ⟨_, rfl, rfl, rfl, rfl⟩, ⟨_, rfl, rfl, rfl, rfl⟩,
    ⟨_, rfl, rfl, rfl⟩, ⟨_, rfl, rfl, rfl⟩⟩

/-- C24 (the code at a failing input): every project of the demo world is
within the limits, and `UpdateProject` of project 1 with the empty name
succeeds, hands the store a project with the empty name and leaves it
stored. -/
theorem UpdateProject_persists_empty_name :
    (∀ q ∈ demoWorld.db.projects, q.withinLimits = true) ∧
    (∃ p, (projectService.UpdateProject demoWorld 1 ⟨some "", none, none, none⟩).1 = .ok p ∧
      p.Name = "" ∧ p.withinLimits = false ∧
      StoreCall.projectsUpdate 1 p
        ∈ (projectService.UpdateProject demoWorld 1 ⟨some "", none, none, none⟩).2.log ∧
      p ∈ (projectService.UpdateProject demoWorld 1 ⟨some "", none, none, none⟩).2.db.projects) ∧
    (∃ c ∈ (projectService.UpdateProject demoWorld 1 ⟨some "", none, none, none⟩).2.log,
      ∃ p, c.persisted = some p ∧ p.withinLimits = false) :=
  ⟨by decide, ⟨_, rfl, rfl, by decide, by decide, by decide⟩,
    ⟨StoreCall.projectsUpdate 1 ⟨1, 7, "", none, true, some [], 0, 1000⟩, by decide,
      _, rfl, by decide⟩⟩

/-- C29: a call of `Use` that fails leaves the invitation as it was, every
field and `isUsed` in particular; and for an invitation that is both used and
expired the error is the already-used one. -/
theorem Invitation_Use_failure_changes_nothing (i : Invitation) (now : Time) :
    ((i.Use now).1 ≠ none → (i.Use now).2 = i ∧ (i.Use now).2.isUsed = i.isUsed) ∧
    (i.isUsed = true → now > i.expiresAt →
      (i.Use now).1 = some "invitation already used" ∧ (i.Use now).2 = i) := by
  constructor
  · intro h
    unfold Invitation.Use at h ⊢
    split_ifs at h ⊢
    · exact ⟨rfl, rfl⟩
    · exact ⟨rfl, rfl⟩
    · exact absurd rfl h
  · intro hused _
    simp [Invitation.Use, hused]

/-- C29 on the demo invitation: an expired use at time 200 leaves it unused,
and once used at time 50 a use at time 200 reports already-used. -/
theorem Invitation_Use_failure_changes_nothing_witness :
    (demoInvitation.Use 200).2 = demoInvitation ∧
    ((demoInvitation.Use 50).2.Use 200).1 = some "invitation already used" :=
  ⟨((Invitation_Use_failure_changes_nothing demoInvitation 200).1 (by decide)).1,
   ((Invitation_Use_failure_changes_nothing (demoInvitation.Use 50).2 200).2
      (by decide) (by decide)).1⟩

theorem Membership_afterCall_inactive (m : Membership) (c : MembershipCall)
    (h : m.isActive = false) : (m.afterCall c).isActive = false := by
  cases c <;> first | exact h | rfl

theorem Membership_afterCalls_inactive (calls : List MembershipCall) :
    ∀ m : Membership, m.isActive = false → (m.afterCalls calls).isActive = false := by
  induction calls with
  | nil => intro m h; exact h
  | cons c rest ih =>
    intro m h
    exact ih (m.afterCall c) (Membership_afterCall_inactive m c h)

/-- C30: after `Deactivate`, `HasPermission` returns false for every
permission, also after any further sequence of calls of the methods of
`Membership` (`UpdateRole` and `Deactivate` among them): an inactive
membership stays inactive through every such sequence. -/
theorem Membership_Deactivate_is_final (m : Membership) (now : Time)
    (calls : List MembershipCall) (permission : Permission) :
    (m.Deactivate now).HasPermission permission = some false ∧
    ((m.Deactivate now).afterCalls calls).isActive = false ∧
    ((m.Deactivate now).afterCalls calls).HasPermission permission = some false ∧
    (∀ m0 : Membership, m0.isActive = false → (m0.afterCalls calls).isActive = false) := by
  have h := Membership_afterCalls_inactive calls (m.Deactivate now) rfl
  refine ⟨rfl, h, ?_, Membership_afterCalls_inactive calls⟩
  simp [Membership.HasPermission, h]

/-- C30 on an administrator: deactivated, then given the administrator role
again, the membership still has no permission. -/
theorem Membership_Deactivate_is_final_witness :
    (((NewMembership "m-1" "user-1" "org-7" (some RoleOrgAdmin) 10).Deactivate 20).afterCalls
        [MembershipCall.UpdateRole (some RoleOrgAdmin) 30, MembershipCall.IsActive,
         MembershipCall.Deactivate 40]).HasPermission PermissionViewOrg = some false ∧
    ((Membership.mk "m-2" "user-2" "org-7" (some RoleOrgMember) false 10 10).afterCalls
        [MembershipCall.UpdateRole (some RoleOrgAdmin) 30]).isActive = false :=
  ⟨(Membership_Deactivate_is_final (NewMembership "m-1" "user-1" "org-7" (some RoleOrgAdmin) 10) 20
      [MembershipCall.UpdateRole (some RoleOrgAdmin) 30, MembershipCall.IsActive,
       MembershipCall.Deactivate 40] PermissionViewOrg).2.2.1,
   (Membership_Deactivate_is_final (NewMembership "m-1" "user-1" "org-7" (some RoleOrgAdmin) 10) 20
      [MembershipCall.UpdateRole (some RoleOrgAdmin) 30] PermissionViewOrg).2.2.2
      (Membership.mk "m-2" "user-2" "org-7" (some RoleOrgMember) false 10 10) rfl⟩

theorem anySuffix_iff (f : List Char → Bool) (t : List Char) :
    anySuffix f t = true ↔ ∃ u, u <:+ t ∧ f u = true := by
  induction t with
  | nil =>
    simp only [anySuffix, List.suffix_nil]
    constructor
    · intro h; exact ⟨[], rfl, h⟩
    · rintro ⟨u, rfl, h⟩; exact h
  | cons c t ih =>
    simp only [anySuffix, Bool.or_eq_true, ih]
    constructor
    · rintro (h | ⟨u, hu, h⟩)
      · exact ⟨c :: t, List.suffix_refl _, h⟩
      · exact ⟨u, hu.trans (List.suffix_cons c t), h⟩
    · rintro ⟨u, hu, h⟩
      rcases List.suffix_cons_iff.mp hu with rfl | hu
      · exact Or.inl h
      · exact Or.inr ⟨u, hu, h⟩

/-- A pattern character that `LIKE` takes literally. -/
theorem sqlLike_literal (p : Char) (ps t : List Char)
    (hp : p ≠ '%' ∧ p ≠ '_' ∧ p ≠ Char.ofNat 92) :
    sqlLike false (p :: ps) t
      = (match t with
          | [] => false
          | c :: t1 => p == c && sqlLike false ps t1) := by
  have h1 : (p == '%') = false := by simpa using hp.1
  have h2 : (p == '_') = false := by simpa using hp.2.1
  have h3 : (p == Char.ofNat 92) = false := by simpa using hp.2.2
  cases t with
  | nil => simp [sqlLike, h1, h2, h3]
  | cons c t1 => simp [sqlLike, h1, h2, h3]

theorem sqlLike_plain_starts (s : List Char)
    (hs : ∀ c ∈ s, c ≠ '%' ∧ c ≠ '_' ∧ c ≠ Char.ofNat 92) :
    ∀ u : List Char, sqlLike false (s ++ ['%']) u = true ↔ s <+: u := by
  induction s with
  | nil =>
    intro u
    simp only [List.nil_append, List.nil_prefix, iff_true]
    have h : sqlLike false ['%'] u = anySuffix (sqlLike false []) u := by
      cases u <;> simp [sqlLike]
    rw [h, anySuffix_iff]
    exact ⟨[], List.nil_suffix, by simp [sqlLike]⟩
  | cons c s ih =>
    intro u
    have hc := hs c (List.mem_cons_self _ _)
    have ih2 := ih (fun d hd => hs d (List.mem_cons_of_mem _ hd))
    rw [List.cons_append, sqlLike_literal c _ u hc]
    cases u with
    | nil => simp
    | cons d u1 =>
      simp only [Bool.and_eq_true, beq_iff_eq, ih2 u1, List.cons_prefix_cons]

theorem sqlLike_plain_occurs (s t : List Char)
    (hs : ∀ c ∈ s, c ≠ '%' ∧ c ≠ '_' ∧ c ≠ Char.ofNat 92) :
    sqlLike false ('%' :: (s ++ ['%'])) t = true ↔ s <:+: t := by
  have h : sqlLike false ('%' :: (s ++ ['%'])) t = anySuffix (sqlLike false (s ++ ['%'])) t := by
    cases t <;> simp [sqlLike]
  rw [h, anySuffix_iff, List.infix_iff_prefix_suffix]
  constructor
  · rintro ⟨u, hu, hm⟩
    exact ⟨u, (sqlLike_plain_starts s hs u).mp hm, hu⟩
  · rintro ⟨u, hp, hu⟩
    exact ⟨u, hu, (sqlLike_plain_starts s hs u).mpr hp⟩

theorem toLower_plain (c : Char) (hc : c ≠ '%' ∧ c ≠ '_' ∧ c ≠ Char.ofNat 92) :
    c.toLower ≠ '%' ∧ c.toLower ≠ '_' ∧ c.toLower ≠ Char.ofNat 92 := by
  unfold Char.toLower
  by_cases h : c.toNat ≥ 65 ∧ c.toNat ≤ 90
  · simp only [h, and_self, if_true]
    obtain ⟨h1, h2⟩ := h
    generalize c.toNat = n at h1 h2
    interval_cases n <;> decide
  · simp only [h, if_false]
    exact hc

/-- For a term without `%`, `_` and backslash, `ILIKE` with the pattern
`%term%` is the case-insensitive substring test. -/
theorem ILIKE_plain (s text : String)
    (hs : ∀ c ∈ s.data, c ≠ '%' ∧ c ≠ '_' ∧ c ≠ Char.ofNat 92) :
    ILIKE text ("%" ++ s ++ "%") = containsIgnoreCase s text := by
  have hpat : ("%" ++ s ++ "%").data.map Char.toLower
      = '%' :: (s.data.map Char.toLower ++ ['%']) := by
    simp only [String.data_append, List.map_append]
    rfl
  have hs2 : ∀ c ∈ s.data.map Char.toLower, c ≠ '%' ∧ c ≠ '_' ∧ c ≠ Char.ofNat 92 := by
    intro c hc
    obtain ⟨d, hd, rfl⟩ := List.mem_map.mp hc
    exact toLower_plain d (hs d hd)
  unfold ILIKE containsIgnoreCase
  rw [hpat]
  rw [Bool.eq_iff_iff, sqlLike_plain_occurs _ _ hs2]
  simp

theorem matchesProject_search (req : ProjectListRequest) (s : String) (p : Project)
    (hsearch : req.Search = some s) (hne : s ≠ "") :
    (projectRepository.List.options req).Filters.matchesProject p
      = ((match req.OrganizationID with
            | some orgID => p.OrganizationID == orgID
            | none => true) &&
          (match req.IsActive with
            | some b => p.IsActive == b
            | none => true) &&
          (ILIKE p.Name ("%" ++ s ++ "%") ||
            (match p.Description with
              | some d => ILIKE d ("%" ++ s ++ "%")
              | none => false))) := by
  have hb : (s != "") = true := by simpa using hne
  obtain ⟨o, a, se, pg, ps, sb, so⟩ := req
  simp only at hsearch
  subst hsearch
  cases o <;> cases a <;> cases hd : p.Description <;>
    simp [projectRepository.List.options, Filters.matchesProject, IlikeCond.holdsProject, hb, hd]

/-- C26 (counterexample): the term `l_h` does not occur in "alpha", yet the
list filter selects the project of that name and `Search` returns it: the
`_` of the term stands for any one character of the text. -/
theorem search_term_wildcard_selects_more :
    ¬ (∀ p ∈ demoWorld.db.projects,
        ((projectRepository.List.options
            ⟨none, none, some "l_h", 1, 20, "", ""⟩).Filters.matchesProject p = true
          ↔ p.mentions "l_h" = true)) ∧
    ¬ (∀ found, (projectRepository.Search demoWorld "l_h" 7).1 = .ok found →
        ∀ p ∈ found, p.mentions "l_h" = true) := by
  constructor
  · decide
  · intro h
    have h1 := h [⟨1, 7, "alpha", none, true, some [], 0, 0⟩] rfl
      ⟨1, 7, "alpha", none, true, some [], 0, 0⟩ (List.mem_singleton.mpr rfl)
    exact absurd h1 (by decide)

/-- C26 (amended): for every non-empty search term `s`, the pattern given to
the store is `%` followed by `s` followed by `%`; and when `s` contains none
of the characters `%`, `_` and backslash, the list filter selects a project
exactly when it passes the organization and activity filters and `s` occurs
without regard to case in its name or its description, and `Search` (the
store answering) returns exactly the active projects of the organization in
whose name or description `s` so occurs. -/
theorem search_selects_case_insensitive_substring (s : String) (hne : s ≠ "") :
    (∀ req : ProjectListRequest, req.Search = some s →
      (projectRepository.List.options req).Filters.orIlike
        = some [⟨"name", "%" ++ s ++ "%"⟩, ⟨"description", "%" ++ s ++ "%"⟩]) ∧
    (∀ (w : World) (orgID : UUID), (projectRepository.Search w s orgID).2.log
      = w.log ++ [StoreCall.selectProjectsSearch orgID ("%" ++ s ++ "%")]) ∧
    ((∀ c ∈ s.data, c ≠ '%' ∧ c ≠ '_' ∧ c ≠ Char.ofNat 92) →
      (∀ (req : ProjectListRequest) (p : Project), req.Search = some s →
        ((projectRepository.List.options req).Filters.matchesProject p = true
          ↔ (∀ orgID, req.OrganizationID = some orgID → p.OrganizationID = orgID) ∧
            (∀ b, req.IsActive = some b → p.IsActive = b) ∧
            p.mentions s = true)) ∧
      (∀ (w : World) (orgID : UUID), w.fault w.log.length = none →
        ∃ found, (projectRepository.Search w s orgID).1 = .ok found ∧
          ∀ p, p ∈ found ↔
            p ∈ w.db.projects ∧ p.OrganizationID = orgID ∧ p.IsActive = true ∧
            p.mentions s = true)) := by
  have hb : (s != "") = true := by simpa using hne
  refine ⟨?_, ?_, ?_⟩
  · intro req hsearch
    unfold projectRepository.List.options
    simp only [hsearch, hb, if_true]
  · intro w orgID
    have h := (call_frame w (StoreCall.selectProjectsSearch orgID ("%" ++ s ++ "%"))
      (fun db => (.ok (w.schema.orderProjects "name" false
        (db.searchProjects orgID ("%" ++ s ++ "%")), db) :
          Except DbErr (List Project × DB)))).2.2.2.2.2.2
    unfold projectRepository.Search sqlx.SelectProjectsSearch
    simp only
    generalize World.call w _ _ = x at h ⊢
    obtain ⟨r, w1⟩ := x
    cases r <;> exact h
  · intro hplain
    constructor
    · intro req p hsearch
      rw [matchesProject_search req s p hsearch hne]
      have hm : (ILIKE p.Name ("%" ++ s ++ "%") ||
          (match p.Description with
            | some d => ILIKE d ("%" ++ s ++ "%")
            | none => false)) = p.mentions s := by
        unfold Project.mentions
        rw [ILIKE_plain s p.Name hplain]
        cases p.Description with
        | none => rfl
        | some d => simp only [ILIKE_plain s d hplain]
      rw [hm]
      cases req.OrganizationID <;> cases req.IsActive <;> simp [and_assoc]
    · intro w orgID hfault
      refine ⟨w.schema.orderProjects "name" false (w.db.searchProjects orgID ("%" ++ s ++ "%")),
        ?_, ?_⟩
      · simp only [projectRepository.Search, sqlx.SelectProjectsSearch, World.call, hfault]
      · intro p
        rw [(w.schema.orderProjects_perm "name" false _).mem_iff]
        unfold DB.searchProjects Project.mentions
        simp only [List.mem_filter, Bool.and_eq_true, beq_iff_eq]
        rw [ILIKE_plain s p.Name hplain]
        cases hd : p.Description with
        | none => simp only []; tauto
        | some d => simp only [ILIKE_plain s d hplain]; tauto

/-- C26 (amended) on the demo world: the term "LPH" selects project "alpha"
and `Search` for it in organization 7 returns a list in which every project
mentions it. -/
theorem search_selects_case_insensitive_substring_witness :
    ((projectRepository.List.options ⟨none, none, some "LPH", 1, 20, "", ""⟩).Filters.matchesProject
        ⟨1, 7, "alpha", none, true, some [], 0, 0⟩ = true) ∧
    ∃ found, (projectRepository.Search demoWorld "LPH" 7).1 = .ok found ∧
      ∀ p, p ∈ found ↔ p ∈ demoWorld.db.projects ∧ p.OrganizationID = 7 ∧ p.IsActive = true ∧
        p.mentions "LPH" = true :=
  ⟨(((search_selects_case_insensitive_substring "LPH" (by decide)).2.2 (by decide)).1
      ⟨none, none, some "LPH", 1, 20, "", ""⟩ ⟨1, 7, "alpha", none, true, some [], 0, 0⟩ rfl).mpr
      ⟨fun _ h => Option.noConfusion h, fun _ h => Option.noConfusion h, by decide⟩,
   ((search_selects_case_insensitive_substring "LPH" (by decide)).2.2 (by decide)).2
      demoWorld 7 rfl⟩

theorem List_defaults_bounds (req : ProviderListRequest)
    (hpage : 0 ≤ req.Page) (hsize : 0 ≤ req.PageSize) :
    1 ≤ (providerRepository.List.defaults req).Page ∧
    1 ≤ (providerRepository.List.defaults req).PageSize ∧
    (providerRepository.List.defaults req).Page = (if req.Page = 0 then 1 else req.Page) ∧
    (providerRepository.List.defaults req).PageSize
      = (if req.PageSize = 0 then 20 else req.PageSize) ∧
    (providerRepository.List.defaults req).Search = req.Search := by
  unfold providerRepository.List.defaults
  by_cases h1 : req.Page = 0 <;> by_cases h2 : req.PageSize = 0 <;>
    cases h3 : req.OrderBy <;> simp [h1, h2, h3] <;> omega

theorem buildListResponseWithPagination_some (result : Paginated Provider)
    (page pageSize total : Int) (hsize : pageSize ≠ 0) :
    ∃ resp, providerRepository.buildListResponseWithPagination result page pageSize total
      = some resp := by
  have hne : (pageSize == 0) = false := by simpa using hsize
  simp only [providerRepository.buildListResponseWithPagination, hne, Bool.false_eq_true,
    if_false]
  exact ⟨_, rfl⟩

theorem searchProviders_no_panic (w : World) (query : String) (opts : PaginationOptions)
    (hsize : opts.PageSize ≠ 0) :
    (providerRepository.searchProviders w query opts).1 ≠ .ok none := by
  unfold providerRepository.searchProviders
  simp only
  generalize sqlx.SelectProvidersSearch _ _ _ _ _ _ _ _ = x
  obtain ⟨r1, w1⟩ := x
  cases r1 with
  | error e => simp
  | ok providersData =>
    simp only
    generalize sqlx.GetCountProvidersSearch _ _ _ _ = y
    obtain ⟨r2, w2⟩ := y
    cases r2 with
    | error e => simp
    | ok total =>
      obtain ⟨resp, hresp⟩ := buildListResponseWithPagination_some
        { Data := providersData, Total := 0, Page := 0, PageSize := 0, TotalPages := 0,
          HasNext := false, HasPrevious := false } opts.Page opts.PageSize total hsize
      simp only [hresp]
      intro h
      cases h

/-- C28 (counterexample): the request with page 4611686018427387905 and page
size 2 (both valid values of `int`, both accepted by the handler) and the
search term "o" reaches the store with a negative row offset: the product
(page - 1) * pageSize is 2^63 and wraps to -2^63. -/
theorem List_search_offset_can_be_negative :
    ¬ (∀ pattern orgID isActive orderBy direction limit offset,
        StoreCall.selectProvidersSearch pattern orgID isActive orderBy direction limit offset
          ∈ (providerRepository.List demoWorld
              ⟨none, none, some "o", 4611686018427387905, 2, none, false⟩).2.log →
        0 ≤ offset) := by
  intro h
  have h1 := h "%o%" none none "created_at" "ASC" 2 (-9223372036854775808) (by decide)
  exact absurd h1 (by decide)

/-- C28 (amended): for every provider list request with page >= 0 and
pageSize >= 0 that carries a non-empty search term, `List` reaches
`searchProviders` with page >= 1 and pageSize >= 1, so that the division
computing totalPages never divides by zero (no panic); and when the product
(page - 1) * pageSize is within the range of `int`, the row offset sent to the
store is that product and is non-negative. -/
theorem List_search_pagination_safe (w : World) (req : ProviderListRequest) (search : String)
    (hsearch : req.Search = some search) (hne : search ≠ "")
    (hpage : 0 ≤ req.Page) (hsize : 0 ≤ req.PageSize) :
    providerRepository.List w req
      = providerRepository.searchProviders w search
          (providerRepository.List.options (providerRepository.List.defaults req)) ∧
    1 ≤ (providerRepository.List.options (providerRepository.List.defaults req)).Page ∧
    1 ≤ (providerRepository.List.options (providerRepository.List.defaults req)).PageSize ∧
    (providerRepository.List w req).1 ≠ .ok none ∧
    (∀ result total, ∃ resp, providerRepository.buildListResponseWithPagination result
        (providerRepository.List.options (providerRepository.List.defaults req)).Page
        (providerRepository.List.options (providerRepository.List.defaults req)).PageSize total
      = some resp) ∧
    (((if req.Page = 0 then 1 else req.Page) - 1) * (if req.PageSize = 0 then 20 else req.PageSize)
        < 2 ^ 63 →
      0 ≤ ((if req.Page = 0 then 1 else req.Page) - 1)
          * (if req.PageSize = 0 then 20 else req.PageSize) ∧
      ∃ pattern orgID isActive orderBy direction rest,
        (providerRepository.List w req).2.log
          = w.log ++ StoreCall.selectProvidersSearch pattern orgID isActive orderBy direction
              (if req.PageSize = 0 then 20 else req.PageSize)
              (((if req.Page = 0 then 1 else req.Page) - 1)
                * (if req.PageSize = 0 then 20 else req.PageSize)) :: rest) := by
  obtain ⟨hp1, hs1, hpe, hse, hsr⟩ := List_defaults_bounds req hpage hsize
  have hop : (providerRepository.List.options (providerRepository.List.defaults req)).Page
      = (providerRepository.List.defaults req).Page := rfl
  have hos : (providerRepository.List.options (providerRepository.List.defaults req)).PageSize
      = (providerRepository.List.defaults req).PageSize := rfl
  have hb : (search != "") = true := by simpa using hne
  have hlist : providerRepository.List w req
      = providerRepository.searchProviders w search
          (providerRepository.List.options (providerRepository.List.defaults req)) := by
    unfold providerRepository.List
    simp only [hsr, hsearch, hb, if_true]
  have hs0 : (providerRepository.List.options (providerRepository.List.defaults req)).PageSize
      ≠ 0 := by rw [hos]; omega
  refine ⟨hlist, by rw [hop]; exact hp1, by rw [hos]; exact hs1, ?_, ?_, ?_⟩
  · rw [hlist]
    exact searchProviders_no_panic w search _ hs0
  · intro result total
    exact buildListResponseWithPagination_some result _ _ total hs0
  · intro hrange
    rw [← hpe, ← hse] at hrange ⊢
    have hnn : 0 ≤ ((providerRepository.List.defaults req).Page - 1)
        * (providerRepository.List.defaults req).PageSize :=
      mul_nonneg (by omega) (by omega)
    have hle : (providerRepository.List.defaults req).Page - 1
        ≤ ((providerRepository.List.defaults req).Page - 1)
          * (providerRepository.List.defaults req).PageSize :=
      le_mul_of_one_le_right (by omega) hs1
    have hw1 : wrapInt ((providerRepository.List.defaults req).Page - 1)
        = (providerRepository.List.defaults req).Page - 1 :=
      wrapInt_of_range _ (by norm_num; omega) (by omega)
    have hw2 : wrapInt (((providerRepository.List.defaults req).Page - 1)
        * (providerRepository.List.defaults req).PageSize)
        = ((providerRepository.List.defaults req).Page - 1)
          * (providerRepository.List.defaults req).PageSize :=
      wrapInt_of_range _ (by norm_num; omega) hrange
    refine ⟨hnn, ?_⟩
    obtain ⟨rest, hrest⟩ := searchProviders_log w search
      (providerRepository.List.options (providerRepository.List.defaults req))
    rw [hop, hos, hw1, hw2] at hrest
    exact ⟨_, _, _, _, _, rest, by rw [hlist]; exact hrest⟩

/-- C28 (amended) on the demo world: a search with page and page size left
at 0 goes to the store with limit 20 and offset 0, and page 3 of size 10 with
offset 20. -/
theorem List_search_pagination_safe_witness :
    (providerRepository.List demoWorld ⟨none, none, some "o", 0, 0, none, false⟩).1 ≠ .ok none ∧
    ∃ pattern orgID isActive orderBy direction rest,
      (providerRepository.List demoWorld ⟨none, none, some "o", 3, 10, none, false⟩).2.log
        = StoreCall.selectProvidersSearch pattern orgID isActive orderBy direction 10 20 :: rest :=
  ⟨(List_search_pagination_safe demoWorld ⟨none, none, some "o", 0, 0, none, false⟩ "o" rfl
      (by decide) (by decide) (by decide)).2.2.2.1,
   ((List_search_pagination_safe demoWorld ⟨none, none, some "o", 3, 10, none, false⟩ "o" rfl
      (by decide) (by decide) (by decide)).2.2.2.2.2 (by decide)).2⟩

end Backend
